import Mathlib

/-!
# TLS 1.3 record protection (`ssl/record/methods/tls13_meth.c`)

A shallow embedding of `tls13_cipher`, the per-record AEAD seal/open of the
TLS 1.3 record method, together with theorems about nonce derivation, the
sequence counter, the associated data and the failure paths.

Modelling conventions.

* A byte is a `Nat`; the only byte arithmetic in the source is `^` (xor) and
  `++` on an `unsigned char`, embedded as `^^^` and `(b + 1) % 256`.
* Sizes (`size_t`) are `Nat`. Every size that is added in the source
  (`rec->length + rl->taglen`, `rl->taglen + 1`) is the extent of a buffer the
  same call reads or writes, so the sums stay below `2 ^ 64`; the one
  narrowing cast, `(unsigned int)rec->length`, is kept as `% 2 ^ 32`.
* Memory is a flat map from addresses to bytes. `rec->data` and `rec->input`
  are addresses, so the two buffers may coincide, overlap or be disjoint.
* The EVP cipher context is an abstract value of a type `Ctx`; the library is
  a transition function `EVP.step` on contexts. Every EVP call the source
  makes is one `EVP.step`, recorded with its result in the ghost field
  `State.calls`. A call that fails (`<= 0`) produces no output bytes.
* `RLAYERfatal` appends to the ghost log `State.fatals`.
-/

namespace Tls13

/-! ## Constants declared in headers -/

/-- Modelled from the spec: `SEQ_NUM_SIZE`, the width of the sequence counter
("8-byte big-endian unsigned counter"); its declaration is in a header that is
not among the sources. -/
def SEQ_NUM_SIZE : Nat := 8

/-- Modelled from the spec: `SSL3_RT_HEADER_LENGTH`, the size of the record
header used as associated data ("exactly 5 bytes per record"); its declaration
is in a header that is not among the sources. -/
def SSL3_RT_HEADER_LENGTH : Nat := 5

/-- Modelled from the spec: `SSL3_RT_ALERT`, the record type of an alert; its
declaration is in a header that is not among the sources. The value is the
alert content type of the TLS standard; the theorems use it only through the
equality test of the source. -/
def SSL3_RT_ALERT : Nat := 21

/-- Modelled from the spec: `EVP_CIPH_CCM_MODE`, the mode identifier of
counter-with-CBC-MAC; its declaration is in a header that is not among the
sources. The theorems use it only through the equality test of the source. -/
def EVP_CIPH_CCM_MODE : Nat := 7

/-- Modelled from the spec: `SSL_AD_INTERNAL_ERROR`, the alert raised on a
fatal internal error; its declaration is in a header that is not among the
sources. -/
def SSL_AD_INTERNAL_ERROR : Nat := 80

/-- Reason codes passed to `RLAYERfatal` in this file. -/
inductive ErrReason where
  | ERR_R_INTERNAL_ERROR
  | ERR_R_MALLOC_FAILURE
  | ERR_R_EVP_LIB
  deriving DecidableEq, Repr

/-! ## Memory -/

/-- Flat byte-addressed memory. -/
abbrev Mem := Nat → Nat

/-- The `n` bytes stored at addresses `p, p+1, ..., p+n-1`. -/
def readBytes (m : Mem) (p n : Nat) : List Nat :=
  (List.range n).map (fun i => m (p + i))

/-- Store the bytes `bs` at addresses `p, p+1, ...`. -/
def writeBytes (m : Mem) (p : Nat) (bs : List Nat) : Mem :=
  fun a => if p ≤ a ∧ a < p + bs.length then bs.getD (a - p) 0 else m a

/-- C `memmove(dst, src, n)`: the source bytes are read before any is
written, so overlapping regions are handled. -/
def memmove (m : Mem) (dst src n : Nat) : Mem :=
  writeBytes m dst (readBytes m src n)

/-! ## The EVP library as a transition system -/

/-- The EVP calls made by `tls13_cipher`, with the argument values that reach
the library. A pointer argument that the library reads through is given by the
bytes it points at; an output pointer is given by its address. -/
inductive EvpCall where
  /-- Call `EVP_CipherInit_ex(ctx, NULL, NULL, NULL, iv, enc)`. -/
  | CipherInit_ex (iv : List Nat) (enc : Bool)
  /-- Call `EVP_CIPHER_CTX_ctrl(ctx, EVP_CTRL_AEAD_SET_TAG, arg, ptr)`, with
  the `arg` bytes found at `ptr`. -/
  | ctrl_AEAD_SET_TAG (arg : Nat) (tag : List Nat)
  /-- Call `EVP_CIPHER_CTX_ctrl(ctx, EVP_CTRL_AEAD_GET_TAG, arg, ptr)`. -/
  | ctrl_AEAD_GET_TAG (arg : Nat) (ptr : Nat)
  /-- Call `EVP_CipherUpdate(ctx, out, &lenu, in, inl)`; `out` and `inp` are
  `none` for a `NULL` pointer. -/
  | CipherUpdate (out : Option Nat) (inp : Option (List Nat)) (inl : Nat)
  /-- Call `EVP_CipherFinal_ex(ctx, out, &lenf)`. -/
  | CipherFinal_ex (out : Nat)
  deriving DecidableEq, Repr

/-- The EVP calls made by `tls13_set_crypto_state` on the context it creates,
with the argument values that reach the library. -/
inductive SetupCall (Cipher : Type) where
  /-- Call `EVP_DecryptInit_ex(ctx, ciph, NULL, NULL, NULL)`. -/
  | DecryptInit_ex_cipher (ciph : Cipher)
  /-- Call `EVP_CIPHER_CTX_ctrl(ctx, EVP_CTRL_AEAD_SET_IVLEN, arg, NULL)`. -/
  | ctrl_AEAD_SET_IVLEN (arg : Nat)
  /-- Call `EVP_CIPHER_CTX_ctrl(ctx, EVP_CTRL_AEAD_SET_TAG, arg, NULL)`: the
  tag length alone, no tag value. -/
  | ctrl_AEAD_SET_TAG (arg : Nat)
  /-- Call `EVP_DecryptInit_ex(ctx, NULL, NULL, key, NULL)`. -/
  | DecryptInit_ex_key (key : List Nat)
  deriving DecidableEq, Repr

/-- The part of the EVP library used by the record method. `step c call` is
the context after the call and, when the call succeeds (returns `> 0`), the
bytes it wrote through its output pointer (none for a call without output). -/
structure EVP (Ctx Cipher : Type) where
  /-- Function `EVP_CIPHER_CTX_get0_cipher`; the argument is `none` for a
  `NULL` context, the result `none` for a `NULL` cipher. -/
  CIPHER_CTX_get0_cipher : Option Ctx → Option Cipher
  /-- Function `EVP_CIPHER_get_mode`. -/
  CIPHER_get_mode : Cipher → Nat
  /-- Function `EVP_CIPHER_CTX_get_iv_length`. -/
  CIPHER_CTX_get_iv_length : Ctx → Nat
  /-- The effect of one call on a context. -/
  step : Ctx → EvpCall → Ctx × Option (List Nat)
  /-- Function `EVP_CIPHER_CTX_new`: the fresh context, `none` when the
  allocation fails. -/
  CIPHER_CTX_new : Option Ctx
  /-- The effect of one set-up call on a context, with whether it succeeded
  (returned `> 0`). -/
  setup : Ctx → SetupCall Cipher → Ctx × Bool

/-! ## Records and connection state -/

/-- The fields of `SSL3_RECORD` used by `tls13_cipher`. -/
structure SSL3_RECORD where
  rec_version : Nat
  type : Nat
  length : Nat
  /-- Address of the output buffer, `rec->data`. -/
  data : Nat
  /-- Address of the input buffer, `rec->input`. -/
  input : Nat
  deriving DecidableEq, Repr

/-- The state `tls13_cipher` reads and writes: the per-direction cipher
contexts, static IVs and sequence counters of `rl` and `s`, the tag length,
memory, and the two ghost logs. -/
structure State (Ctx : Type) where
  /-- Field `s->enc_write_ctx`. -/
  enc_write_ctx : Option Ctx
  /-- Field `s->write_iv`. -/
  write_iv : List Nat
  /-- The write sequence counter of `s->rlayer`. -/
  write_sequence : List Nat
  /-- Field `rl->enc_read_ctx`. -/
  enc_read_ctx : Option Ctx
  /-- Field `rl->iv`. -/
  iv : List Nat
  /-- The read sequence counter of `s->rlayer`. -/
  read_sequence : List Nat
  /-- Field `rl->taglen`. -/
  taglen : Nat
  mem : Mem
  /-- Ghost: every `RLAYERfatal` raised so far, oldest first. -/
  fatals : List (Nat × ErrReason)
  /-- Ghost: every EVP call made so far with its result, oldest first. -/
  calls : List (EvpCall × Option (List Nat))

variable {Ctx Cipher : Type}

/-- Macro `RLAYERfatal(rl, al, reason)`. -/
def RLAYERfatal (st : State Ctx) (al : Nat) (reason : ErrReason) : State Ctx :=
  { st with fatals := st.fatals ++ [(al, reason)] }

/-- The cipher context of a direction (lines 82-90, `ctx`). -/
def dirCtx (st : State Ctx) (sending : Bool) : Option Ctx :=
  if sending then st.enc_write_ctx else st.enc_read_ctx

/-- The static IV of a direction (lines 82-90, `staticiv`). -/
def dirIV (st : State Ctx) (sending : Bool) : List Nat :=
  if sending then st.write_iv else st.iv

/-- The sequence counter of a direction (lines 82-90, `seq`). -/
def dirSeq (st : State Ctx) (sending : Bool) : List Nat :=
  if sending then st.write_sequence else st.read_sequence

/-- Store through the pointer `seq` of a direction. -/
def setSeq (st : State Ctx) (sending : Bool) (seq : List Nat) : State Ctx :=
  if sending then { st with write_sequence := seq } else { st with read_sequence := seq }

/-- Record one EVP call on the context of a direction: the context object is
updated in place and the call is logged. -/
def logCall (st : State Ctx) (sending : Bool) (call : EvpCall)
    (r : Ctx × Option (List Nat)) : State Ctx :=
  if sending then
    { st with enc_write_ctx := some r.1, calls := st.calls ++ [(call, r.2)] }
  else
    { st with enc_read_ctx := some r.1, calls := st.calls ++ [(call, r.2)] }

/-! ## WPACKET -/

/-- Modelled from the spec: the `WPACKET` writer of the library (its source is
not among the sources at hand), restricted to a static buffer without length
prefix as set up by `WPACKET_init_static_len(&wpkt, buf, len, 0)`. The spec
gives the layout it is used for: "type (1 byte), version (2 bytes,
big-endian), length (2 bytes, big-endian)". -/
structure WPACKET where
  /-- Bytes written so far. -/
  written : List Nat
  /-- Capacity of the static buffer. -/
  maxsize : Nat
  deriving DecidableEq, Repr

/-- Modelled from the spec: `WPACKET_init_static_len(&wpkt, buf, len, 0)`. -/
def WPACKET_init_static_len (len : Nat) : Option WPACKET :=
  some { written := [], maxsize := len }

/-- Big-endian encoding of `val` in `size` bytes (the low `size` bytes). -/
def putValue : Nat → Nat → List Nat
  | 0, _ => []
  | size + 1, val => putValue size (val / 256) ++ [val % 256]

/-- Modelled from the spec: `WPACKET_put_bytes__(pkt, val, size)`, which
appends `val` as `size` big-endian bytes and fails when the buffer has no
room or `val` does not fit in `size` bytes. -/
def WPACKET_put_bytes (pkt : WPACKET) (val size : Nat) : Option WPACKET :=
  if pkt.maxsize < pkt.written.length + size then none
  else if 256 ^ size ≤ val then none
  else some { pkt with written := pkt.written ++ putValue size val }

/-- Modelled from the spec: `WPACKET_put_bytes_u8`. -/
def WPACKET_put_bytes_u8 (pkt : WPACKET) (val : Nat) : Option WPACKET :=
  WPACKET_put_bytes pkt val 1

/-- Modelled from the spec: `WPACKET_put_bytes_u16`. -/
def WPACKET_put_bytes_u16 (pkt : WPACKET) (val : Nat) : Option WPACKET :=
  WPACKET_put_bytes pkt val 2

/-- Modelled from the spec: `WPACKET_get_total_written`. -/
def WPACKET_get_total_written (pkt : WPACKET) : Nat := pkt.written.length

/-! ## `tls13_cipher` -/

/-- Lines 129-132: the per-record nonce. `memcpy(iv, staticiv, offset)`
followed by the xor loop over the `SEQ_NUM_SIZE` trailing bytes. -/
def deriveNonce (staticiv seq : List Nat) (ivlen : Nat) : List Nat :=
  let offset := ivlen - SEQ_NUM_SIZE
  staticiv.take offset ++
    (List.range SEQ_NUM_SIZE).map
      (fun loop => staticiv.getD (offset + loop) 0 ^^^ seq.getD loop 0)

/-- Lines 135-139: the increment loop, entered with the loop variable equal
to the first argument. The result is the value of `loop` on exit and the
counter on exit. -/
def incrementLoop : Nat → List Nat → Nat × List Nat
  | 0, seq => (0, seq)
  | loop + 1, seq =>
    let seq1 := seq.set loop ((seq.getD loop 0 + 1) % 256)
    if seq1.getD loop 0 ≠ 0 then (loop + 1, seq1) else incrementLoop loop seq1

/-- Lines 154-160: the record header built in `recheader` and used as
associated data; `none` when any step of the `WPACKET` chain fails. -/
def buildHeader (rec : SSL3_RECORD) (taglen : Nat) : Option (List Nat) :=
  match WPACKET_init_static_len SSL3_RT_HEADER_LENGTH with
  | none => none
  | some w0 =>
    match WPACKET_put_bytes_u8 w0 rec.type with
    | none => none
    | some w1 =>
      match WPACKET_put_bytes_u16 w1 rec.rec_version with
      | none => none
      | some w2 =>
        match WPACKET_put_bytes_u16 w2 (rec.length + taglen) with
        | none => none
        | some w3 =>
          if WPACKET_get_total_written w3 ≠ SSL3_RT_HEADER_LENGTH then none
          else some w3.written

/-- Lines 170-191 of `tls13_cipher`: feeding the cipher and placing the tag.
`st` is the state after the nonce (and on open the expected tag) has been
set, `c` the context at that point, `rec` the record with the tag already
taken off on open. -/
def tls13_cipher_feed (E : EVP Ctx Cipher) (st : State Ctx) (rec : SSL3_RECORD)
    (sending : Bool) (c : Ctx) (mode : Nat) (recheader : List Nat) :
    Nat × State Ctx × SSL3_RECORD :=
  let inl := rec.length % 2 ^ 32
  -- lines 170-172: CCM only, the total plaintext length
  let callL := EvpCall.CipherUpdate none none inl
  let rL := if mode = EVP_CIPH_CCM_MODE then E.step c callL else (c, some [])
  let stL := if mode = EVP_CIPH_CCM_MODE then logCall st sending callL rL else st
  match rL.2 with
  | none => (0, stL, rec)
  | some _ =>
    -- lines 173-174: the associated data
    let callA := EvpCall.CipherUpdate none (some recheader) SSL3_RT_HEADER_LENGTH
    let rA := E.step rL.1 callA
    let stA := logCall stL sending callA rA
    match rA.2 with
    | none => (0, stA, rec)
    | some _ =>
      -- lines 175-176: the payload
      let callP := EvpCall.CipherUpdate (some rec.data)
        (some (readBytes stA.mem rec.input inl)) inl
      let rP := E.step rA.1 callP
      let stP := logCall stA sending callP rP
      match rP.2 with
      | none => (0, stP, rec)
      | some outu =>
        let stP1 := { stP with mem := writeBytes stP.mem rec.data outu }
        let lenu := outu.length
        -- line 177
        let callF := EvpCall.CipherFinal_ex (rec.data + lenu)
        let rF := E.step rP.1 callF
        let stF := logCall stP1 sending callF rF
        match rF.2 with
        | none => (0, stF, rec)
        | some outf =>
          let stF1 := { stF with mem := writeBytes stF.mem (rec.data + lenu) outf }
          let lenf := outf.length
          -- line 178
          if lenu + lenf ≠ rec.length then (0, stF1, rec)
          else if sending then
            -- lines 183-188
            let callT := EvpCall.ctrl_AEAD_GET_TAG st.taglen (rec.data + rec.length)
            let rT := E.step rF.1 callT
            let stT := logCall stF1 sending callT rT
            match rT.2 with
            | none =>
              (0, RLAYERfatal stT SSL_AD_INTERNAL_ERROR ErrReason.ERR_R_INTERNAL_ERROR, rec)
            | some tag =>
              (1, { stT with mem := writeBytes stT.mem (rec.data + rec.length) tag },
                { rec with length := rec.length + st.taglen })
          else (1, stF1, rec)

/-- Lines 145-191 of `tls13_cipher`: binding the nonce, setting the expected
tag on open, building the header, then `tls13_cipher_feed`. -/
def tls13_cipher_crypt (E : EVP Ctx Cipher) (st : State Ctx) (rec : SSL3_RECORD)
    (sending : Bool) (c : Ctx) (mode : Nat) (iv : List Nat) :
    Nat × State Ctx × SSL3_RECORD :=
  -- line 145
  let callI := EvpCall.CipherInit_ex iv sending
  let rI := E.step c callI
  let stI := logCall st sending callI rI
  match rI.2 with
  | none => (0, RLAYERfatal stI SSL_AD_INTERNAL_ERROR ErrReason.ERR_R_INTERNAL_ERROR, rec)
  | some _ =>
    -- lines 146-148: on open, the expected tag read at rec->data + rec->length
    let callS := EvpCall.ctrl_AEAD_SET_TAG st.taglen
      (readBytes stI.mem (rec.data + rec.length) st.taglen)
    let rS := if sending then (rI.1, some []) else E.step rI.1 callS
    let stS := if sending then stI else logCall stI sending callS rS
    match rS.2 with
    | none => (0, RLAYERfatal stS SSL_AD_INTERNAL_ERROR ErrReason.ERR_R_INTERNAL_ERROR, rec)
    | some _ =>
      -- lines 154-164
      match buildHeader rec st.taglen with
      | none => (0, RLAYERfatal stS SSL_AD_INTERNAL_ERROR ErrReason.ERR_R_INTERNAL_ERROR, rec)
      | some recheader => tls13_cipher_feed E stS rec sending rS.1 mode recheader

/-- Lines 105-109: the plaintext path, `memmove(rec->data, rec->input,
rec->length); rec->input = rec->data; return 1`. -/
def tls13_cipher_plain (st : State Ctx) (rec : SSL3_RECORD) :
    Nat × State Ctx × SSL3_RECORD :=
  (1, { st with mem := memmove st.mem rec.data rec.input rec.length },
    { rec with input := rec.data })

/-- Lines 82-192 of `tls13_cipher`, on the record `rec = &recs[0]`. -/
def tls13_cipher_rec (E : EVP Ctx Cipher) (st : State Ctx) (rec : SSL3_RECORD)
    (sending : Bool) : Nat × State Ctx × SSL3_RECORD :=
  let ctx := dirCtx st sending
  let staticiv := dirIV st sending
  let seq := dirSeq st sending
  -- lines 92-97
  match E.CIPHER_CTX_get0_cipher ctx with
  | none => (0, RLAYERfatal st SSL_AD_INTERNAL_ERROR ErrReason.ERR_R_INTERNAL_ERROR, rec)
  | some cipher =>
    let mode := E.CIPHER_get_mode cipher
    -- line 105
    match ctx with
    | none => tls13_cipher_plain st rec
    | some c =>
      if rec.type = SSL3_RT_ALERT then tls13_cipher_plain st rec
      else
        let ivlen := E.CIPHER_CTX_get_iv_length c
        -- lines 113-121
        if sending = false ∧ rec.length < st.taglen + 1 then (0, st, rec)
        else
          let rec1 := if sending then rec else { rec with length := rec.length - st.taglen }
          -- lines 124-128
          if ivlen < SEQ_NUM_SIZE then
            (0, RLAYERfatal st SSL_AD_INTERNAL_ERROR ErrReason.ERR_R_INTERNAL_ERROR, rec1)
          else
            -- lines 129-132
            let iv := deriveNonce staticiv seq ivlen
            -- lines 135-143
            let inc := incrementLoop SEQ_NUM_SIZE seq
            let st1 := setSeq st sending inc.2
            if inc.1 = 0 then (0, st1, rec1)
            else tls13_cipher_crypt E st1 rec1 sending c mode iv

/-- Function `tls13_cipher(rl, recs, n_recs, sending, mac, macsize, s)`. The
result is the return value, the state after the call and the record array
after the call. The arguments `mac` and `macsize` are not used by the source.
Taking `&recs[0]` of an empty array with `n_recs = 1` has no meaning in C; the
embedding returns failure there and changes nothing. -/
def tls13_cipher (E : EVP Ctx Cipher) (st : State Ctx) (recs : List SSL3_RECORD)
    (n_recs : Nat) (sending : Bool) : Nat × State Ctx × List SSL3_RECORD :=
  -- lines 76-80
  if n_recs ≠ 1 then
    (0, RLAYERfatal st SSL_AD_INTERNAL_ERROR ErrReason.ERR_R_INTERNAL_ERROR, recs)
  else
    match recs with
    | [] => (0, st, [])
    | rec :: rest =>
      let r := tls13_cipher_rec E st rec sending
      (r.1, r.2.1, r.2.2 :: rest)

/-! ## `tls13_set_crypto_state` -/

/-- Modelled from the spec: `RECORD_LAYER_reset_read_sequence`, whose source is
not among the sources at hand ("Reset the relevant SequenceCounter to zero for
this direction"): the read counter becomes `SEQ_NUM_SIZE` zero bytes. -/
def RECORD_LAYER_reset_read_sequence (st : State Ctx) : State Ctx :=
  { st with read_sequence := List.replicate SEQ_NUM_SIZE 0 }

/-- Lines 49-56 of `tls13_set_crypto_state`: the chain of set-up calls on the
new context `c0`, stopped at the first that fails. The result is whether all
succeeded, the context after the last call made, and the calls made with their
results, oldest first. -/
def setupChain (E : EVP Ctx Cipher) (c0 : Ctx) (ciph : Cipher) (mode ivlen taglen : Nat)
    (key : List Nat) : Bool × Ctx × List (SetupCall Cipher × Bool) :=
  let call1 := SetupCall.DecryptInit_ex_cipher ciph
  let r1 := E.setup c0 call1
  if r1.2 = false then (false, r1.1, [(call1, false)])
  else
    let call2 := SetupCall.ctrl_AEAD_SET_IVLEN ivlen
    let r2 := E.setup r1.1 call2
    if r2.2 = false then (false, r2.1, [(call1, true), (call2, false)])
    else
      let call3 := SetupCall.ctrl_AEAD_SET_TAG taglen
      let r3 := if mode = EVP_CIPH_CCM_MODE then E.setup r2.1 call3 else (r2.1, true)
      let log3 := if mode = EVP_CIPH_CCM_MODE then [(call3, r3.2)] else []
      if r3.2 = false then (false, r3.1, [(call1, true), (call2, true)] ++ log3)
      else
        let call4 := SetupCall.DecryptInit_ex_key key
        let r4 := E.setup r3.1 call4
        (r4.2, r4.1, [(call1, true), (call2, true)] ++ log3 ++ [(call4, r4.2)])

/-- Function `tls13_set_crypto_state(rl, level, key, keylen, iv, ivlen, mackey,
mackeylen, ciph, taglen, mactype, md, comp, s)`. The arguments `level`,
`keylen`, `mackey`, `mackeylen`, `mactype`, `md` and `comp` are not used by the
source. `sizeof(rl->iv)` is the length of the stored static IV. The result is
the return value, the state after the call and the set-up calls made on the
new context with their results. -/
def tls13_set_crypto_state (E : EVP Ctx Cipher) (st : State Ctx) (key iv : List Nat)
    (ivlen : Nat) (ciph : Cipher) (taglen : Nat) :
    Nat × State Ctx × List (SetupCall Cipher × Bool) :=
  -- lines 32-35
  if st.iv.length < ivlen then
    (0, RLAYERfatal st SSL_AD_INTERNAL_ERROR ErrReason.ERR_R_INTERNAL_ERROR, [])
  else
    -- line 36: memcpy(rl->iv, iv, ivlen)
    let st1 := { st with iv := iv.take ivlen ++ st.iv.drop ivlen }
    -- lines 38-42
    let st2 := { st1 with enc_read_ctx := E.CIPHER_CTX_new }
    match E.CIPHER_CTX_new with
    | none => (0, RLAYERfatal st2 SSL_AD_INTERNAL_ERROR ErrReason.ERR_R_MALLOC_FAILURE, [])
    | some c0 =>
      -- lines 44-45
      let st3 := { RECORD_LAYER_reset_read_sequence st2 with taglen := taglen }
      -- line 47
      let mode := E.CIPHER_get_mode ciph
      -- lines 49-56
      let r := setupChain E c0 ciph mode ivlen taglen key
      let st4 := { st3 with enc_read_ctx := some r.2.1 }
      if r.1 = false then
        (0, RLAYERfatal st4 SSL_AD_INTERNAL_ERROR ErrReason.ERR_R_EVP_LIB, r.2.2)
      else (1, st4, r.2.2)

/-! ## Observations on the ghost logs -/

/-- The log entries a call appended: the calls of `st1` after those of `st`. -/
def newCalls (st st1 : State Ctx) : List (EvpCall × Option (List Nat)) :=
  st1.calls.drop st.calls.length

/-- The fatal errors a call raised: the entries of `st1` after those of `st`. -/
def newFatals (st st1 : State Ctx) : List (Nat × ErrReason) :=
  st1.fatals.drop st.fatals.length

/-- The nonce of a log entry, when the entry is an `EVP_CipherInit_ex`. -/
def nonceOf : EvpCall × Option (List Nat) → Option (List Nat)
  | (EvpCall.CipherInit_ex iv _, _) => some iv
  | _ => none

/-- The associated data of a log entry, when the entry is an
`EVP_CipherUpdate` without output buffer and with input. -/
def aadOf : EvpCall × Option (List Nat) → Option (List Nat)
  | (EvpCall.CipherUpdate none (some a) _, _) => some a
  | _ => none

/-- The expected tag of a log entry, when the entry sets one. -/
def tagOf : EvpCall × Option (List Nat) → Option (List Nat)
  | (EvpCall.ctrl_AEAD_SET_TAG _ tag, _) => some tag
  | _ => none

/-- The kinds of primitive operation `tls13_cipher` issues. -/
inductive CallKind where
  /-- Binding the nonce. -/
  | bindNonce
  /-- Setting the expected tag. -/
  | setTag
  /-- Declaring the total plaintext length (update without buffers). -/
  | primeLength
  /-- Feeding associated data (update with input and no output). -/
  | feedAad
  /-- Feeding the payload (update with output). -/
  | payload
  /-- Finalising. -/
  | finalise
  /-- Getting the tag. -/
  | getTag
  deriving DecidableEq, Repr

/-- The kind of an EVP call. -/
def kindOf : EvpCall → CallKind
  | EvpCall.CipherInit_ex _ _ => CallKind.bindNonce
  | EvpCall.ctrl_AEAD_SET_TAG _ _ => CallKind.setTag
  | EvpCall.ctrl_AEAD_GET_TAG _ _ => CallKind.getTag
  | EvpCall.CipherUpdate none none _ => CallKind.primeLength
  | EvpCall.CipherUpdate none (some _) _ => CallKind.feedAad
  | EvpCall.CipherUpdate (some _) _ _ => CallKind.payload
  | EvpCall.CipherFinal_ex _ => CallKind.finalise

/-- The kinds of the calls a log holds, in order. -/
def kindsOf (l : List (EvpCall × Option (List Nat))) : List CallKind :=
  l.map (fun x => kindOf x.1)

/-- The full sequence of operations of one transform, written from the words
of the specification: nonce binding, on open the expected tag, in CCM mode
only the length declaration, then associated data, payload, finalisation, and
on seal the tag. -/
def canonicalKinds (sending : Bool) (mode : Nat) : List CallKind :=
  [CallKind.bindNonce] ++ (if sending then [] else [CallKind.setTag]) ++
    (if mode = EVP_CIPH_CCM_MODE then [CallKind.primeLength] else []) ++
    [CallKind.feedAad, CallKind.payload, CallKind.finalise] ++
    (if sending then [CallKind.getTag] else [])

/-- The length carried by a log entry, when the entry declares a length. -/
def primedLength : EvpCall × Option (List Nat) → Option Nat
  | (EvpCall.CipherUpdate none none n, _) => some n
  | _ => none

/-- The value of a byte string read as a big-endian unsigned integer. -/
def beVal (bs : List Nat) : Nat :=
  bs.foldl (fun acc b => acc * 256 + b) 0

/-- A byte string whose entries are all bytes. -/
def IsBytes (bs : List Nat) : Prop := ∀ b ∈ bs, b < 256

instance (bs : List Nat) : Decidable (IsBytes bs) := by
  unfold IsBytes
  infer_instance

/-! ## Sequences of calls and the primitive's inverse property -/

/-- A caller transforming a sequence of single records in one direction: before
each call the caller has put memory in the given state (the record's buffers
filled in); the run stops at the first call that does not return 1. The
result tells whether every call succeeded, with the state after the last
call made. -/
def transformAll (E : EVP Ctx Cipher) (sending : Bool) :
    State Ctx → List (SSL3_RECORD × Mem) → Bool × State Ctx
  | st, [] => (true, st)
  | st, (rec, m) :: rest =>
    if (tls13_cipher E { st with mem := m } [rec] 1 sending).1 = 1 then
      transformAll E sending (tls13_cipher E { st with mem := m } [rec] 1 sending).2.1 rest
    else (false, (tls13_cipher E { st with mem := m } [rec] 1 sending).2.1)

/-- The nonce the specification gives for counter value `k`: the static IV
(its first `ivlen` bytes) with the trailing 8 bytes xor-ed with the 8-byte
big-endian encoding of `k`. Written from the words of the claim, to be
compared with `deriveNonce`. -/
def nonceForCounter (staticiv : List Nat) (ivlen k : Nat) : List Nat :=
  staticiv.take (ivlen - 8) ++
    List.zipWith (fun a b => a ^^^ b) ((staticiv.take ivlen).drop (ivlen - 8)) (putValue 8 k)

/-- The assumption on the AEAD primitive under which seal and open are
inverse: whenever the encrypting sequence of calls on the context `wc` (bind
nonce, declare the length in CCM mode, feed associated data, feed plaintext,
finalise, get tag) succeeds and yields ciphertext `ct1 ++ ct2` of the length of
the plaintext and tag `tag`, the tag has `taglen` bytes and the decrypting
sequence on the context `rc` under the same nonce, associated data and tag
succeeds and yields the plaintext. -/
def AeadInverse (E : EVP Ctx Cipher) (wc rc : Ctx) (modeW modeR taglen : Nat) : Prop :=
  ∀ (iv aad pt : List Nat) (al ow ofw otw orr : Nat) (w1 w2 w3 w4 w5 w6 : Ctx)
    (x1 x2 x3 ct1 ct2 tag : List Nat),
    E.step wc (EvpCall.CipherInit_ex iv true) = (w1, some x1) →
    (if modeW = EVP_CIPH_CCM_MODE then E.step w1 (EvpCall.CipherUpdate none none pt.length)
      else (w1, some [])) = (w2, some x2) →
    E.step w2 (EvpCall.CipherUpdate none (some aad) al) = (w3, some x3) →
    E.step w3 (EvpCall.CipherUpdate (some ow) (some pt) pt.length) = (w4, some ct1) →
    E.step w4 (EvpCall.CipherFinal_ex ofw) = (w5, some ct2) →
    ct1.length + ct2.length = pt.length →
    E.step w5 (EvpCall.ctrl_AEAD_GET_TAG taglen otw) = (w6, some tag) →
    tag.length = taglen ∧
    ∃ (r1 r2 r3 r4 r5 r6 : Ctx) (y1 y2 y3 y4 pt1 pt2 : List Nat),
      E.step rc (EvpCall.CipherInit_ex iv false) = (r1, some y1) ∧
      E.step r1 (EvpCall.ctrl_AEAD_SET_TAG taglen tag) = (r2, some y2) ∧
      (if modeR = EVP_CIPH_CCM_MODE then E.step r2 (EvpCall.CipherUpdate none none pt.length)
        else (r2, some [])) = (r3, some y3) ∧
      E.step r3 (EvpCall.CipherUpdate none (some aad) al) = (r4, some y4) ∧
      E.step r4 (EvpCall.CipherUpdate (some orr) (some (ct1 ++ ct2)) pt.length) =
        (r5, some pt1) ∧
      E.step r5 (EvpCall.CipherFinal_ex (orr + pt1.length)) = (r6, some pt2) ∧
      pt1 ++ pt2 = pt

/-! ## A small executable AEAD, used to instantiate the theorems -/

/-- Context of the toy cipher. -/
structure ToyCtx where
  mode : Nat
  ivlen : Nat
  nonce : List Nat
  enc : Bool
  declared : Option Nat
  aad : List Nat
  expected : List Nat
  body : List Nat
  deriving DecidableEq, Repr

/-- The tag of the toy cipher: `n` copies of a checksum of nonce, associated
data and plaintext. -/
def toyTag (c : ToyCtx) (n : Nat) : List Nat :=
  List.replicate n ((c.nonce.sum + c.aad.sum + c.body.sum) % 256)

/-- The toy cipher: the payload is xor-ed with a pad byte derived from the
nonce; finalising a decryption compares the expected tag with the tag of what
was decrypted; in CCM mode the length must be declared before the associated
data and must match the payload. -/
def toyStep (c : ToyCtx) : EvpCall → ToyCtx × Option (List Nat)
  | EvpCall.CipherInit_ex iv enc =>
    if iv.length = c.ivlen then
      ({ c with nonce := iv, enc := enc, declared := none, aad := [], body := [] }, some [])
    else (c, none)
  | EvpCall.ctrl_AEAD_SET_TAG _ tag => ({ c with expected := tag }, some [])
  | EvpCall.ctrl_AEAD_GET_TAG n _ => (c, some (toyTag c n))
  | EvpCall.CipherUpdate none none n => ({ c with declared := some n }, some [])
  | EvpCall.CipherUpdate none (some a) _ =>
    if c.mode = EVP_CIPH_CCM_MODE ∧ c.declared = none then (c, none)
    else ({ c with aad := a }, some [])
  | EvpCall.CipherUpdate (some _) none _ => (c, none)
  | EvpCall.CipherUpdate (some _) (some x) _ =>
    if c.mode = EVP_CIPH_CCM_MODE ∧ c.declared ≠ some x.length then (c, none)
    else
      ({ c with body := if c.enc then x else x.map (fun b => b ^^^ (c.nonce.sum % 256)) },
        some (x.map (fun b => b ^^^ (c.nonce.sum % 256))))
  | EvpCall.CipherFinal_ex _ =>
    if c.enc then (c, some [])
    else if c.expected = toyTag c c.expected.length then (c, some [])
    else (c, none)

/-- The context `EVP_CIPHER_CTX_new` returns in the toy library: nothing set. -/
def toyFresh : ToyCtx :=
  { mode := 0, ivlen := 0, nonce := [], enc := false, declared := none,
    aad := [], expected := [], body := [] }

/-- Set-up of the toy cipher: binding the cipher sets the mode, the IV length
is stored, the tag length is accepted, and an empty key is refused. -/
def toySetup (c : ToyCtx) : SetupCall Nat → ToyCtx × Bool
  | SetupCall.DecryptInit_ex_cipher m => ({ c with mode := m, enc := false }, true)
  | SetupCall.ctrl_AEAD_SET_IVLEN n => ({ c with ivlen := n }, true)
  | SetupCall.ctrl_AEAD_SET_TAG _ => (c, true)
  | SetupCall.DecryptInit_ex_key key => (c, !key.isEmpty)

/-- The toy library: a `NULL` context has no cipher, a context has the cipher
identified by its mode. -/
def toyEVP : EVP ToyCtx Nat where
  CIPHER_CTX_get0_cipher := fun o => o.map (fun c => c.mode)
  CIPHER_get_mode := fun m => m
  CIPHER_CTX_get_iv_length := fun c => c.ivlen
  step := toyStep
  CIPHER_CTX_new := some toyFresh
  setup := toySetup

/-- A fresh toy context of the given mode with a 12-byte IV. -/
def toyCtx (mode : Nat) : ToyCtx :=
  { mode := mode, ivlen := 12, nonce := [], enc := false, declared := none,
    aad := [], expected := [], body := [] }

/-- Memory holding the bytes `bs` from address `p` on and zero elsewhere. -/
def memOf (p : Nat) (bs : List Nat) : Mem := writeBytes (fun _ => 0) p bs

/-- A connection state over the toy cipher (GCM-like mode 6) with 12-byte
static IVs, tag length 16 and the given counters and memory. -/
def toyState (wseq rseq : List Nat) (m : Mem) : State ToyCtx :=
  { enc_write_ctx := some (toyCtx 6), write_iv := [1, 2, 3, 4, 5, 6, 7, 8, 9, 10, 11, 12],
    write_sequence := wseq,
    enc_read_ctx := some (toyCtx 6), iv := [1, 2, 3, 4, 5, 6, 7, 8, 9, 10, 11, 12],
    read_sequence := rseq, taglen := 16, mem := m, fatals := [], calls := [] }

/-- Eight zero bytes. -/
def seqZero : List Nat := [0, 0, 0, 0, 0, 0, 0, 0]

/-- Eight `0xFF` bytes. -/
def seqOnes : List Nat := [255, 255, 255, 255, 255, 255, 255, 255]

/-- The record of the spec's scenario: application data `"hi"` at address 100,
sealed in place. -/
def hiRec : SSL3_RECORD :=
  { rec_version := 0x0304, type := 23, length := 2, data := 100, input := 100 }

/-- The state of the spec's scenario before sealing `"hi"`. -/
def hiState : State ToyCtx := toyState seqZero seqZero (memOf 100 [104, 105])

/-- An alert record of two bytes at address 100. -/
def alertRec : SSL3_RECORD :=
  { rec_version := 0x0304, type := 21, length := 2, data := 100, input := 100 }

/-- The scenario state with both counters exhausted (all bytes `0xFF`). -/
def exhaustedState : State ToyCtx := toyState seqOnes seqOnes (memOf 100 [104, 105])

/-- Memory after sealing `"hi"` in the scenario: ciphertext and tag at 100. -/
def sealedMem : Mem := (tls13_cipher toyEVP hiState [hiRec] 1 true).2.1.mem

/-- The sealed scenario record as received: 18 bytes in place at address 100. -/
def wireRec : SSL3_RECORD :=
  { rec_version := 0x0304, type := 23, length := 18, data := 100, input := 100 }

/-- A received record shorter than tag plus one byte. -/
def shortRec : SSL3_RECORD :=
  { rec_version := 0x0304, type := 23, length := 16, data := 100, input := 100 }

/-- The receiving state of the scenario over memory `m`, counters at zero. -/
def openState (m : Mem) : State ToyCtx := toyState seqZero seqZero m

/-- The sealed scenario bytes with the last tag byte overwritten. -/
def tamperedMem : Mem := writeBytes sealedMem 117 [0]

/-- Three records sealed one after the other in the scenario, each in place at
address 100 with its own two bytes of plaintext. -/
def threeRecords : List (SSL3_RECORD × Mem) :=
  [(hiRec, memOf 100 [104, 105]), (hiRec, memOf 100 [1, 2]), (hiRec, memOf 100 [3, 4])]

/-- An empty record at address 100. -/
def emptyRec : SSL3_RECORD :=
  { rec_version := 0x0304, type := 23, length := 0, data := 100, input := 100 }

/-- The tag-only record that sealing the empty record produces. -/
def tagOnlyRec : SSL3_RECORD :=
  { rec_version := 0x0304, type := 23, length := 16, data := 100, input := 100 }

/-- A counter-with-CBC-MAC instance of the scenario state. -/
def ccmState (m : Mem) : State ToyCtx :=
  { enc_write_ctx := some (toyCtx EVP_CIPH_CCM_MODE),
    write_iv := [1, 2, 3, 4, 5, 6, 7, 8, 9, 10, 11, 12], write_sequence := seqZero,
    enc_read_ctx := some (toyCtx EVP_CIPH_CCM_MODE),
    iv := [1, 2, 3, 4, 5, 6, 7, 8, 9, 10, 11, 12],
    read_sequence := seqZero, taglen := 16, mem := m, fatals := [], calls := [] }

/-- The scenario state before any key is installed: no cipher context in
either direction. -/
def noKeyState : State ToyCtx :=
  { enc_write_ctx := none, write_iv := [1, 2, 3, 4, 5, 6, 7, 8, 9, 10, 11, 12],
    write_sequence := seqZero, enc_read_ctx := none,
    iv := [1, 2, 3, 4, 5, 6, 7, 8, 9, 10, 11, 12], read_sequence := seqZero,
    taglen := 16, mem := memOf 100 [104, 105], fatals := [], calls := [] }

/-- The sealed scenario record received with distinct buffers: the 18 bytes
are at the input address 100, the output buffer is at address 200. -/
def splitRec : SSL3_RECORD :=
  { rec_version := 0x0304, type := 23, length := 18, data := 200, input := 100 }

/-- A state whose cipher context reports an IV of 4 bytes. -/
def shortIvState : State ToyCtx :=
  { enc_write_ctx := some { toyCtx 6 with ivlen := 4 }, write_iv := [1, 2, 3, 4],
    write_sequence := seqZero, enc_read_ctx := some { toyCtx 6 with ivlen := 4 },
    iv := [1, 2, 3, 4], read_sequence := seqZero,
    taglen := 16, mem := sealedMem, fatals := [], calls := [] }

/-- A state to be set up: static IV storage of 16 bytes, a used read counter. -/
def setupState : State ToyCtx :=
  { enc_write_ctx := none, write_iv := List.replicate 16 0, write_sequence := seqZero,
    enc_read_ctx := none, iv := List.replicate 16 9,
    read_sequence := [0, 0, 0, 0, 0, 0, 1, 7], taglen := 0,
    mem := fun _ => 0, fatals := [], calls := [] }

/-- The scenario state with the write counter at the value 258. -/
def midState : State ToyCtx :=
  toyState [0, 0, 0, 0, 0, 0, 1, 2] seqZero (memOf 100 [104, 105])

/-- A library whose decryption produces nothing: the payload update and the
finalisation succeed without output; every other call is that of the toy
library. -/
def lossyStep (c : ToyCtx) : EvpCall → ToyCtx × Option (List Nat)
  | EvpCall.CipherUpdate (some _) _ _ => (c, some [])
  | EvpCall.CipherFinal_ex _ => (c, some [])
  | call => toyStep c call

/-- The toy library with `lossyStep` for its calls. -/
def lossyEVP : EVP ToyCtx Nat :=
  { toyEVP with step := lossyStep }

/-! ## Basic facts about the state helpers -/

@[simp] theorem logCall_calls (st : State Ctx) (s : Bool) (call : EvpCall)
    (r : Ctx × Option (List Nat)) :
    (logCall st s call r).calls = st.calls ++ [(call, r.2)] := by
  cases s <;> rfl

@[simp] theorem logCall_mem (st : State Ctx) (s : Bool) (call : EvpCall)
    (r : Ctx × Option (List Nat)) : (logCall st s call r).mem = st.mem := by
  cases s <;> rfl

@[simp] theorem logCall_fatals (st : State Ctx) (s : Bool) (call : EvpCall)
    (r : Ctx × Option (List Nat)) : (logCall st s call r).fatals = st.fatals := by
  cases s <;> rfl

@[simp] theorem logCall_taglen (st : State Ctx) (s : Bool) (call : EvpCall)
    (r : Ctx × Option (List Nat)) : (logCall st s call r).taglen = st.taglen := by
  cases s <;> rfl

@[simp] theorem logCall_dirSeq (st : State Ctx) (s t : Bool) (call : EvpCall)
    (r : Ctx × Option (List Nat)) : dirSeq (logCall st s call r) t = dirSeq st t := by
  cases s <;> cases t <;> rfl

@[simp] theorem logCall_dirIV (st : State Ctx) (s t : Bool) (call : EvpCall)
    (r : Ctx × Option (List Nat)) : dirIV (logCall st s call r) t = dirIV st t := by
  cases s <;> cases t <;> rfl

@[simp] theorem logCall_dirCtx (st : State Ctx) (s : Bool) (call : EvpCall)
    (r : Ctx × Option (List Nat)) : dirCtx (logCall st s call r) s = some r.1 := by
  cases s <;> rfl

@[simp] theorem setSeq_calls (st : State Ctx) (s : Bool) (q : List Nat) :
    (setSeq st s q).calls = st.calls := by
  cases s <;> rfl

@[simp] theorem setSeq_mem (st : State Ctx) (s : Bool) (q : List Nat) :
    (setSeq st s q).mem = st.mem := by
  cases s <;> rfl

@[simp] theorem setSeq_fatals (st : State Ctx) (s : Bool) (q : List Nat) :
    (setSeq st s q).fatals = st.fatals := by
  cases s <;> rfl

@[simp] theorem setSeq_taglen (st : State Ctx) (s : Bool) (q : List Nat) :
    (setSeq st s q).taglen = st.taglen := by
  cases s <;> rfl

@[simp] theorem setSeq_dirSeq (st : State Ctx) (s : Bool) (q : List Nat) :
    dirSeq (setSeq st s q) s = q := by
  cases s <;> rfl

@[simp] theorem setSeq_dirSeq_other (st : State Ctx) (s : Bool) (q : List Nat) :
    dirSeq (setSeq st s q) (!s) = dirSeq st (!s) := by
  cases s <;> rfl

@[simp] theorem setSeq_dirIV (st : State Ctx) (s t : Bool) (q : List Nat) :
    dirIV (setSeq st s q) t = dirIV st t := by
  cases s <;> cases t <;> rfl

@[simp] theorem setSeq_dirCtx (st : State Ctx) (s t : Bool) (q : List Nat) :
    dirCtx (setSeq st s q) t = dirCtx st t := by
  cases s <;> cases t <;> rfl

@[simp] theorem RLAYERfatal_calls (st : State Ctx) (al : Nat) (e : ErrReason) :
    (RLAYERfatal st al e).calls = st.calls := rfl

@[simp] theorem RLAYERfatal_mem (st : State Ctx) (al : Nat) (e : ErrReason) :
    (RLAYERfatal st al e).mem = st.mem := rfl

@[simp] theorem RLAYERfatal_fatals (st : State Ctx) (al : Nat) (e : ErrReason) :
    (RLAYERfatal st al e).fatals = st.fatals ++ [(al, e)] := rfl

@[simp] theorem RLAYERfatal_dirSeq (st : State Ctx) (al : Nat) (e : ErrReason) (t : Bool) :
    dirSeq (RLAYERfatal st al e) t = dirSeq st t := by
  cases t <;> rfl

theorem calls_decomp {a b : State Ctx} (h : a.calls <+: b.calls) :
    b.calls = a.calls ++ newCalls a b := by
  obtain ⟨l, hl⟩ := h
  simp [newCalls, ← hl]

theorem newCalls_trans {a b d : State Ctx} (h1 : a.calls <+: b.calls) (h2 : b.calls <+: d.calls) :
    newCalls a d = newCalls a b ++ newCalls b d := by
  have e1 := calls_decomp h1
  have e2 := calls_decomp h2
  rw [e1] at e2
  conv_lhs => rw [newCalls, e2]
  simp

theorem feed_calls_noInit (E : EVP Ctx Cipher) (st : State Ctx) (rec : SSL3_RECORD)
    (s : Bool) (c : Ctx) (mode : Nat) (hdr : List Nat) :
      ∀ x ∈ newCalls st (tls13_cipher_feed E st rec s c mode hdr).2.1, nonceOf x = none := by
  unfold tls13_cipher_feed newCalls
  by_cases hm : mode = EVP_CIPH_CCM_MODE <;> cases s <;> simp only [hm, if_true, if_false, Bool.false_eq_true] <;>
    (repeat' split) <;> simp [nonceOf]

theorem feed_calls_grow (E : EVP Ctx Cipher) (st : State Ctx) (rec : SSL3_RECORD)
    (s : Bool) (c : Ctx) (mode : Nat) (hdr : List Nat) :
      st.calls <+: (tls13_cipher_feed E st rec s c mode hdr).2.1.calls := by
  unfold tls13_cipher_feed 
  by_cases hm : mode = EVP_CIPH_CCM_MODE <;> cases s <;> simp only [hm, if_true, if_false, Bool.false_eq_true] <;>
    (repeat' split) <;> simp 

theorem crypt_calls_grow (E : EVP Ctx Cipher) (st : State Ctx) (rec : SSL3_RECORD)
    (s : Bool) (c : Ctx) (mode : Nat) (iv : List Nat) :
    st.calls <+: (tls13_cipher_crypt E st rec s c mode iv).2.1.calls := by
  unfold tls13_cipher_crypt
  simp only []
  split
  · simp
  · split
    · cases s <;> simp
    · split
      · cases s <;> simp
      · refine List.IsPrefix.trans ?_ (feed_calls_grow _ _ _ _ _ _ _)
        cases s <;> simp

theorem newCalls_logCall (st : State Ctx) (s : Bool) (call : EvpCall)
    (r : Ctx × Option (List Nat)) : newCalls st (logCall st s call r) = [(call, r.2)] := by
  simp [newCalls]

theorem newCalls_logCall2 (st : State Ctx) (s t : Bool) (call call2 : EvpCall)
    (r r2 : Ctx × Option (List Nat)) :
    newCalls st (logCall (logCall st s call r) t call2 r2) = [(call, r.2), (call2, r2.2)] := by
  simp [newCalls]

theorem crypt_newCalls (E : EVP Ctx Cipher) (st : State Ctx) (rec : SSL3_RECORD)
    (s : Bool) (c : Ctx) (mode : Nat) (iv : List Nat) :
    ∃ l, newCalls st (tls13_cipher_crypt E st rec s c mode iv).2.1 =
        (EvpCall.CipherInit_ex iv s, (E.step c (EvpCall.CipherInit_ex iv s)).2) :: l ∧
      ∀ x ∈ l, nonceOf x = none := by
  unfold tls13_cipher_crypt
  simp only []
  split
  · exact ⟨[], by simp [newCalls], by simp⟩
  · split
    · cases s
      · exact ⟨[_], by simp [newCalls]; rfl, by simp [nonceOf]⟩
      · exact ⟨[], by simp [newCalls], by simp⟩
    · split
      · cases s
        · exact ⟨[_], by simp [newCalls]; rfl, by simp [nonceOf]⟩
        · exact ⟨[], by simp [newCalls], by simp⟩
      · cases s
        · simp only [Bool.false_eq_true, if_false]
          rw [newCalls_trans (b := logCall (logCall st false _ _) false _ _) (by simp)
            (feed_calls_grow _ _ _ _ _ _ _), newCalls_logCall2]
          refine ⟨_ :: _, rfl, ?_⟩
          intro x hx
          rcases List.mem_cons.1 hx with h | h
          · subst h; rfl
          · exact feed_calls_noInit _ _ _ _ _ _ _ x h
        · simp only [if_true]
          rw [newCalls_trans (b := logCall st true _ _) (by simp)
            (feed_calls_grow _ _ _ _ _ _ _), newCalls_logCall]
          exact ⟨_, rfl, feed_calls_noInit _ _ _ _ _ _ _⟩

/-- The record after the tag has been taken off on open (lines 113-121). -/
theorem rec_eq (E : EVP Ctx Cipher) (st : State Ctx) (rec : SSL3_RECORD) (s : Bool)
    (c : Ctx) (cipher : Cipher)
    (hc : dirCtx st s = some c) (hciph : E.CIPHER_CTX_get0_cipher (some c) = some cipher)
    (hty : rec.type ≠ SSL3_RT_ALERT) (hlen : s = false → st.taglen + 1 ≤ rec.length)
    (h8 : 8 ≤ E.CIPHER_CTX_get_iv_length c) :
    tls13_cipher_rec E st rec s =
      if (incrementLoop SEQ_NUM_SIZE (dirSeq st s)).1 = 0 then
        (0, setSeq st s (incrementLoop SEQ_NUM_SIZE (dirSeq st s)).2,
          if s then rec else { rec with length := rec.length - st.taglen })
      else
        tls13_cipher_crypt E (setSeq st s (incrementLoop SEQ_NUM_SIZE (dirSeq st s)).2)
          (if s then rec else { rec with length := rec.length - st.taglen }) s c
          (E.CIPHER_get_mode cipher)
          (deriveNonce (dirIV st s) (dirSeq st s) (E.CIPHER_CTX_get_iv_length c)) := by
  unfold tls13_cipher_rec
  simp only [hc, hciph, hty, if_false]
  have h1 : ¬ (s = false ∧ rec.length < st.taglen + 1) := by
    rintro ⟨h, h2⟩
    have := hlen h
    omega
  have h2 : ¬ E.CIPHER_CTX_get_iv_length c < SEQ_NUM_SIZE := by
    simp only [SEQ_NUM_SIZE]; omega
  simp only [h1, h2, if_false]

theorem cipher_one (E : EVP Ctx Cipher) (st : State Ctx) (rec : SSL3_RECORD) (s : Bool) :
    tls13_cipher E st [rec] 1 s =
      ((tls13_cipher_rec E st rec s).1, (tls13_cipher_rec E st rec s).2.1,
        [(tls13_cipher_rec E st rec s).2.2]) := by
  simp [tls13_cipher]

theorem rec_calls_grow (E : EVP Ctx Cipher) (st : State Ctx) (rec : SSL3_RECORD) (s : Bool) :
    st.calls <+: (tls13_cipher_rec E st rec s).2.1.calls := by
  unfold tls13_cipher_rec
  simp only []
  split
  · simp
  · split
    · simp [tls13_cipher_plain]
    · split
      · simp [tls13_cipher_plain]
      · split
        · simp
        · split
          · simp
          · split
            · simp
            · exact List.IsPrefix.trans (by simp) (crypt_calls_grow _ _ _ _ _ _ _)

theorem rec_nonces (E : EVP Ctx Cipher) (st : State Ctx) (rec : SSL3_RECORD) (s : Bool) :
    newCalls st (tls13_cipher_rec E st rec s).2.1 = [] ∨
    ∃ c r l, dirCtx st s = some c ∧ 8 ≤ E.CIPHER_CTX_get_iv_length c ∧
      newCalls st (tls13_cipher_rec E st rec s).2.1 =
        (EvpCall.CipherInit_ex
          (deriveNonce (dirIV st s) (dirSeq st s) (E.CIPHER_CTX_get_iv_length c)) s, r) :: l ∧
      ∀ x ∈ l, nonceOf x = none := by
  unfold tls13_cipher_rec
  simp only []
  split
  · left; simp [newCalls]
  · split
    · left; simp [newCalls, tls13_cipher_plain]
    · split
      · left; simp [newCalls, tls13_cipher_plain]
      · split
        · left; simp [newCalls]
        · split
          · left; simp [newCalls]
          · split
            · left; simp [newCalls]
            · right
              rename_i c _ _ _ h8 _
              obtain ⟨l, h1, h2⟩ := crypt_newCalls E
                (setSeq st s (incrementLoop SEQ_NUM_SIZE (dirSeq st s)).2)
                (if s then rec else { rec with length := rec.length - st.taglen }) s c
                (E.CIPHER_get_mode ‹Cipher›)
                (deriveNonce (dirIV st s) (dirSeq st s) (E.CIPHER_CTX_get_iv_length c))
              have h8b : 8 ≤ E.CIPHER_CTX_get_iv_length c := by
                simp only [SEQ_NUM_SIZE] at h8; omega
              have key : ∀ y : State Ctx, newCalls st y =
                  newCalls (setSeq st s (incrementLoop SEQ_NUM_SIZE (dirSeq st s)).2) y := by
                intro y; simp [newCalls]
              rw [key, h1]
              exact ⟨c, _, l, ‹dirCtx st s = some c›, h8b, rfl, h2⟩

theorem rec_cases (E : EVP Ctx Cipher) (st : State Ctx) (rec : SSL3_RECORD) (s : Bool) :
    ((dirCtx st s = none ∨ rec.type = SSL3_RT_ALERT) ∧
        tls13_cipher_rec E st rec s = tls13_cipher_plain st rec) ∨
    ((tls13_cipher_rec E st rec s).1 = 0 ∧
        (tls13_cipher_rec E st rec s).2.1.calls = st.calls ∧
        (tls13_cipher_rec E st rec s).2.1.mem = st.mem) ∨
    ∃ c cipher, dirCtx st s = some c ∧ E.CIPHER_CTX_get0_cipher (some c) = some cipher ∧
      rec.type ≠ SSL3_RT_ALERT ∧ (s = false → st.taglen + 1 ≤ rec.length) ∧
      8 ≤ E.CIPHER_CTX_get_iv_length c ∧
      (incrementLoop SEQ_NUM_SIZE (dirSeq st s)).1 ≠ 0 ∧
      tls13_cipher_rec E st rec s =
        tls13_cipher_crypt E (setSeq st s (incrementLoop SEQ_NUM_SIZE (dirSeq st s)).2)
          (if s then rec else { rec with length := rec.length - st.taglen }) s c
          (E.CIPHER_get_mode cipher)
          (deriveNonce (dirIV st s) (dirSeq st s) (E.CIPHER_CTX_get_iv_length c)) := by
  cases hc : dirCtx st s with
  | none =>
    cases hg : E.CIPHER_CTX_get0_cipher (none : Option Ctx) with
    | none => right; left; simp [tls13_cipher_rec, hc, hg]
    | some cipher => left; simp [tls13_cipher_rec, hc, hg]
  | some c =>
    cases hg : E.CIPHER_CTX_get0_cipher (some c) with
    | none => right; left; simp [tls13_cipher_rec, hc, hg]
    | some cipher =>
      by_cases hty : rec.type = SSL3_RT_ALERT
      · left; simp [tls13_cipher_rec, hc, hg, hty]
      · by_cases hu : s = false ∧ rec.length < st.taglen + 1
        · right; left
          obtain ⟨hs, hl⟩ := hu
          subst hs
          simp [tls13_cipher_rec, hc, hg, hty, hl]
        · have hlen : s = false → st.taglen + 1 ≤ rec.length := by
            intro h; by_contra h2; exact hu ⟨h, by omega⟩
          by_cases h8 : E.CIPHER_CTX_get_iv_length c < SEQ_NUM_SIZE
          · right; left; simp [tls13_cipher_rec, hc, hg, hty, hu, h8]
          · have h8b : 8 ≤ E.CIPHER_CTX_get_iv_length c := by
              simp only [SEQ_NUM_SIZE] at h8; omega
            by_cases hi : (incrementLoop SEQ_NUM_SIZE (dirSeq st s)).1 = 0
            · right; left
              rw [rec_eq E st rec s c cipher hc hg hty hlen h8b]
              simp [hi]
            · right; right
              refine ⟨c, cipher, rfl, hg, hty, hlen, h8b, hi, ?_⟩
              rw [rec_eq E st rec s c cipher hc hg hty hlen h8b]
              simp [hi]

theorem deriveNonce_length (iv seq : List Nat) (n : Nat) (h8 : 8 ≤ n) (hcap : n ≤ iv.length) :
    (deriveNonce iv seq n).length = n := by
  simp [deriveNonce, SEQ_NUM_SIZE]
  omega

theorem deriveNonce_take (iv seq : List Nat) (n : Nat) (hcap : n ≤ iv.length) :
    (deriveNonce iv seq n).take (n - 8) = iv.take (n - 8) := by
  simp only [deriveNonce, SEQ_NUM_SIZE]
  rw [List.take_append_of_le_length (by simp; omega)]
  simp

theorem deriveNonce_getD (iv seq : List Nat) (n i : Nat) (hcap : n ≤ iv.length) (hi : i < 8) :
    (deriveNonce iv seq n).getD (n - 8 + i) 0 = iv.getD (n - 8 + i) 0 ^^^ seq.getD i 0 := by
  simp only [deriveNonce, SEQ_NUM_SIZE]
  rw [List.getD_append_right _ _ _ _ (by simp)]
  have : n - 8 + i - (List.take (n - 8) iv).length = i := by simp; omega
  rw [this]
  simp [List.getD_eq_getElem?_getD, hi]

theorem beVal_append_one (a : List Nat) (b : Nat) : beVal (a ++ [b]) = beVal a * 256 + b := by
  simp [beVal, List.foldl_append]

theorem beVal_replicate_ff (n : Nat) : beVal (List.replicate n 255) + 1 = 256 ^ n := by
  induction n with
  | zero => simp [beVal]
  | succ n ih =>
    rw [List.replicate_succ', beVal_append_one, pow_succ]
    omega

theorem beVal_lt (bs : List Nat) (h : IsBytes bs) : beVal bs < 256 ^ bs.length := by
  induction bs using List.reverseRecOn with
  | nil => simp [beVal]
  | append_singleton a b ih =>
    have hb : b < 256 := h b (by simp)
    have ha := ih (fun x hx => h x (by simp [hx]))
    rw [beVal_append_one]
    simp only [List.length_append, List.length_singleton, pow_succ]
    omega

theorem getD_append_mid (pre suf : List Nat) (b : Nat) :
    (pre ++ b :: suf).getD pre.length 0 = b := by
  rw [List.getD_append_right _ _ _ _ (le_refl _)]
  simp

theorem set_append_mid (pre suf : List Nat) (b x : Nat) :
    (pre ++ b :: suf).set pre.length x = pre ++ x :: suf := by
  rw [List.set_append_right _ _ (le_refl _)]
  simp

theorem incrementLoop_step (pre suf : List Nat) (b : Nat) :
    incrementLoop (pre.length + 1) (pre ++ b :: suf) =
      if (b + 1) % 256 ≠ 0 then (pre.length + 1, pre ++ ((b + 1) % 256) :: suf)
      else incrementLoop pre.length (pre ++ 0 :: suf) := by
  rw [incrementLoop]
  simp only [getD_append_mid, set_append_mid]
  by_cases h : (b + 1) % 256 = 0
  · simp [h]
  · simp [h]

/-- The increment loop on the leading `pre.length` bytes of a counter. -/
theorem incrementLoop_spec (pre : List Nat) : ∀ (suf : List Nat), IsBytes pre →
    ∃ pre1, (incrementLoop pre.length (pre ++ suf)).2 = pre1 ++ suf ∧
      pre1.length = pre.length ∧ IsBytes pre1 ∧
      ((incrementLoop pre.length (pre ++ suf)).1 ≠ 0 → beVal pre1 = beVal pre + 1) ∧
      ((incrementLoop pre.length (pre ++ suf)).1 = 0 ↔ pre = List.replicate pre.length 255) ∧
      ((incrementLoop pre.length (pre ++ suf)).1 = 0 → pre1 = List.replicate pre.length 0) := by
  induction pre using List.reverseRecOn with
  | nil =>
    intro suf _
    exact ⟨[], by simp [incrementLoop], rfl, by simp [IsBytes], by simp [incrementLoop],
      by simp [incrementLoop], by simp⟩
  | append_singleton a b ih =>
    intro suf hb
    have hbb : b < 256 := hb b (by simp)
    have ha : IsBytes a := fun x hx => hb x (by simp [hx])
    have e : (a ++ [b]).length = a.length + 1 := by simp
    have e2 : a ++ [b] ++ suf = a ++ b :: suf := by simp
    rw [e, e2, incrementLoop_step]
    by_cases h : (b + 1) % 256 = 0
    · have hb255 : b = 255 := by omega
      simp only [h, ne_eq, not_true_eq_false, if_false]
      obtain ⟨p1, h1, h2, h3, h4, h5, h6⟩ := ih (0 :: suf) ha
      refine ⟨p1 ++ [0], by rw [h1]; simp, by simp [h2], ?_, ?_, ?_, ?_⟩
      · intro x hx
        rcases List.mem_append.1 hx with hx | hx
        · exact h3 x hx
        · simp at hx; omega
      · intro hne
        rw [beVal_append_one, beVal_append_one, h4 hne, hb255]
        omega
      · rw [h5, hb255, List.replicate_succ']
        constructor
        · intro h; rw [← h]
        · intro h
          exact (List.append_inj' h rfl).1
      · intro hz
        rw [h6 hz, List.replicate_succ']
    · simp only [h, ne_eq, not_false_eq_true, if_true]
      have hmod : (b + 1) % 256 = b + 1 := by omega
      refine ⟨a ++ [b + 1], by simp [hmod], by simp, ?_, ?_, ?_, ?_⟩
      · intro x hx
        rcases List.mem_append.1 hx with hx | hx
        · exact ha x hx
        · simp at hx; omega
      · intro _
        rw [beVal_append_one, beVal_append_one]
        omega
      · simp only [Nat.add_one_ne_zero, false_iff]
        rw [List.replicate_succ']
        intro h2
        have := (List.append_inj' h2 rfl).2
        simp at this
        omega
      · simp

theorem incrementLoop_seq (seq : List Nat) (hlen : seq.length = 8) (hb : IsBytes seq) :
    (incrementLoop SEQ_NUM_SIZE seq).2.length = 8 ∧ IsBytes (incrementLoop SEQ_NUM_SIZE seq).2 ∧
    ((incrementLoop SEQ_NUM_SIZE seq).1 ≠ 0 →
      beVal (incrementLoop SEQ_NUM_SIZE seq).2 = beVal seq + 1) ∧
    ((incrementLoop SEQ_NUM_SIZE seq).1 = 0 ↔ seq = seqOnes) ∧
    ((incrementLoop SEQ_NUM_SIZE seq).1 = 0 → (incrementLoop SEQ_NUM_SIZE seq).2 = seqZero) := by
  obtain ⟨p1, h1, h2, h3, h4, h5, h6⟩ := incrementLoop_spec seq [] hb
  simp only [List.append_nil, hlen] at h1 h2 h4 h5 h6
  simp only [SEQ_NUM_SIZE]
  rw [h1]
  exact ⟨h2, h3, h4, h5, h6⟩

theorem putValue_length (n k : Nat) : (putValue n k).length = n := by
  induction n generalizing k with
  | zero => simp [putValue]
  | succ n ih => simp [putValue, ih]

theorem putValue_isBytes (n k : Nat) : IsBytes (putValue n k) := by
  induction n generalizing k with
  | zero => simp [putValue, IsBytes]
  | succ n ih =>
    intro x hx
    simp only [putValue, List.mem_append, List.mem_singleton] at hx
    rcases hx with hx | hx
    · exact ih _ x hx
    · omega

theorem beVal_putValue (n k : Nat) : beVal (putValue n k) = k % 256 ^ n := by
  induction n generalizing k with
  | zero => simp [putValue, beVal, Nat.mod_one]
  | succ n ih =>
    rw [putValue, beVal_append_one, ih, pow_succ', Nat.mod_mul]
    ring

theorem putValue_beVal (bs : List Nat) (hb : IsBytes bs) : putValue bs.length (beVal bs) = bs := by
  induction bs using List.reverseRecOn with
  | nil => simp [putValue]
  | append_singleton a b ih =>
    have hbb : b < 256 := hb b (by simp)
    have ha : IsBytes a := fun x hx => hb x (by simp [hx])
    have e : (a ++ [b]).length = a.length + 1 := by simp
    rw [e, putValue, beVal_append_one]
    have e1 : (beVal a * 256 + b) / 256 = beVal a := by omega
    have e2 : (beVal a * 256 + b) % 256 = b := by omega
    rw [e1, e2, ih ha]

/-- Incrementing the encoding of `k` gives the encoding of `k + 1`. -/
theorem incrementLoop_putValue (k : Nat) (hk : k < 2 ^ 64 - 1) :
    (incrementLoop SEQ_NUM_SIZE (putValue 8 k)).1 ≠ 0 ∧
    (incrementLoop SEQ_NUM_SIZE (putValue 8 k)).2 = putValue 8 (k + 1) := by
  obtain ⟨h1, h2, h3, h4, _⟩ :=
    incrementLoop_seq (putValue 8 k) (putValue_length 8 k) (putValue_isBytes 8 k)
  have hv : beVal (putValue 8 k) = k := by
    rw [beVal_putValue]; exact Nat.mod_eq_of_lt (by omega)
  have hne : (incrementLoop SEQ_NUM_SIZE (putValue 8 k)).1 ≠ 0 := by
    intro h0
    have := h4.1 h0
    have hv2 : beVal seqOnes = 2 ^ 64 - 1 := by decide
    rw [this] at hv
    omega
  refine ⟨hne, ?_⟩
  have := h3 hne
  rw [hv] at this
  have e := putValue_beVal _ h2
  rw [h1, this] at e
  exact e.symm

theorem feed_frame (E : EVP Ctx Cipher) (st : State Ctx) (rec : SSL3_RECORD)
    (s : Bool) (c : Ctx) (mode : Nat) (hdr : List Nat) :
    (tls13_cipher_feed E st rec s c mode hdr).2.1.write_sequence = st.write_sequence ∧
    (tls13_cipher_feed E st rec s c mode hdr).2.1.read_sequence = st.read_sequence ∧
    (tls13_cipher_feed E st rec s c mode hdr).2.1.write_iv = st.write_iv ∧
    (tls13_cipher_feed E st rec s c mode hdr).2.1.iv = st.iv ∧
    (tls13_cipher_feed E st rec s c mode hdr).2.1.taglen = st.taglen := by
  unfold tls13_cipher_feed
  by_cases hm : mode = EVP_CIPH_CCM_MODE <;> cases s <;> simp only [hm, if_true, if_false, Bool.false_eq_true] <;>
    (repeat' split) <;> simp [logCall, RLAYERfatal]

theorem feed_fatals_open (E : EVP Ctx Cipher) (st : State Ctx) (rec : SSL3_RECORD)
    (c : Ctx) (mode : Nat) (hdr : List Nat) :
    (tls13_cipher_feed E st rec false c mode hdr).2.1.fatals = st.fatals ∧
    (tls13_cipher_feed E st rec false c mode hdr).2.2 = rec := by
  unfold tls13_cipher_feed
  by_cases hm : mode = EVP_CIPH_CCM_MODE <;> simp only [hm, if_true, if_false, Bool.false_eq_true] <;>
    (repeat' split) <;> simp [logCall, RLAYERfatal]

theorem feed_aad (E : EVP Ctx Cipher) (st : State Ctx) (rec : SSL3_RECORD)
    (s : Bool) (c : Ctx) (mode : Nat) (hdr : List Nat) :
    ∀ x ∈ newCalls st (tls13_cipher_feed E st rec s c mode hdr).2.1, ∀ a, aadOf x = some a →
      a = hdr := by
  unfold tls13_cipher_feed newCalls
  by_cases hm : mode = EVP_CIPH_CCM_MODE <;> cases s <;> simp only [hm, if_true, if_false, Bool.false_eq_true] <;>
    (repeat' split) <;> simp [aadOf]

theorem feed_seal_inv (E : EVP Ctx Cipher) (st : State Ctx) (rec : SSL3_RECORD)
    (c : Ctx) (mode : Nat) (hdr : List Nat)
    (h : (tls13_cipher_feed E st rec true c mode hdr).1 = 1) :
    ∃ (cL cA cP cF cT : Ctx) (xL xA ct1 ct2 tag : List Nat),
      (if mode = EVP_CIPH_CCM_MODE then
          E.step c (EvpCall.CipherUpdate none none (rec.length % 2 ^ 32))
        else (c, some [])) = (cL, some xL) ∧
      E.step cL (EvpCall.CipherUpdate none (some hdr) SSL3_RT_HEADER_LENGTH) = (cA, some xA) ∧
      E.step cA (EvpCall.CipherUpdate (some rec.data)
        (some (readBytes st.mem rec.input (rec.length % 2 ^ 32))) (rec.length % 2 ^ 32)) =
        (cP, some ct1) ∧
      E.step cP (EvpCall.CipherFinal_ex (rec.data + ct1.length)) = (cF, some ct2) ∧
      ct1.length + ct2.length = rec.length ∧
      E.step cF (EvpCall.ctrl_AEAD_GET_TAG st.taglen (rec.data + rec.length)) = (cT, some tag) ∧
      (tls13_cipher_feed E st rec true c mode hdr).2.1.mem =
        writeBytes (writeBytes (writeBytes st.mem rec.data ct1) (rec.data + ct1.length) ct2)
          (rec.data + rec.length) tag ∧
      (tls13_cipher_feed E st rec true c mode hdr).2.2 =
        { rec with length := rec.length + st.taglen } ∧
      (EvpCall.CipherUpdate (some rec.data)
        (some (readBytes st.mem rec.input (rec.length % 2 ^ 32))) (rec.length % 2 ^ 32),
          some ct1) ∈ newCalls st (tls13_cipher_feed E st rec true c mode hdr).2.1 ∧
      (EvpCall.CipherFinal_ex (rec.data + ct1.length), some ct2) ∈
        newCalls st (tls13_cipher_feed E st rec true c mode hdr).2.1 ∧
      (EvpCall.ctrl_AEAD_GET_TAG st.taglen (rec.data + rec.length), some tag) ∈
        newCalls st (tls13_cipher_feed E st rec true c mode hdr).2.1 := by
  rcases hL : (if mode = EVP_CIPH_CCM_MODE then
      E.step c (EvpCall.CipherUpdate none none (rec.length % 2 ^ 32))
    else (c, some [])) with ⟨cL, _ | xL⟩
  · simp only [tls13_cipher_feed, hL] at h
    simp at h
  rcases hA : E.step cL (EvpCall.CipherUpdate none (some hdr) SSL3_RT_HEADER_LENGTH)
    with ⟨cA, _ | xA⟩
  · simp only [tls13_cipher_feed, hL, hA] at h
    simp at h
  rcases hP : E.step cA (EvpCall.CipherUpdate (some rec.data)
        (some (readBytes st.mem rec.input (rec.length % 2 ^ 32))) (rec.length % 2 ^ 32))
    with ⟨cP, _ | ct1⟩
  · simp only [tls13_cipher_feed, hL, hA, apply_ite State.mem, logCall_mem, ite_self, hP] at h
    simp at h
  rcases hF : E.step cP (EvpCall.CipherFinal_ex (rec.data + ct1.length)) with ⟨cF, _ | ct2⟩
  · simp only [tls13_cipher_feed, hL, hA, apply_ite State.mem, logCall_mem, ite_self, hP, hF] at h
    simp at h
  by_cases hlen : ct1.length + ct2.length = rec.length
  swap
  · simp only [tls13_cipher_feed, hL, hA, apply_ite State.mem, logCall_mem, ite_self, hP, hF,
      ne_eq, hlen, not_false_eq_true, if_true] at h
    simp at h
  rcases hT : E.step cF (EvpCall.ctrl_AEAD_GET_TAG st.taglen (rec.data + rec.length))
    with ⟨cT, _ | tag⟩
  · simp only [tls13_cipher_feed, hL, hA, apply_ite State.mem, logCall_mem, ite_self, hP, hF,
      ne_eq, hlen, not_true_eq_false, if_true, if_false, hT] at h
    simp at h
  refine ⟨cL, cA, cP, cF, cT, xL, xA, ct1, ct2, tag, rfl, hA, hP, hF, hlen, hT, ?_⟩
  simp only [tls13_cipher_feed, hL, hA, apply_ite State.mem, logCall_mem, ite_self, hP, hF,
      ne_eq, hlen, not_true_eq_false, if_true, if_false, hT, newCalls]
  by_cases hm : mode = EVP_CIPH_CCM_MODE <;> simp [hm]

theorem feed_open_fwd (E : EVP Ctx Cipher) (st : State Ctx) (rec : SSL3_RECORD)
    (c : Ctx) (mode : Nat) (hdr : List Nat) (cL cA cP cF : Ctx) (xL xA pt1 pt2 : List Nat)
    (hL : (if mode = EVP_CIPH_CCM_MODE then
          E.step c (EvpCall.CipherUpdate none none (rec.length % 2 ^ 32))
        else (c, some [])) = (cL, some xL))
    (hA : E.step cL (EvpCall.CipherUpdate none (some hdr) SSL3_RT_HEADER_LENGTH) = (cA, some xA))
    (hP : E.step cA (EvpCall.CipherUpdate (some rec.data)
        (some (readBytes st.mem rec.input (rec.length % 2 ^ 32))) (rec.length % 2 ^ 32)) =
        (cP, some pt1))
    (hF : E.step cP (EvpCall.CipherFinal_ex (rec.data + pt1.length)) = (cF, some pt2))
    (hlen : pt1.length + pt2.length = rec.length) :
    (tls13_cipher_feed E st rec false c mode hdr).1 = 1 ∧
    (tls13_cipher_feed E st rec false c mode hdr).2.2 = rec ∧
    (tls13_cipher_feed E st rec false c mode hdr).2.1.mem =
      writeBytes (writeBytes st.mem rec.data pt1) (rec.data + pt1.length) pt2 := by
  simp only [tls13_cipher_feed, hL, hA, apply_ite State.mem, logCall_mem, ite_self, hP, hF,
      ne_eq, hlen, not_true_eq_false, if_true, if_false, Bool.false_eq_true]
  simp

theorem feed_dirCtx (E : EVP Ctx Cipher) (st : State Ctx) (rec : SSL3_RECORD)
    (s : Bool) (c : Ctx) (mode : Nat) (hdr : List Nat) (P : Ctx → Prop)
    (hP : ∀ c call, P c → P (E.step c call).1) (hc : P c) :
    ∃ c1, dirCtx (tls13_cipher_feed E st rec s c mode hdr).2.1 s = some c1 ∧ P c1 := by
  unfold tls13_cipher_feed
  by_cases hm : mode = EVP_CIPH_CCM_MODE <;> cases s <;>
    simp only [hm, if_true, if_false, Bool.false_eq_true] <;>
    (repeat' split) <;> simp [logCall, RLAYERfatal, dirCtx] <;>
    (repeat (first | assumption | apply hP))

/-- Either `tls13_cipher_crypt` fails fatally before feeding the cipher, or it
enters `tls13_cipher_feed` in a state `stS` reached by binding the nonce and,
on open, setting the expected tag. -/
theorem crypt_cases (E : EVP Ctx Cipher) (st : State Ctx) (rec : SSL3_RECORD)
    (s : Bool) (c : Ctx) (mode : Nat) (iv : List Nat) :
    ((tls13_cipher_crypt E st rec s c mode iv).1 = 0 ∧
      (tls13_cipher_crypt E st rec s c mode iv).2.1.fatals =
        st.fatals ++ [(SSL_AD_INTERNAL_ERROR, ErrReason.ERR_R_INTERNAL_ERROR)] ∧
      (tls13_cipher_crypt E st rec s c mode iv).2.1.mem = st.mem ∧
      (tls13_cipher_crypt E st rec s c mode iv).2.2 = rec ∧
      ∀ x ∈ newCalls st (tls13_cipher_crypt E st rec s c mode iv).2.1, ∀ o i l,
        x.1 ≠ EvpCall.CipherUpdate o i l) ∨
    ∃ (cI cS : Ctx) (xI xS hdr : List Nat) (stS : State Ctx),
      E.step c (EvpCall.CipherInit_ex iv s) = (cI, some xI) ∧
      (if s then (cI, some []) else
        E.step cI (EvpCall.ctrl_AEAD_SET_TAG st.taglen
          (readBytes st.mem (rec.data + rec.length) st.taglen))) = (cS, some xS) ∧
      buildHeader rec st.taglen = some hdr ∧
      stS.mem = st.mem ∧ stS.fatals = st.fatals ∧ stS.taglen = st.taglen ∧
      st.calls <+: stS.calls ∧
      (∀ x ∈ newCalls st stS, aadOf x = none) ∧
      tls13_cipher_crypt E st rec s c mode iv = tls13_cipher_feed E stS rec s cS mode hdr := by
  rcases hI : E.step c (EvpCall.CipherInit_ex iv s) with ⟨cI, _ | xI⟩
  · left
    simp only [tls13_cipher_crypt, hI]
    simp [newCalls]
  rcases hS : (if s then (cI, some []) else
        E.step cI (EvpCall.ctrl_AEAD_SET_TAG st.taglen
          (readBytes st.mem (rec.data + rec.length) st.taglen))) with ⟨cS, _ | xS⟩
  · left
    simp only [tls13_cipher_crypt, hI, logCall_mem, hS]
    cases s <;> simp [newCalls]
  rcases hH : buildHeader rec st.taglen with _ | hdr
  · left
    simp only [tls13_cipher_crypt, hI, logCall_mem, hS, hH]
    cases s <;> simp [newCalls]
  right
  refine ⟨cI, cS, xI, xS, hdr,
    (if s then logCall st s (EvpCall.CipherInit_ex iv s) (cI, some xI)
      else logCall (logCall st s (EvpCall.CipherInit_ex iv s) (cI, some xI)) s
        (EvpCall.ctrl_AEAD_SET_TAG st.taglen
          (readBytes st.mem (rec.data + rec.length) st.taglen)) (cS, some xS)),
    rfl, hS, rfl, ?_, ?_, ?_, ?_, ?_, ?_⟩
  · cases s <;> simp
  · cases s <;> simp
  · cases s <;> simp
  · cases s <;> simp
  · cases s <;> simp [newCalls, aadOf]
  · simp only [tls13_cipher_crypt, hI, logCall_mem, hS, hH]

theorem crypt_frame (E : EVP Ctx Cipher) (st : State Ctx) (rec : SSL3_RECORD)
    (s : Bool) (c : Ctx) (mode : Nat) (iv : List Nat) :
    (tls13_cipher_crypt E st rec s c mode iv).2.1.write_sequence = st.write_sequence ∧
    (tls13_cipher_crypt E st rec s c mode iv).2.1.read_sequence = st.read_sequence ∧
    (tls13_cipher_crypt E st rec s c mode iv).2.1.write_iv = st.write_iv ∧
    (tls13_cipher_crypt E st rec s c mode iv).2.1.iv = st.iv ∧
    (tls13_cipher_crypt E st rec s c mode iv).2.1.taglen = st.taglen := by
  rcases hI : E.step c (EvpCall.CipherInit_ex iv s) with ⟨cI, _ | xI⟩
  · simp only [tls13_cipher_crypt, hI]
    cases s <;> simp [logCall, RLAYERfatal]
  rcases hS : (if s then (cI, some []) else
        E.step cI (EvpCall.ctrl_AEAD_SET_TAG st.taglen
          (readBytes st.mem (rec.data + rec.length) st.taglen))) with ⟨cS, _ | xS⟩
  · simp only [tls13_cipher_crypt, hI, logCall_mem, hS]
    cases s <;> simp [logCall, RLAYERfatal]
  rcases hH : buildHeader rec st.taglen with _ | hdr
  · simp only [tls13_cipher_crypt, hI, logCall_mem, hS, hH]
    cases s <;> simp [logCall, RLAYERfatal]
  simp only [tls13_cipher_crypt, hI, logCall_mem, hS, hH]
  obtain ⟨h1, h2, h3, h4, h5⟩ := feed_frame E
    (if s then logCall st s (EvpCall.CipherInit_ex iv s) (cI, some xI)
      else logCall (logCall st s (EvpCall.CipherInit_ex iv s) (cI, some xI)) s
        (EvpCall.ctrl_AEAD_SET_TAG st.taglen
          (readBytes st.mem (rec.data + rec.length) st.taglen)) (cS, some xS)) rec s cS mode hdr
  rw [h1, h2, h3, h4, h5]
  cases s <;> simp [logCall]

theorem crypt_dirCtx (E : EVP Ctx Cipher) (st : State Ctx) (rec : SSL3_RECORD)
    (s : Bool) (c : Ctx) (mode : Nat) (iv : List Nat) (P : Ctx → Prop)
    (hP : ∀ c call, P c → P (E.step c call).1) (hc : P c) :
    ∃ c1, dirCtx (tls13_cipher_crypt E st rec s c mode iv).2.1 s = some c1 ∧ P c1 := by
  have hcI := hP c (EvpCall.CipherInit_ex iv s) hc
  rcases hI : E.step c (EvpCall.CipherInit_ex iv s) with ⟨cI, _ | xI⟩
  · simp only [tls13_cipher_crypt, hI]
    rw [hI] at hcI
    exact ⟨cI, by cases s <;> simp [logCall, RLAYERfatal, dirCtx], hcI⟩
  rw [hI] at hcI
  have hcS : P (if s then (cI, some []) else
        E.step cI (EvpCall.ctrl_AEAD_SET_TAG st.taglen
          (readBytes st.mem (rec.data + rec.length) st.taglen))).1 := by
    cases s
    · exact hP _ _ hcI
    · exact hcI
  rcases hS : (if s then (cI, some []) else
        E.step cI (EvpCall.ctrl_AEAD_SET_TAG st.taglen
          (readBytes st.mem (rec.data + rec.length) st.taglen))) with ⟨cS, _ | xS⟩
  · simp only [tls13_cipher_crypt, hI, logCall_mem, hS]
    rw [hS] at hcS
    cases s
    · exact ⟨cS, by simp [logCall, RLAYERfatal, dirCtx], hcS⟩
    · simp at hS
  rw [hS] at hcS
  rcases hH : buildHeader rec st.taglen with _ | hdr
  · simp only [tls13_cipher_crypt, hI, logCall_mem, hS, hH]
    cases s
    · exact ⟨cS, by simp [logCall, RLAYERfatal, dirCtx], hcS⟩
    · simp at hS
      exact ⟨cI, by simp [logCall, RLAYERfatal, dirCtx], hcI⟩
  simp only [tls13_cipher_crypt, hI, logCall_mem, hS, hH]
  exact feed_dirCtx _ _ _ _ _ _ _ P hP hcS

theorem buildHeader_some (rec : SSL3_RECORD) (taglen : Nat) (hdr : List Nat)
    (h : buildHeader rec taglen = some hdr) :
    hdr = [rec.type, rec.rec_version / 256, rec.rec_version % 256,
      (rec.length + taglen) / 256, (rec.length + taglen) % 256] ∧
    rec.type < 256 ∧ rec.rec_version < 65536 ∧ rec.length + taglen < 65536 := by
  simp only [buildHeader, WPACKET_init_static_len, WPACKET_put_bytes_u8, WPACKET_put_bytes_u16,
    WPACKET_put_bytes, SSL3_RT_HEADER_LENGTH, WPACKET_get_total_written] at h
  by_cases h1 : 256 ≤ rec.type
  · simp [h1] at h
  by_cases h2 : 65536 ≤ rec.rec_version
  · simp [h1, h2] at h
  by_cases h3 : 65536 ≤ rec.length + taglen
  · simp [h1, h2, h3, putValue] at h
  simp [h1, h2, h3, putValue] at h
  have e1 : rec.type % 256 = rec.type := Nat.mod_eq_of_lt (by omega)
  have e2 : rec.rec_version / 256 % 256 = rec.rec_version / 256 := Nat.mod_eq_of_lt (by omega)
  have e3 : (rec.length + taglen) / 256 % 256 = (rec.length + taglen) / 256 :=
    Nat.mod_eq_of_lt (by omega)
  rw [e1, e2, e3] at h
  exact ⟨h.symm, by omega, by omega, by omega⟩

theorem buildHeader_of_bounds (rec : SSL3_RECORD) (taglen : Nat)
    (h1 : rec.type < 256) (h2 : rec.rec_version < 65536) (h3 : rec.length + taglen < 65536) :
    buildHeader rec taglen = some [rec.type, rec.rec_version / 256, rec.rec_version % 256,
      (rec.length + taglen) / 256, (rec.length + taglen) % 256] := by
  have e1 : rec.type % 256 = rec.type := Nat.mod_eq_of_lt (by omega)
  have e2 : rec.rec_version / 256 % 256 = rec.rec_version / 256 := Nat.mod_eq_of_lt (by omega)
  have e3 : (rec.length + taglen) / 256 % 256 = (rec.length + taglen) / 256 :=
    Nat.mod_eq_of_lt (by omega)
  have n1 : ¬ 256 ≤ rec.type := by omega
  have n2 : ¬ 65536 ≤ rec.rec_version := by omega
  have n3 : ¬ 65536 ≤ rec.length + taglen := by omega
  simp [buildHeader, WPACKET_init_static_len, WPACKET_put_bytes_u8, WPACKET_put_bytes_u16,
    WPACKET_put_bytes, SSL3_RT_HEADER_LENGTH, WPACKET_get_total_written, n1, n2, n3, putValue,
    e1, e2, e3]

/-- C2 (nonce construction): for a call of `tls13_cipher`, in either
direction, on a non-bypassed record (cipher bound, type not alert) whose
cipher has IV length `ivlen >= 8` (within the static IV buffer), the nonce of
lines 129-132 is `ivlen` bytes long, starts with the first `ivlen - 8` bytes of
the static IV, and has byte `ivlen - 8 + i` equal to
`staticiv[ivlen - 8 + i] XOR seq[i]` for `i` in `0..7`, `seq` being the counter
before the call. That nonce is bound to the cipher context of the direction by
the first operation of the call, whatever the call then returns, and no other
nonce is bound; the only calls that bind none are those that fail before the
binding: an open of an undersized record and a call on the all-ones counter. -/
theorem C2_nonce_construction (E : EVP Ctx Cipher) (st : State Ctx) (rec : SSL3_RECORD)
    (sending : Bool) (c : Ctx) (cipher : Cipher)
    (hc : dirCtx st sending = some c)
    (hciph : E.CIPHER_CTX_get0_cipher (some c) = some cipher)
    (hty : rec.type ≠ SSL3_RT_ALERT)
    (h8 : 8 ≤ E.CIPHER_CTX_get_iv_length c)
    (hcap : E.CIPHER_CTX_get_iv_length c ≤ (dirIV st sending).length)
    (hsl : (dirSeq st sending).length = 8) (hsb : IsBytes (dirSeq st sending)) :
    ((deriveNonce (dirIV st sending) (dirSeq st sending)
        (E.CIPHER_CTX_get_iv_length c)).length = E.CIPHER_CTX_get_iv_length c ∧
      (deriveNonce (dirIV st sending) (dirSeq st sending)
        (E.CIPHER_CTX_get_iv_length c)).take (E.CIPHER_CTX_get_iv_length c - 8) =
        (dirIV st sending).take (E.CIPHER_CTX_get_iv_length c - 8) ∧
      ∀ i, i < 8 →
        (deriveNonce (dirIV st sending) (dirSeq st sending)
          (E.CIPHER_CTX_get_iv_length c)).getD (E.CIPHER_CTX_get_iv_length c - 8 + i) 0 =
        (dirIV st sending).getD (E.CIPHER_CTX_get_iv_length c - 8 + i) 0 ^^^
          (dirSeq st sending).getD i 0) ∧
    ((sending = false → st.taglen + 1 ≤ rec.length) → dirSeq st sending ≠ seqOnes →
      ∃ l, newCalls st (tls13_cipher E st [rec] 1 sending).2.1 =
          (EvpCall.CipherInit_ex (deriveNonce (dirIV st sending) (dirSeq st sending)
              (E.CIPHER_CTX_get_iv_length c)) sending,
            (E.step c (EvpCall.CipherInit_ex (deriveNonce (dirIV st sending)
              (dirSeq st sending) (E.CIPHER_CTX_get_iv_length c)) sending)).2) :: l ∧
        ∀ x ∈ l, nonceOf x = none) ∧
    ((sending = false ∧ rec.length < st.taglen + 1) ∨ dirSeq st sending = seqOnes →
      (tls13_cipher E st [rec] 1 sending).1 = 0 ∧
      newCalls st (tls13_cipher E st [rec] 1 sending).2.1 = []) ∧
    (∀ iv enc r, (EvpCall.CipherInit_ex iv enc, r) ∈
        newCalls st (tls13_cipher E st [rec] 1 sending).2.1 →
      enc = sending ∧
      iv = deriveNonce (dirIV st sending) (dirSeq st sending)
        (E.CIPHER_CTX_get_iv_length c)) := by
  rw [cipher_one]
  simp only []
  obtain ⟨_, _, _, hones, _⟩ := incrementLoop_seq (dirSeq st sending) hsl hsb
  refine ⟨⟨deriveNonce_length _ _ _ h8 hcap, deriveNonce_take _ _ _ hcap,
    fun i hi => deriveNonce_getD _ _ _ i hcap hi⟩, ?_, ?_, ?_⟩
  · intro hlen hne
    have hinc : (incrementLoop SEQ_NUM_SIZE (dirSeq st sending)).1 ≠ 0 :=
      fun h0 => hne (hones.1 h0)
    rw [rec_eq E st rec sending c cipher hc hciph hty hlen h8, if_neg hinc]
    obtain ⟨l, hl, hno⟩ := crypt_newCalls E
      (setSeq st sending (incrementLoop SEQ_NUM_SIZE (dirSeq st sending)).2)
      (if sending then rec else { rec with length := rec.length - st.taglen }) sending c
      (E.CIPHER_get_mode cipher)
      (deriveNonce (dirIV st sending) (dirSeq st sending) (E.CIPHER_CTX_get_iv_length c))
    have key : ∀ y : State Ctx, newCalls st y =
        newCalls (setSeq st sending (incrementLoop SEQ_NUM_SIZE (dirSeq st sending)).2) y := by
      intro y; simp [newCalls]
    rw [key, hl]
    exact ⟨l, rfl, hno⟩
  · rintro (⟨hs, hshort⟩ | hseq)
    · subst hs
      have e : tls13_cipher_rec E st rec false = (0, st, rec) := by
        simp [tls13_cipher_rec, hc, hciph, hty, hshort]
      rw [e]
      exact ⟨rfl, by simp [newCalls]⟩
    · by_cases hlen : sending = false → st.taglen + 1 ≤ rec.length
      · have hinc : (incrementLoop SEQ_NUM_SIZE (dirSeq st sending)).1 = 0 := hones.2 hseq
        rw [rec_eq E st rec sending c cipher hc hciph hty hlen h8, if_pos hinc]
        exact ⟨rfl, by simp [newCalls]⟩
      · have hs : sending = false := by
          cases sending
          · rfl
          · exact absurd (fun h => by simp at h) hlen
        subst hs
        have hshort : rec.length < st.taglen + 1 := by
          have : ¬ st.taglen + 1 ≤ rec.length := fun h => hlen (fun _ => h)
          omega
        have e : tls13_cipher_rec E st rec false = (0, st, rec) := by
          simp [tls13_cipher_rec, hc, hciph, hty, hshort]
        rw [e]
        exact ⟨rfl, by simp [newCalls]⟩
  · intro iv enc r hmem
    rcases rec_nonces E st rec sending with h | ⟨c1, r1, l, hc1, _, hl, hno⟩
    · rw [h] at hmem
      simp at hmem
    · rw [hl] at hmem
      have hcc : c1 = c := by
        rw [hc] at hc1
        exact (Option.some.inj hc1).symm
      subst hcc
      rcases List.mem_cons.1 hmem with h | h
      · simp only [Prod.mk.injEq, EvpCall.CipherInit_ex.injEq] at h
        obtain ⟨⟨h1, h2⟩, _⟩ := h
        exact ⟨h2, h1⟩
      · have := hno _ h
        simp [nonceOf] at this

/-- C2, witness: sealing the scenario record with the write counter at 258
binds the static IV with its last two bytes xor-ed with 1 and 2; the call
succeeds and that is the only nonce bound. -/
theorem C2_nonce_construction_witness :
    (dirCtx midState true = some (toyCtx 6) ∧
      toyEVP.CIPHER_CTX_get0_cipher (some (toyCtx 6)) = some 6 ∧
      hiRec.type ≠ SSL3_RT_ALERT ∧
      8 ≤ toyEVP.CIPHER_CTX_get_iv_length (toyCtx 6) ∧
      toyEVP.CIPHER_CTX_get_iv_length (toyCtx 6) ≤ (dirIV midState true).length ∧
      (dirSeq midState true).length = 8 ∧ IsBytes (dirSeq midState true) ∧
      dirSeq midState true ≠ seqOnes) ∧
    deriveNonce (dirIV midState true) (dirSeq midState true)
      (toyEVP.CIPHER_CTX_get_iv_length (toyCtx 6)) =
      [1, 2, 3, 4, 5, 6, 7, 8, 9, 10, 10, 14] ∧
    (newCalls midState (tls13_cipher toyEVP midState [hiRec] 1 true).2.1).head? =
      some (EvpCall.CipherInit_ex [1, 2, 3, 4, 5, 6, 7, 8, 9, 10, 10, 14] true, some []) ∧
    (newCalls midState (tls13_cipher toyEVP midState [hiRec] 1 true).2.1).filterMap nonceOf =
      [[1, 2, 3, 4, 5, 6, 7, 8, 9, 10, 10, 14]] ∧
    (∃ l, newCalls midState (tls13_cipher toyEVP midState [hiRec] 1 true).2.1 =
        (EvpCall.CipherInit_ex (deriveNonce (dirIV midState true) (dirSeq midState true)
            (toyEVP.CIPHER_CTX_get_iv_length (toyCtx 6))) true,
          (toyEVP.step (toyCtx 6) (EvpCall.CipherInit_ex (deriveNonce (dirIV midState true)
            (dirSeq midState true) (toyEVP.CIPHER_CTX_get_iv_length (toyCtx 6))) true)).2) :: l ∧
      ∀ x ∈ l, nonceOf x = none) :=
  ⟨⟨by decide, by decide, by decide, by decide, by decide, by decide, by decide, by decide⟩,
    by decide, by decide, by decide,
    (C2_nonce_construction toyEVP midState hiRec true (toyCtx 6) 6 (by decide) (by decide)
      (by decide) (by decide) (by decide) (by decide) (by decide)).2.1
      (by decide) (by decide)⟩

theorem readBytes_length (m : Mem) (p n : Nat) : (readBytes m p n).length = n := by
  simp [readBytes]

theorem readBytes_append (m : Mem) (p a b : Nat) :
    readBytes m p (a + b) = readBytes m p a ++ readBytes m (p + a) b := by
  simp only [readBytes, List.range_add, List.map_append, List.map_map]
  congr 1
  apply List.map_congr_left
  intro i _
  simp [Nat.add_assoc]

theorem readBytes_congr (m1 m2 : Mem) (p n : Nat) (h : ∀ a, p ≤ a → a < p + n → m1 a = m2 a) :
    readBytes m1 p n = readBytes m2 p n := by
  simp only [readBytes]
  apply List.map_congr_left
  intro i hi
  have := List.mem_range.1 hi
  exact h _ (by omega) (by omega)

theorem readBytes_writeBytes_same (m : Mem) (p : Nat) (bs : List Nat) :
    readBytes (writeBytes m p bs) p bs.length = bs := by
  apply List.ext_getElem
  · simp [readBytes]
  · intro i h1 h2
    simp only [readBytes, List.getElem_map, List.getElem_range, writeBytes]
    have : p ≤ p + i ∧ p + i < p + bs.length := by omega
    rw [if_pos this]
    simp [List.getD_eq_getElem?_getD, h2]

theorem readBytes_writeBytes_disjoint (m : Mem) (p q n : Nat) (bs : List Nat)
    (h : q + n ≤ p ∨ p + bs.length ≤ q) :
    readBytes (writeBytes m p bs) q n = readBytes m q n := by
  apply readBytes_congr
  intro a h1 h2
  simp only [writeBytes]
  rw [if_neg]
  omega

/-- The three writes of a successful seal leave `ct1 ++ ct2` followed by the tag. -/
theorem readBytes_sealed (m : Mem) (d n : Nat) (ct1 ct2 tag : List Nat)
    (hlen : ct1.length + ct2.length = n) :
    readBytes (writeBytes (writeBytes (writeBytes m d ct1) (d + ct1.length) ct2) (d + n) tag)
        d n = ct1 ++ ct2 ∧
    readBytes (writeBytes (writeBytes (writeBytes m d ct1) (d + ct1.length) ct2) (d + n) tag)
        (d + n) tag.length = tag := by
  refine ⟨?_, readBytes_writeBytes_same _ _ _⟩
  rw [readBytes_writeBytes_disjoint _ _ _ _ _ (Or.inl (le_refl _)), ← hlen, readBytes_append,
    readBytes_writeBytes_same,
    readBytes_writeBytes_disjoint _ _ _ _ _ (Or.inl (le_refl _)), readBytes_writeBytes_same]

/-- The two writes of a successful open leave `pt1 ++ pt2`. -/
theorem readBytes_opened (m : Mem) (d n : Nat) (pt1 pt2 : List Nat)
    (hlen : pt1.length + pt2.length = n) :
    readBytes (writeBytes (writeBytes m d pt1) (d + pt1.length) pt2) d n = pt1 ++ pt2 := by
  rw [← hlen, readBytes_append, readBytes_writeBytes_same,
    readBytes_writeBytes_disjoint _ _ _ _ _ (Or.inl (le_refl _)), readBytes_writeBytes_same]

theorem readBytes_memmove (m : Mem) (d i n : Nat) :
    readBytes (memmove m d i n) d n = readBytes m i n := by
  have := readBytes_writeBytes_same m d (readBytes m i n)
  rw [readBytes_length] at this
  exact this

theorem newCalls_setSeq (st y : State Ctx) (s : Bool) (q : List Nat) :
    newCalls (setSeq st s q) y = newCalls st y := by
  simp [newCalls]

theorem feed_success_aad (E : EVP Ctx Cipher) (st : State Ctx) (rec : SSL3_RECORD)
    (s : Bool) (c : Ctx) (mode : Nat) (hdr : List Nat)
    (h : (tls13_cipher_feed E st rec s c mode hdr).1 = 1) :
    ∃ x ∈ newCalls st (tls13_cipher_feed E st rec s c mode hdr).2.1, aadOf x = some hdr := by
  unfold tls13_cipher_feed at h ⊢
  unfold newCalls
  by_cases hm : mode = EVP_CIPH_CCM_MODE <;> cases s <;>
    simp only [hm, if_true, if_false, Bool.false_eq_true] at h ⊢ <;>
    (repeat' split at h) <;> simp at h <;> simp_all [aadOf]

theorem rec_aad (E : EVP Ctx Cipher) (st : State Ctx) (rec : SSL3_RECORD) (s : Bool) :
    ∀ x ∈ newCalls st (tls13_cipher_rec E st rec s).2.1, ∀ a, aadOf x = some a →
      buildHeader (if s then rec else { rec with length := rec.length - st.taglen })
        st.taglen = some a ∧ (s = false → st.taglen + 1 ≤ rec.length) := by
  intro x hx a ha
  rcases rec_cases E st rec s with ⟨_, h⟩ | ⟨_, h, _⟩ | ⟨c, ci, _, _, _, hlen, _, _, he⟩
  · rw [h] at hx; simp [newCalls, tls13_cipher_plain] at hx
  · simp [newCalls, h] at hx
  · rw [he, ← newCalls_setSeq st _ s (incrementLoop SEQ_NUM_SIZE (dirSeq st s)).2] at hx
    refine ⟨?_, hlen⟩
    rcases crypt_cases E (setSeq st s (incrementLoop SEQ_NUM_SIZE (dirSeq st s)).2)
      (if s then rec else { rec with length := rec.length - st.taglen }) s c
      (E.CIPHER_get_mode ci)
      (deriveNonce (dirIV st s) (dirSeq st s) (E.CIPHER_CTX_get_iv_length c)) with
      ⟨_, _, _, _, hno⟩ | ⟨cI, cS, xI, xS, hdr, stS, _, _, hH, _, _, _, hpre, hnoaad, hfeed⟩
    · exfalso
      have := hno x hx
      rcases x with ⟨call, r⟩
      cases call <;> simp [aadOf] at ha
      rename_i o i l
      exact this o i l rfl
    · rw [hfeed] at hx
      rw [newCalls_trans hpre (feed_calls_grow _ _ _ _ _ _ _)] at hx
      rcases List.mem_append.1 hx with h1 | h1
      · rw [hnoaad x h1] at ha; simp at ha
      · have := feed_aad E stS _ s cS _ hdr x h1 a ha
        rw [this]
        simpa using hH

/-- A successful call on a non-alert record with a bound context went through
every step up to `tls13_cipher_feed`, which succeeded. -/
theorem rec_success (E : EVP Ctx Cipher) (st : State Ctx) (rec : SSL3_RECORD) (s : Bool)
    (c : Ctx) (hc : dirCtx st s = some c) (hty : rec.type ≠ SSL3_RT_ALERT)
    (hret : (tls13_cipher_rec E st rec s).1 = 1) :
    ∃ (ci : Cipher) (cI cS : Ctx) (xI xS hdr : List Nat) (stS : State Ctx),
      E.CIPHER_CTX_get0_cipher (some c) = some ci ∧
      (s = false → st.taglen + 1 ≤ rec.length) ∧
      8 ≤ E.CIPHER_CTX_get_iv_length c ∧
      (incrementLoop SEQ_NUM_SIZE (dirSeq st s)).1 ≠ 0 ∧
      E.step c (EvpCall.CipherInit_ex
        (deriveNonce (dirIV st s) (dirSeq st s) (E.CIPHER_CTX_get_iv_length c)) s) =
          (cI, some xI) ∧
      (if s then (cI, some []) else
        E.step cI (EvpCall.ctrl_AEAD_SET_TAG st.taglen
          (readBytes st.mem (rec.data + (rec.length - st.taglen)) st.taglen))) = (cS, some xS) ∧
      buildHeader (if s then rec else { rec with length := rec.length - st.taglen })
        st.taglen = some hdr ∧
      stS.mem = st.mem ∧ stS.fatals = st.fatals ∧ stS.taglen = st.taglen ∧
      st.calls <+: stS.calls ∧
      (∀ x ∈ newCalls st stS, aadOf x = none) ∧
      tls13_cipher_rec E st rec s =
        tls13_cipher_feed E stS
          (if s then rec else { rec with length := rec.length - st.taglen }) s cS
          (E.CIPHER_get_mode ci) hdr := by
  rcases rec_cases E st rec s with ⟨h1 | h1, _⟩ | ⟨h1, _⟩ | ⟨c1, ci, hc1, hci, _, hlen, h8, hinc, he⟩
  · rw [hc] at h1; simp at h1
  · exact absurd h1 hty
  · rw [h1] at hret; simp at hret
  · have hcc : c1 = c := by
      rw [hc] at hc1
      exact (Option.some.inj hc1).symm
    subst hcc
    rcases crypt_cases E (setSeq st s (incrementLoop SEQ_NUM_SIZE (dirSeq st s)).2)
      (if s then rec else { rec with length := rec.length - st.taglen }) s c1
      (E.CIPHER_get_mode ci)
      (deriveNonce (dirIV st s) (dirSeq st s) (E.CIPHER_CTX_get_iv_length c1)) with
      ⟨h0, _⟩ | ⟨cI, cS, xI, xS, hdr, stS, hI, hS, hH, hm, hf, ht, hpre, hnoaad, hfeed⟩
    · rw [he, h0] at hret; simp at hret
    · refine ⟨ci, cI, cS, xI, xS, hdr, stS, hci, hlen, h8, hinc, hI, ?_, ?_, ?_, ?_, ?_, ?_,
        ?_, ?_⟩
      · cases s <;> simpa using hS
      · simpa using hH
      · simpa using hm
      · simpa using hf
      · simpa using ht
      · simpa using hpre
      · intro x hx
        exact hnoaad x (by rw [newCalls_setSeq]; exact hx)
      · rw [he, hfeed]

/-- C4 (associated data): the associated data fed to the cipher by a call of
`tls13_cipher` is always the five bytes type, version (big-endian) and
tag-inclusive wire length (big-endian): plaintext length plus tag length on
seal, the original record length on open; it is fed only when these fit their
fields (wire length at most 65535), and a successful call on a non-alert
record feeds it; so sealing `n` bytes and opening the `n + taglen` byte record
of the same type and version feed byte-identical data. -/
theorem C4_aad_wire_length (E : EVP Ctx Cipher) (st : State Ctx) (rec : SSL3_RECORD)
    (sending : Bool) :
    (∀ x ∈ newCalls st (tls13_cipher E st [rec] 1 sending).2.1, ∀ a, aadOf x = some a →
      a = [rec.type, rec.rec_version / 256, rec.rec_version % 256,
          (if sending then rec.length + st.taglen else rec.length) / 256,
          (if sending then rec.length + st.taglen else rec.length) % 256] ∧
      rec.type < 256 ∧ rec.rec_version < 65536 ∧
      (if sending then rec.length + st.taglen else rec.length) ≤ 65535) ∧
    (∀ c, dirCtx st sending = some c → rec.type ≠ SSL3_RT_ALERT →
      (tls13_cipher E st [rec] 1 sending).1 = 1 →
      ∃ x ∈ newCalls st (tls13_cipher E st [rec] 1 sending).2.1,
        aadOf x = some [rec.type, rec.rec_version / 256, rec.rec_version % 256,
          (if sending then rec.length + st.taglen else rec.length) / 256,
          (if sending then rec.length + st.taglen else rec.length) % 256]) ∧
    (∀ (st2 : State Ctx) (rec2 : SSL3_RECORD), st2.taglen = st.taglen →
      rec2.type = rec.type → rec2.rec_version = rec.rec_version →
      rec2.length = rec.length + st.taglen →
      ∀ x ∈ newCalls st (tls13_cipher E st [rec] 1 true).2.1,
      ∀ y ∈ newCalls st2 (tls13_cipher E st2 [rec2] 1 false).2.1,
      ∀ a b, aadOf x = some a → aadOf y = some b → a = b) := by
  have part1 : ∀ (st : State Ctx) (rec : SSL3_RECORD) (sending : Bool),
      ∀ x ∈ newCalls st (tls13_cipher E st [rec] 1 sending).2.1, ∀ a, aadOf x = some a →
      a = [rec.type, rec.rec_version / 256, rec.rec_version % 256,
          (if sending then rec.length + st.taglen else rec.length) / 256,
          (if sending then rec.length + st.taglen else rec.length) % 256] ∧
      rec.type < 256 ∧ rec.rec_version < 65536 ∧
      (if sending then rec.length + st.taglen else rec.length) ≤ 65535 := by
    intro st rec sending x hx a ha
    rw [cipher_one] at hx
    obtain ⟨hb, hlen⟩ := rec_aad E st rec sending x hx a ha
    obtain ⟨h1, h2, h3, h4⟩ := buildHeader_some _ _ _ hb
    cases sending
    · have := hlen rfl
      have e : rec.length - st.taglen + st.taglen = rec.length := by omega
      simp only [Bool.false_eq_true, if_false, e] at h1 h2 h3 h4 ⊢
      exact ⟨h1, h2, h3, by omega⟩
    · simp only [if_true] at h1 h2 h3 h4 ⊢
      exact ⟨h1, h2, h3, by omega⟩
  refine ⟨part1 st rec sending, ?_, ?_⟩
  · intro c hc hty hret
    rw [cipher_one] at hret ⊢
    simp only [] at hret ⊢
    obtain ⟨ci, cI, cS, xI, xS, hdr, stS, _, hlen, _, _, _, _, hH, _, _, _, hpre, _, he⟩ :=
      rec_success E st rec sending c hc hty hret
    rw [he] at hret ⊢
    obtain ⟨x, hx, hxa⟩ := feed_success_aad E stS _ sending cS _ hdr hret
    refine ⟨x, ?_, ?_⟩
    · rw [newCalls_trans hpre (feed_calls_grow _ _ _ _ _ _ _)]
      exact List.mem_append_right _ hx
    · rw [hxa]
      obtain ⟨h1, _⟩ := buildHeader_some _ _ _ hH
      rw [h1]
      cases sending
      · have := hlen rfl
        have e : rec.length - st.taglen + st.taglen = rec.length := by omega
        simp [e]
      · simp
  · intro st2 rec2 ht hty hv hl x hx y hy a b ha hb
    obtain ⟨h1, _⟩ := part1 st rec true x hx a ha
    obtain ⟨h2, _⟩ := part1 st2 rec2 false y hy b hb
    rw [h1, h2]
    simp [ht, hty, hv, hl]

/-- C4, witness: the theorem at the scenario of the toy cipher. -/
theorem C4_aad_wire_length_witness :
    (∃ x ∈ newCalls hiState (tls13_cipher toyEVP hiState [hiRec] 1 true).2.1,
      aadOf x = some [23, 3, 4, 0, 18]) ∧
    (∀ x ∈ newCalls hiState (tls13_cipher toyEVP hiState [hiRec] 1 true).2.1,
      ∀ y ∈ newCalls (openState sealedMem)
        (tls13_cipher toyEVP (openState sealedMem) [wireRec] 1 false).2.1,
      ∀ a b, aadOf x = some a → aadOf y = some b → a = b) :=
  ⟨(C4_aad_wire_length toyEVP hiState hiRec true).2.1 (toyCtx 6) rfl (by decide) (by decide),
   (C4_aad_wire_length toyEVP hiState hiRec true).2.2 (openState sealedMem) wireRec rfl rfl rfl
      rfl⟩

theorem dirSeq_of_fields (a b : State Ctx) (hw : a.write_sequence = b.write_sequence)
    (hr : a.read_sequence = b.read_sequence) (t : Bool) : dirSeq a t = dirSeq b t := by
  cases t <;> simp [dirSeq, hw, hr]

/-- C5, as stated, fails: a call on an alert record with a bound cipher returns
success and leaves the counter where it was. -/
theorem C5_counterexample :
    (tls13_cipher toyEVP hiState [alertRec] 1 true).1 = 1 ∧
    beVal (dirSeq (tls13_cipher toyEVP hiState [alertRec] 1 true).2.1 true) ≠
      beVal (dirSeq hiState true) + 1 := by
  decide

/-- C5 (counter monotonicity, amended): a call of `tls13_cipher` on a non-alert
record with a cipher context bound for the direction that returns success has
incremented that direction's 8-byte counter, read as a big-endian unsigned
integer, by exactly 1, and has left the other direction's counter alone. -/
theorem C5_counter_increment (E : EVP Ctx Cipher) (st : State Ctx) (rec : SSL3_RECORD)
    (sending : Bool) (c : Ctx) (hc : dirCtx st sending = some c)
    (hty : rec.type ≠ SSL3_RT_ALERT)
    (hlen : (dirSeq st sending).length = 8) (hb : IsBytes (dirSeq st sending))
    (hret : (tls13_cipher E st [rec] 1 sending).1 = 1) :
    beVal (dirSeq (tls13_cipher E st [rec] 1 sending).2.1 sending) =
      beVal (dirSeq st sending) + 1 ∧
    dirSeq (tls13_cipher E st [rec] 1 sending).2.1 (!sending) = dirSeq st (!sending) := by
  rw [cipher_one] at hret ⊢
  simp only [] at hret ⊢
  rcases rec_cases E st rec sending with ⟨h1 | h1, _⟩ | ⟨h1, _⟩ | ⟨c1, ci, _, _, _, _, _, hinc, he⟩
  · rw [hc] at h1; simp at h1
  · exact absurd h1 hty
  · rw [h1] at hret; simp at hret
  · obtain ⟨hw, hr, _⟩ := crypt_frame E
      (setSeq st sending (incrementLoop SEQ_NUM_SIZE (dirSeq st sending)).2)
      (if sending then rec else { rec with length := rec.length - st.taglen }) sending c1
      (E.CIPHER_get_mode ci)
      (deriveNonce (dirIV st sending) (dirSeq st sending) (E.CIPHER_CTX_get_iv_length c1))
    rw [he]
    rw [dirSeq_of_fields _ _ hw hr, dirSeq_of_fields _ _ hw hr, setSeq_dirSeq,
      setSeq_dirSeq_other]
    exact ⟨(incrementLoop_seq _ hlen hb).2.2.1 hinc, rfl⟩

/-- C5, witness: the theorem at the scenario of the toy cipher. -/
theorem C5_counter_increment_witness :
    dirCtx hiState true = some (toyCtx 6) ∧ hiRec.type ≠ SSL3_RT_ALERT ∧
    (dirSeq hiState true).length = 8 ∧ IsBytes (dirSeq hiState true) ∧
    (tls13_cipher toyEVP hiState [hiRec] 1 true).1 = 1 ∧
    beVal (dirSeq (tls13_cipher toyEVP hiState [hiRec] 1 true).2.1 true) =
      beVal (dirSeq hiState true) + 1 ∧
    dirSeq (tls13_cipher toyEVP hiState [hiRec] 1 true).2.1 (!true) =
      dirSeq hiState (!true) :=
  ⟨rfl, by decide, rfl, by decide, by decide,
    C5_counter_increment toyEVP hiState hiRec true (toyCtx 6) rfl (by decide) rfl (by decide)
      (by decide)⟩

theorem incrementLoop_ones : incrementLoop SEQ_NUM_SIZE seqOnes = (0, seqZero) := by
  decide

/-- With the counter at zero the nonce is the static IV itself. -/
theorem deriveNonce_zero (iv : List Nat) (n : Nat) (h8 : 8 ≤ n) (hcap : n ≤ iv.length) :
    deriveNonce iv seqZero n = iv.take n := by
  apply List.ext_getElem
  · rw [deriveNonce_length _ _ _ h8 hcap]; simp; omega
  · intro i h1 h2
    simp only [deriveNonce, SEQ_NUM_SIZE]
    by_cases hi : i < n - 8
    · rw [List.getElem_append_left (by simp; omega)]
      simp
    · rw [List.getElem_append_right (by simp; omega)]
      have hlen : (deriveNonce iv seqZero n).length = n := deriveNonce_length _ _ _ h8 hcap
      have hin : i < n := by rw [← hlen]; exact h1
      have hk : i - (n - 8) < 8 := by omega
      have e : n - 8 + (i - (n - 8)) = i := by omega
      have hlt : i < iv.length := by omega
      simp only [List.length_take, List.getElem_map, List.getElem_range, List.getElem_take]
      have e2 : i - min (n - 8) iv.length = i - (n - 8) := by
        rw [Nat.min_eq_left (by omega)]
      simp only [e2, e]
      have hz : seqZero.getD (i - (n - 8)) 0 = 0 := by
        have : ∀ k, k < 8 → seqZero.getD k 0 = 0 := by decide
        exact this _ hk
      rw [hz]
      simp [List.getD_eq_getElem?_getD, hlt]

/-- The call made when the counter of the direction is all-ones. -/
theorem rec_exhausted (E : EVP Ctx Cipher) (st : State Ctx) (rec : SSL3_RECORD) (s : Bool)
    (c : Ctx) (cipher : Cipher)
    (hc : dirCtx st s = some c) (hciph : E.CIPHER_CTX_get0_cipher (some c) = some cipher)
    (hty : rec.type ≠ SSL3_RT_ALERT) (hlen : s = false → st.taglen + 1 ≤ rec.length)
    (h8 : 8 ≤ E.CIPHER_CTX_get_iv_length c) (hseq : dirSeq st s = seqOnes) :
    tls13_cipher_rec E st rec s =
      (0, setSeq st s seqZero, if s then rec else { rec with length := rec.length - st.taglen }) := by
  rw [rec_eq E st rec s c cipher hc hciph hty hlen h8, hseq, incrementLoop_ones]
  simp

/-- C6, as stated, fails: with the counter at all-ones the call fails, but the
counter is left at zero and, on open, the record length has lost the tag. -/
theorem C6_counterexample :
    (tls13_cipher toyEVP exhaustedState [hiRec] 1 true).1 = 0 ∧
    dirSeq exhaustedState true = seqOnes ∧
    dirSeq (tls13_cipher toyEVP exhaustedState [hiRec] 1 true).2.1 true = seqZero ∧
    (tls13_cipher toyEVP exhaustedState [wireRec] 1 false).1 = 0 ∧
    (tls13_cipher toyEVP exhaustedState [wireRec] 1 false).2.2 ≠ [wireRec] := by
  decide

/-- C6 (counter exhaustion, amended): when the counter of the direction is
all-ones, a call of `tls13_cipher` on a non-alert record with a bound cipher
fails, issues no cipher operation, writes no memory and leaves the record's
buffers where they were; when the call reaches the increment step (IV length
at least 8 and, on open, length at least `taglen + 1`) the only state change is
that the counter has wrapped to eight zero bytes, no fatal error is raised,
and on open the record length has been reduced by `taglen`. -/
theorem C6_exhaustion (E : EVP Ctx Cipher) (st : State Ctx) (rec : SSL3_RECORD)
    (sending : Bool) (c : Ctx) (cipher : Cipher)
    (hc : dirCtx st sending = some c)
    (hciph : E.CIPHER_CTX_get0_cipher (some c) = some cipher)
    (hty : rec.type ≠ SSL3_RT_ALERT) (hseq : dirSeq st sending = seqOnes) :
    (tls13_cipher E st [rec] 1 sending).1 = 0 ∧
    (tls13_cipher E st [rec] 1 sending).2.1.mem = st.mem ∧
    (tls13_cipher E st [rec] 1 sending).2.1.calls = st.calls ∧
    (∀ r ∈ (tls13_cipher E st [rec] 1 sending).2.2,
      r.data = rec.data ∧ r.input = rec.input ∧ r.type = rec.type ∧
      r.rec_version = rec.rec_version) ∧
    (8 ≤ E.CIPHER_CTX_get_iv_length c → (sending = false → st.taglen + 1 ≤ rec.length) →
      (tls13_cipher E st [rec] 1 sending).2.1 = setSeq st sending seqZero ∧
      (tls13_cipher E st [rec] 1 sending).2.2 =
        [if sending then rec else { rec with length := rec.length - st.taglen }]) := by
  rw [cipher_one]
  simp only []
  by_cases hu : sending = false ∧ rec.length < st.taglen + 1
  · obtain ⟨hs, hl⟩ := hu
    subst hs
    have e : tls13_cipher_rec E st rec false = (0, st, rec) := by
      simp [tls13_cipher_rec, hc, hciph, hty, hl]
    rw [e]
    refine ⟨rfl, rfl, rfl, by simp, ?_⟩
    intro _ h
    have := h rfl
    omega
  · have hlen : sending = false → st.taglen + 1 ≤ rec.length := by
      intro h; by_contra h2; exact hu ⟨h, by omega⟩
    by_cases h8 : E.CIPHER_CTX_get_iv_length c < SEQ_NUM_SIZE
    · have e : tls13_cipher_rec E st rec sending =
          (0, RLAYERfatal st SSL_AD_INTERNAL_ERROR ErrReason.ERR_R_INTERNAL_ERROR,
            if sending then rec else { rec with length := rec.length - st.taglen }) := by
        simp [tls13_cipher_rec, hc, hciph, hty, hu, h8]
      rw [e]
      refine ⟨rfl, rfl, rfl, ?_, ?_⟩
      · cases sending <;> simp
      · intro h; simp only [SEQ_NUM_SIZE] at h8; omega
    · have h8b : 8 ≤ E.CIPHER_CTX_get_iv_length c := by
        simp only [SEQ_NUM_SIZE] at h8; omega
      rw [rec_exhausted E st rec sending c cipher hc hciph hty hlen h8b hseq]
      refine ⟨rfl, by simp, by simp, ?_, ?_⟩
      · cases sending <;> simp
      · intro _ _
        exact ⟨rfl, rfl⟩

/-- C6, witness: the theorem at the scenario of the toy cipher. -/
theorem C6_exhaustion_witness :
    dirCtx exhaustedState false = some (toyCtx 6) ∧
    toyEVP.CIPHER_CTX_get0_cipher (some (toyCtx 6)) = some 6 ∧
    wireRec.type ≠ SSL3_RT_ALERT ∧ dirSeq exhaustedState false = seqOnes ∧
    (tls13_cipher toyEVP exhaustedState [wireRec] 1 false).1 = 0 ∧
    (tls13_cipher toyEVP exhaustedState [wireRec] 1 false).2.1.mem = exhaustedState.mem ∧
    (tls13_cipher toyEVP exhaustedState [wireRec] 1 false).2.1.calls = exhaustedState.calls ∧
    (∀ r ∈ (tls13_cipher toyEVP exhaustedState [wireRec] 1 false).2.2,
      r.data = wireRec.data ∧ r.input = wireRec.input ∧ r.type = wireRec.type ∧
      r.rec_version = wireRec.rec_version) ∧
    (8 ≤ toyEVP.CIPHER_CTX_get_iv_length (toyCtx 6) →
      (false = false → exhaustedState.taglen + 1 ≤ wireRec.length) →
      (tls13_cipher toyEVP exhaustedState [wireRec] 1 false).2.1 =
        setSeq exhaustedState false seqZero ∧
      (tls13_cipher toyEVP exhaustedState [wireRec] 1 false).2.2 =
        [if false then wireRec
          else { wireRec with length := wireRec.length - exhaustedState.taglen }]) :=
  ⟨rfl, rfl, by decide, rfl,
    C6_exhaustion toyEVP exhaustedState wireRec false (toyCtx 6) 6 rfl rfl (by decide) rfl⟩

/-- C7, as stated, fails: after a call has failed on counter overflow, the next
call on the same state succeeds and binds the nonce of the first record. -/
theorem C7_counterexample :
    dirSeq exhaustedState true = seqOnes ∧
    (tls13_cipher toyEVP exhaustedState [hiRec] 1 true).1 = 0 ∧
    (tls13_cipher toyEVP (tls13_cipher toyEVP exhaustedState [hiRec] 1 true).2.1
      [hiRec] 1 true).1 = 1 ∧
    (newCalls (tls13_cipher toyEVP exhaustedState [hiRec] 1 true).2.1
      (tls13_cipher toyEVP (tls13_cipher toyEVP exhaustedState [hiRec] 1 true).2.1
        [hiRec] 1 true).2.1).filterMap nonceOf =
    (newCalls hiState (tls13_cipher toyEVP hiState [hiRec] 1 true).2.1).filterMap nonceOf := by
  decide

/-- C7 (exhaustion, amended): a call of `tls13_cipher` that fails because the
counter overflowed leaves the counter of the direction at zero and keeps no
mark of the exhaustion; a later call on the same state is processed from
counter zero, so every nonce it binds is the static IV itself (its first
`ivlen` bytes, xor-ed with zero), the nonce of the first record under the key.
Making exhaustion terminal is left to the caller. -/
theorem C7_wrap_to_zero (E : EVP Ctx Cipher) (st : State Ctx) (rec rec2 : SSL3_RECORD)
    (sending : Bool) (c : Ctx) (cipher : Cipher)
    (hc : dirCtx st sending = some c)
    (hciph : E.CIPHER_CTX_get0_cipher (some c) = some cipher)
    (hty : rec.type ≠ SSL3_RT_ALERT) (hlen : sending = false → st.taglen + 1 ≤ rec.length)
    (h8 : 8 ≤ E.CIPHER_CTX_get_iv_length c)
    (hcap : E.CIPHER_CTX_get_iv_length c ≤ (dirIV st sending).length)
    (hseq : dirSeq st sending = seqOnes) :
    (tls13_cipher E st [rec] 1 sending).1 = 0 ∧
    dirSeq (tls13_cipher E st [rec] 1 sending).2.1 sending = seqZero ∧
    dirCtx (tls13_cipher E st [rec] 1 sending).2.1 sending = some c ∧
    ∀ iv enc r, (EvpCall.CipherInit_ex iv enc, r) ∈
        newCalls (tls13_cipher E st [rec] 1 sending).2.1
          (tls13_cipher E (tls13_cipher E st [rec] 1 sending).2.1 [rec2] 1 sending).2.1 →
      iv = (dirIV st sending).take (E.CIPHER_CTX_get_iv_length c) := by
  have e : (tls13_cipher E st [rec] 1 sending) =
      (0, setSeq st sending seqZero,
        [if sending then rec else { rec with length := rec.length - st.taglen }]) := by
    rw [cipher_one, rec_exhausted E st rec sending c cipher hc hciph hty hlen h8 hseq]
  rw [e]
  refine ⟨rfl, by simp, by simp [hc], ?_⟩
  intro iv enc r hmem
  simp only [] at hmem
  rw [cipher_one] at hmem
  rcases rec_nonces E (setSeq st sending seqZero) rec2 sending with
    h | ⟨c1, r1, l, hc1, _, hl, hno⟩
  · simp only [] at hmem
    rw [h] at hmem
    simp at hmem
  · simp only [] at hmem
    rw [hl] at hmem
    rw [setSeq_dirCtx, hc] at hc1
    have hcc : c1 = c := (Option.some.inj hc1).symm
    subst hcc
    rcases List.mem_cons.1 hmem with h | h
    · simp only [Prod.mk.injEq, EvpCall.CipherInit_ex.injEq] at h
      obtain ⟨⟨h1, _⟩, _⟩ := h
      rw [h1, setSeq_dirIV, setSeq_dirSeq]
      exact deriveNonce_zero _ _ h8 hcap
    · have := hno _ h
      simp [nonceOf] at this

/-- C7, witness: the theorem at the scenario of the toy cipher. -/
theorem C7_wrap_to_zero_witness :
    dirCtx exhaustedState true = some (toyCtx 6) ∧
    toyEVP.CIPHER_CTX_get0_cipher (some (toyCtx 6)) = some 6 ∧
    hiRec.type ≠ SSL3_RT_ALERT ∧
    (true = false → exhaustedState.taglen + 1 ≤ hiRec.length) ∧
    8 ≤ toyEVP.CIPHER_CTX_get_iv_length (toyCtx 6) ∧
    toyEVP.CIPHER_CTX_get_iv_length (toyCtx 6) ≤ (dirIV exhaustedState true).length ∧
    dirSeq exhaustedState true = seqOnes ∧
    (tls13_cipher toyEVP exhaustedState [hiRec] 1 true).1 = 0 ∧
    dirSeq (tls13_cipher toyEVP exhaustedState [hiRec] 1 true).2.1 true = seqZero ∧
    dirCtx (tls13_cipher toyEVP exhaustedState [hiRec] 1 true).2.1 true = some (toyCtx 6) ∧
    ∀ iv enc r, (EvpCall.CipherInit_ex iv enc, r) ∈
        newCalls (tls13_cipher toyEVP exhaustedState [hiRec] 1 true).2.1
          (tls13_cipher toyEVP (tls13_cipher toyEVP exhaustedState [hiRec] 1 true).2.1
            [hiRec] 1 true).2.1 →
      iv = (dirIV exhaustedState true).take (toyEVP.CIPHER_CTX_get_iv_length (toyCtx 6)) :=
  ⟨rfl, rfl, by decide, by decide, by decide, by decide, rfl,
    C7_wrap_to_zero toyEVP exhaustedState hiRec hiRec true (toyCtx 6) 6 rfl rfl (by decide)
      (by decide) (by decide) (by decide) rfl⟩

/-- C8 (undersized input on open): for a non-alert record with a bound cipher
and `length < taglen + 1`, `tls13_cipher` with `sending = 0` returns 0 and
changes nothing: the state (sequence counters, cipher contexts, memory and so
the record's data, the log of fatal errors, the log of cipher operations) and
the record (its length included) are as before the call. -/
theorem C8_undersized_open (E : EVP Ctx Cipher) (st : State Ctx) (rec : SSL3_RECORD)
    (c : Ctx) (cipher : Cipher)
    (hc : dirCtx st false = some c)
    (hciph : E.CIPHER_CTX_get0_cipher (some c) = some cipher)
    (hty : rec.type ≠ SSL3_RT_ALERT) (hshort : rec.length < st.taglen + 1) :
    tls13_cipher E st [rec] 1 false = (0, st, [rec]) ∧
    newFatals st (tls13_cipher E st [rec] 1 false).2.1 = [] ∧
    newCalls st (tls13_cipher E st [rec] 1 false).2.1 = [] ∧
    dirSeq (tls13_cipher E st [rec] 1 false).2.1 false = dirSeq st false ∧
    (tls13_cipher E st [rec] 1 false).2.1.mem = st.mem := by
  have e : tls13_cipher E st [rec] 1 false = (0, st, [rec]) := by
    rw [cipher_one]
    simp [tls13_cipher_rec, hc, hciph, hty, hshort]
  rw [e]
  simp [newFatals, newCalls]

/-- C8, witness: the theorem at the scenario of the toy cipher. -/
theorem C8_undersized_open_witness :
    dirCtx (openState sealedMem) false = some (toyCtx 6) ∧
    toyEVP.CIPHER_CTX_get0_cipher (some (toyCtx 6)) = some 6 ∧
    shortRec.type ≠ SSL3_RT_ALERT ∧ shortRec.length < (openState sealedMem).taglen + 1 ∧
    tls13_cipher toyEVP (openState sealedMem) [shortRec] 1 false =
      (0, openState sealedMem, [shortRec]) ∧
    newFatals (openState sealedMem)
      (tls13_cipher toyEVP (openState sealedMem) [shortRec] 1 false).2.1 = [] ∧
    newCalls (openState sealedMem)
      (tls13_cipher toyEVP (openState sealedMem) [shortRec] 1 false).2.1 = [] ∧
    dirSeq (tls13_cipher toyEVP (openState sealedMem) [shortRec] 1 false).2.1 false =
      dirSeq (openState sealedMem) false ∧
    (tls13_cipher toyEVP (openState sealedMem) [shortRec] 1 false).2.1.mem =
      (openState sealedMem).mem :=
  ⟨rfl, rfl, by decide, by decide,
    C8_undersized_open toyEVP (openState sealedMem) shortRec (toyCtx 6) 6 rfl rfl (by decide)
      (by decide)⟩

/-- An open that issued an `EVP_CipherUpdate` raised no fatal error. -/
theorem rec_open_fed_fatals (E : EVP Ctx Cipher) (st : State Ctx) (rec : SSL3_RECORD)
    (hfed : ∃ x ∈ newCalls st (tls13_cipher_rec E st rec false).2.1, ∃ o i l,
      x.1 = EvpCall.CipherUpdate o i l) :
    (tls13_cipher_rec E st rec false).2.1.fatals = st.fatals := by
  obtain ⟨x, hx, o, i, l, hxe⟩ := hfed
  rcases rec_cases E st rec false with ⟨_, h⟩ | ⟨_, h, _⟩ | ⟨c, ci, _, _, _, _, _, _, he⟩
  · rw [h] at hx; simp [newCalls, tls13_cipher_plain] at hx
  · simp [newCalls, h] at hx
  · rw [he, ← newCalls_setSeq st _ false (incrementLoop SEQ_NUM_SIZE (dirSeq st false)).2] at hx
    rw [he]
    rcases crypt_cases E (setSeq st false (incrementLoop SEQ_NUM_SIZE (dirSeq st false)).2)
      (if false then rec else { rec with length := rec.length - st.taglen }) false c
      (E.CIPHER_get_mode ci)
      (deriveNonce (dirIV st false) (dirSeq st false) (E.CIPHER_CTX_get_iv_length c)) with
      ⟨_, _, _, _, hno⟩ | ⟨cI, cS, xI, xS, hdr, stS, _, _, _, _, hf, _, _, _, hfeed⟩
    · exact absurd hxe (hno x hx o i l)
    · rw [hfeed, (feed_fatals_open E stS _ cS _ hdr).1, hf]
      simp

/-- C10 (logical length and tag placement): a successful seal of a non-alert
record of plaintext length `n` leaves the record with length `n + taglen`; its
first `n` output bytes are the ciphertext the primitive produced (the output
of the payload update followed by that of the finalisation) and bytes
`n .. n + taglen - 1` are the tag the cipher context returned; a successful
open of a non-alert record of length `m` leaves the record with length
`m - taglen`. The tag control is taken to return as many bytes as asked. -/
theorem C10_length_and_tag (E : EVP Ctx Cipher) (st : State Ctx) (rec : SSL3_RECORD)
    (hget : ∀ c n p c1 t, E.step c (EvpCall.ctrl_AEAD_GET_TAG n p) = (c1, some t) →
      t.length = n) :
    (∀ c, dirCtx st true = some c → rec.type ≠ SSL3_RT_ALERT →
      (tls13_cipher E st [rec] 1 true).1 = 1 →
      ∃ ct1 ct2 tag,
        (tls13_cipher E st [rec] 1 true).2.2 =
          [{ rec with length := rec.length + st.taglen }] ∧
        (EvpCall.CipherUpdate (some rec.data) (some (readBytes st.mem rec.input rec.length))
          rec.length, some ct1) ∈ newCalls st (tls13_cipher E st [rec] 1 true).2.1 ∧
        (EvpCall.CipherFinal_ex (rec.data + ct1.length), some ct2) ∈
          newCalls st (tls13_cipher E st [rec] 1 true).2.1 ∧
        (EvpCall.ctrl_AEAD_GET_TAG st.taglen (rec.data + rec.length), some tag) ∈
          newCalls st (tls13_cipher E st [rec] 1 true).2.1 ∧
        readBytes (tls13_cipher E st [rec] 1 true).2.1.mem rec.data rec.length = ct1 ++ ct2 ∧
        readBytes (tls13_cipher E st [rec] 1 true).2.1.mem (rec.data + rec.length) st.taglen =
          tag) ∧
    (∀ c, dirCtx st false = some c → rec.type ≠ SSL3_RT_ALERT →
      (tls13_cipher E st [rec] 1 false).1 = 1 →
      st.taglen + 1 ≤ rec.length ∧
      (tls13_cipher E st [rec] 1 false).2.2 =
        [{ rec with length := rec.length - st.taglen }]) := by
  constructor
  · intro c hc hty hret
    rw [cipher_one] at hret ⊢
    simp only [] at hret ⊢
    obtain ⟨ci, cI, cS, xI, xS, hdr, stS, _, _, _, _, _, _, hH, hm, _, ht, hpre, _, he⟩ :=
      rec_success E st rec true c hc hty hret
    simp only [if_true] at hH he
    rw [he] at hret ⊢
    obtain ⟨_, _, _, hbound⟩ := buildHeader_some _ _ _ hH
    have hmod : rec.length % 2 ^ 32 = rec.length := Nat.mod_eq_of_lt (by omega)
    obtain ⟨cL, cA, cP, cF, cT, xL, xA, ct1, ct2, tag, _, _, _, _, hlen, hT, hmem, hrec,
      m1, m2, m3⟩ := feed_seal_inv E stS rec cS _ hdr hret
    rw [hmod, hm] at m1
    rw [ht] at m3 hT hrec
    have htl := hget _ _ _ _ _ hT
    have hsub : ∀ x, x ∈ newCalls stS (tls13_cipher_feed E stS rec true cS
        (E.CIPHER_get_mode ci) hdr).2.1 →
        x ∈ newCalls st (tls13_cipher_feed E stS rec true cS (E.CIPHER_get_mode ci) hdr).2.1 := by
      intro x hx
      rw [newCalls_trans hpre (feed_calls_grow _ _ _ _ _ _ _)]
      exact List.mem_append_right _ hx
    obtain ⟨r1, r2⟩ := readBytes_sealed stS.mem rec.data rec.length ct1 ct2 tag hlen
    rw [htl] at r2
    refine ⟨ct1, ct2, tag, by rw [hrec], hsub _ m1, hsub _ m2, hsub _ m3, ?_, ?_⟩
    · rw [hmem]; exact r1
    · rw [hmem]; exact r2
  · intro c hc hty hret
    rw [cipher_one] at hret ⊢
    simp only [] at hret ⊢
    obtain ⟨ci, cI, cS, xI, xS, hdr, stS, _, hlen, _, _, _, _, _, _, _, _, _, _, he⟩ :=
      rec_success E st rec false c hc hty hret
    simp only [Bool.false_eq_true, if_false] at he
    rw [he, (feed_fatals_open E stS _ cS _ hdr).2]
    exact ⟨hlen rfl, rfl⟩

/-- C10, witness: the theorem at the scenario of the toy cipher. -/
theorem C10_length_and_tag_witness :
    (∃ ct1 ct2 tag,
        (tls13_cipher toyEVP hiState [hiRec] 1 true).2.2 =
          [{ hiRec with length := 2 + 16 }] ∧
        (EvpCall.CipherUpdate (some hiRec.data)
          (some (readBytes hiState.mem hiRec.input hiRec.length))
          hiRec.length, some ct1) ∈ newCalls hiState (tls13_cipher toyEVP hiState [hiRec] 1 true).2.1 ∧
        (EvpCall.CipherFinal_ex (hiRec.data + ct1.length), some ct2) ∈
          newCalls hiState (tls13_cipher toyEVP hiState [hiRec] 1 true).2.1 ∧
        (EvpCall.ctrl_AEAD_GET_TAG hiState.taglen (hiRec.data + hiRec.length), some tag) ∈
          newCalls hiState (tls13_cipher toyEVP hiState [hiRec] 1 true).2.1 ∧
        readBytes (tls13_cipher toyEVP hiState [hiRec] 1 true).2.1.mem hiRec.data hiRec.length =
          ct1 ++ ct2 ∧
        readBytes (tls13_cipher toyEVP hiState [hiRec] 1 true).2.1.mem
          (hiRec.data + hiRec.length) hiState.taglen = tag) ∧
    ((openState sealedMem).taglen + 1 ≤ wireRec.length ∧
      (tls13_cipher toyEVP (openState sealedMem) [wireRec] 1 false).2.2 =
        [{ wireRec with length := 18 - 16 }]) :=
  ⟨(C10_length_and_tag toyEVP hiState hiRec
      (by intro c n p c1 t h
          simp only [toyEVP, toyStep, Prod.mk.injEq, Option.some.injEq] at h
          rw [← h.2]; simp [toyTag])).1 (toyCtx 6) rfl (by decide) (by decide),
   (C10_length_and_tag toyEVP (openState sealedMem) wireRec
      (by intro c n p c1 t h
          simp only [toyEVP, toyStep, Prod.mk.injEq, Option.some.injEq] at h
          rw [← h.2]; simp [toyTag])).2 (toyCtx 6) rfl (by decide) (by decide)⟩

theorem getD_map_range (f : Nat → Nat) (n i : Nat) (hi : i < n) :
    ((List.range n).map f).getD i 0 = f i := by
  simp [List.getD_eq_getElem?_getD, hi]

theorem deriveNonce_eq_nonceForCounter (iv : List Nat) (n k : Nat) (h8 : 8 ≤ n)
    (hcap : n ≤ iv.length) :
    deriveNonce iv (putValue 8 k) n = nonceForCounter iv n k := by
  simp only [deriveNonce, nonceForCounter, SEQ_NUM_SIZE]
  congr 1
  apply List.ext_getElem
  · simp [putValue_length]; omega
  · intro i h1 h2
    have hi : i < 8 := by simpa using h1
    have hp : i < (putValue 8 k).length := by rw [putValue_length]; exact hi
    have hl : n - 8 + i < iv.length := by omega
    simp [List.getD_eq_getElem?_getD, hp, hl]

theorem deriveNonce_inj (iv s1 s2 : List Nat) (n : Nat) (hcap : n ≤ iv.length)
    (l1 : s1.length = 8) (l2 : s2.length = 8)
    (h : deriveNonce iv s1 n = deriveNonce iv s2 n) : s1 = s2 := by
  apply List.ext_getElem (by rw [l1, l2])
  intro i h1 h2
  have hi : i < 8 := by rw [l1] at h1; exact h1
  have e1 := deriveNonce_getD iv s1 n i hcap hi
  have e2 := deriveNonce_getD iv s2 n i hcap hi
  rw [h, e2] at e1
  have := Nat.xor_right_injective e1
  simpa [List.getD_eq_getElem?_getD, h1, h2] using this.symm

theorem putValue_inj (a b : Nat) (ha : a < 2 ^ 64) (hb : b < 2 ^ 64)
    (h : putValue 8 a = putValue 8 b) : a = b := by
  have := congrArg beVal h
  rw [beVal_putValue, beVal_putValue] at this
  rw [Nat.mod_eq_of_lt (by omega), Nat.mod_eq_of_lt (by omega)] at this
  exact this

theorem filterMap_none {α β : Type} (f : α → Option β) (l : List α)
    (h : ∀ x ∈ l, f x = none) : l.filterMap f = [] := by
  induction l with
  | nil => rfl
  | cons a t ih =>
    rw [List.filterMap_cons, h a (List.mem_cons_self _ _)]
    exact ih (fun x hx => h x (List.mem_cons_of_mem _ hx))

theorem dirIV_of_fields (a b : State Ctx) (hw : a.write_iv = b.write_iv)
    (hr : a.iv = b.iv) (t : Bool) : dirIV a t = dirIV b t := by
  cases t <;> simp [dirIV, hw, hr]

/-- What one successful call on a non-alert record does to the counter, the
static IV, the context and the log of nonces. -/
theorem rec_success_step (E : EVP Ctx Cipher) (st : State Ctx) (rec : SSL3_RECORD) (s : Bool)
    (c : Ctx) (hc : dirCtx st s = some c) (hty : rec.type ≠ SSL3_RT_ALERT)
    (hret : (tls13_cipher_rec E st rec s).1 = 1) :
    (incrementLoop SEQ_NUM_SIZE (dirSeq st s)).1 ≠ 0 ∧
    dirSeq (tls13_cipher_rec E st rec s).2.1 s = (incrementLoop SEQ_NUM_SIZE (dirSeq st s)).2 ∧
    dirIV (tls13_cipher_rec E st rec s).2.1 s = dirIV st s ∧
    (newCalls st (tls13_cipher_rec E st rec s).2.1).filterMap nonceOf =
      [deriveNonce (dirIV st s) (dirSeq st s) (E.CIPHER_CTX_get_iv_length c)] ∧
    8 ≤ E.CIPHER_CTX_get_iv_length c ∧
    ∀ P : Ctx → Prop, (∀ c call, P c → P (E.step c call).1) → P c →
      ∃ c1, dirCtx (tls13_cipher_rec E st rec s).2.1 s = some c1 ∧ P c1 := by
  rcases rec_cases E st rec s with ⟨h1 | h1, _⟩ | ⟨h1, _⟩ | ⟨c1, ci, hc1, _, _, _, h8, hinc, he⟩
  · rw [hc] at h1; simp at h1
  · exact absurd h1 hty
  · rw [h1] at hret; simp at hret
  · have hcc : c1 = c := by
      rw [hc] at hc1
      exact (Option.some.inj hc1).symm
    subst hcc
    obtain ⟨hw, hr, hwi, hri, _⟩ := crypt_frame E
      (setSeq st s (incrementLoop SEQ_NUM_SIZE (dirSeq st s)).2)
      (if s then rec else { rec with length := rec.length - st.taglen }) s c1
      (E.CIPHER_get_mode ci)
      (deriveNonce (dirIV st s) (dirSeq st s) (E.CIPHER_CTX_get_iv_length c1))
    obtain ⟨l, hl, hno⟩ := crypt_newCalls E
      (setSeq st s (incrementLoop SEQ_NUM_SIZE (dirSeq st s)).2)
      (if s then rec else { rec with length := rec.length - st.taglen }) s c1
      (E.CIPHER_get_mode ci)
      (deriveNonce (dirIV st s) (dirSeq st s) (E.CIPHER_CTX_get_iv_length c1))
    rw [he]
    refine ⟨hinc, ?_, ?_, ?_, h8, ?_⟩
    · rw [dirSeq_of_fields _ _ hw hr, setSeq_dirSeq]
    · rw [dirIV_of_fields _ _ hwi hri, setSeq_dirIV]
    · rw [← newCalls_setSeq st _ s (incrementLoop SEQ_NUM_SIZE (dirSeq st s)).2, hl,
        List.filterMap_cons, filterMap_none _ _ hno]
      rfl
    · intro P hP hPc
      exact crypt_dirCtx E _ _ s c1 _ _ P hP hPc

theorem putValue_ones : putValue 8 (2 ^ 64 - 1) = seqOnes := by decide

theorem transformAll_nonces (E : EVP Ctx Cipher) (s : Bool) (n : Nat)
    (hiv : ∀ c call, E.CIPHER_CTX_get_iv_length (E.step c call).1 =
      E.CIPHER_CTX_get_iv_length c) :
    ∀ (inputs : List (SSL3_RECORD × Mem)) (st : State Ctx) (k : Nat) (c : Ctx),
      dirCtx st s = some c → E.CIPHER_CTX_get_iv_length c = n →
      dirSeq st s = putValue 8 k → k < 2 ^ 64 →
      (∀ x ∈ inputs, x.1.type ≠ SSL3_RT_ALERT) →
      (transformAll E s st inputs).1 = true →
      st.calls <+: (transformAll E s st inputs).2.calls ∧
      (newCalls st (transformAll E s st inputs).2).filterMap nonceOf =
        (List.range inputs.length).map
          (fun j => deriveNonce (dirIV st s) (putValue 8 (k + j)) n) ∧
      k + inputs.length < 2 ^ 64 ∧
      dirSeq (transformAll E s st inputs).2 s = putValue 8 (k + inputs.length) := by
  intro inputs
  induction inputs with
  | nil =>
    intro st k c _ _ hseq hk _ _
    refine ⟨by simp [transformAll], by simp [transformAll, newCalls], by simpa using hk, ?_⟩
    simp [transformAll, hseq]
  | cons x rest ih =>
    intro st k c hc hn hseq hk hty hok
    obtain ⟨rec, m⟩ := x
    have hty1 : rec.type ≠ SSL3_RT_ALERT := hty (rec, m) (List.mem_cons_self _ _)
    have hty2 : ∀ x ∈ rest, x.1.type ≠ SSL3_RT_ALERT :=
      fun x hx => hty x (List.mem_cons_of_mem _ hx)
    by_cases hret : (tls13_cipher E { st with mem := m } [rec] 1 s).1 = 1
    swap
    · simp [transformAll, hret] at hok
    simp only [transformAll, hret, if_true] at hok ⊢
    have hc0 : dirCtx { st with mem := m } s = some c := hc
    have hret1 := hret
    rw [cipher_one] at hret1
    simp only [] at hret1
    obtain ⟨hinc, hseq1, hiv1, hnon, _, hctx⟩ :=
      rec_success_step E { st with mem := m } rec s c hc0 hty1 hret1
    have hseq0 : dirSeq { st with mem := m } s = putValue 8 k := hseq
    have hdiv0 : dirIV { st with mem := m } s = dirIV st s := rfl
    rw [hseq0] at hinc hseq1 hnon
    rw [hdiv0] at hiv1 hnon
    have hk1 : k < 2 ^ 64 - 1 := by
      by_contra hcon
      have hk2 : k = 2 ^ 64 - 1 := by omega
      rw [hk2, putValue_ones, incrementLoop_ones] at hinc
      exact hinc rfl
    rw [(incrementLoop_putValue k hk1).2] at hseq1
    obtain ⟨c1, hc1, hn1⟩ := hctx (fun c => E.CIPHER_CTX_get_iv_length c = n)
      (fun c call h => by show E.CIPHER_CTX_get_iv_length (E.step c call).1 = n; rw [hiv]; exact h) hn
    have e1 : (tls13_cipher E { st with mem := m } [rec] 1 s).2.1 =
        (tls13_cipher_rec E { st with mem := m } rec s).2.1 := by
      rw [cipher_one]
    rw [e1] at hok ⊢
    obtain ⟨hpre, hnonces, hbound, hfinal⟩ :=
      ih (tls13_cipher_rec E { st with mem := m } rec s).2.1 (k + 1) c1 hc1 hn1 hseq1
        (by omega) hty2 hok
    have hpre0 : st.calls <+: (tls13_cipher_rec E { st with mem := m } rec s).2.1.calls :=
      rec_calls_grow E { st with mem := m } rec s
    refine ⟨hpre0.trans hpre, ?_, ?_, ?_⟩
    · rw [newCalls_trans hpre0 hpre, List.filterMap_append, hnonces, hiv1]
      have hn0 : newCalls st (tls13_cipher_rec E { st with mem := m } rec s).2.1 =
          newCalls { st with mem := m } (tls13_cipher_rec E { st with mem := m } rec s).2.1 :=
        rfl
      rw [hn0, hnon, hn]
      simp only [List.length_cons, List.range_succ_eq_map, List.map_cons, List.map_map,
        List.singleton_append, Nat.add_zero]
      congr 1
      apply List.map_congr_left
      intro j _
      simp only [Function.comp, Nat.succ_eq_add_one]
      congr 2
      omega
    · simp only [List.length_cons]; omega
    · rw [hfinal]
      simp only [List.length_cons]
      congr 1
      omega

theorem toy_ivlen (c : ToyCtx) (call : EvpCall) :
    toyEVP.CIPHER_CTX_get_iv_length (toyEVP.step c call).1 =
      toyEVP.CIPHER_CTX_get_iv_length c := by
  simp only [toyEVP]
  cases call with
  | CipherInit_ex iv enc => simp only [toyStep]; split <;> rfl
  | ctrl_AEAD_SET_TAG a t => rfl
  | ctrl_AEAD_GET_TAG a p => rfl
  | CipherUpdate o i l =>
    cases o <;> cases i <;> simp only [toyStep] <;> (try split) <;> rfl
  | CipherFinal_ex o => simp only [toyStep]; split <;> (try split) <;> rfl

/-- C3 (nonce uniqueness): for a fixed key and static IV of length at least 8,
the nonces bound by `N` consecutive successful transforms of non-alert records
in one direction, starting from counter zero, are, in order, the static IV with
its trailing 8 bytes xor-ed with the 8-byte big-endian encoding of
`k = 0 .. N-1`, and they are pairwise distinct. The IV length of the cipher
context is taken not to change between calls. -/
theorem C3_nonce_uniqueness (E : EVP Ctx Cipher) (st : State Ctx)
    (inputs : List (SSL3_RECORD × Mem)) (sending : Bool) (c : Ctx)
    (hc : dirCtx st sending = some c)
    (h8 : 8 ≤ E.CIPHER_CTX_get_iv_length c)
    (hcap : E.CIPHER_CTX_get_iv_length c ≤ (dirIV st sending).length)
    (hiv : ∀ c call, E.CIPHER_CTX_get_iv_length (E.step c call).1 =
      E.CIPHER_CTX_get_iv_length c)
    (hseq : dirSeq st sending = seqZero)
    (hty : ∀ x ∈ inputs, x.1.type ≠ SSL3_RT_ALERT)
    (hok : (transformAll E sending st inputs).1 = true) :
    (newCalls st (transformAll E sending st inputs).2).filterMap nonceOf =
      (List.range inputs.length).map
        (nonceForCounter (dirIV st sending) (E.CIPHER_CTX_get_iv_length c)) ∧
    ((newCalls st (transformAll E sending st inputs).2).filterMap nonceOf).Nodup := by
  have hz : seqZero = putValue 8 0 := by decide
  rw [hz] at hseq
  obtain ⟨_, hnon, hbound, _⟩ := transformAll_nonces E sending _ hiv inputs st 0 c hc rfl hseq
    (by omega) hty hok
  simp only [Nat.zero_add] at hnon hbound
  rw [hnon]
  constructor
  · apply List.map_congr_left
    intro j _
    exact deriveNonce_eq_nonceForCounter _ _ _ h8 hcap
  · apply List.Nodup.map_on _ (List.nodup_range _)
    intro a ha b hb hab
    have ha1 : a < 2 ^ 64 := by have := List.mem_range.1 ha; omega
    have hb1 : b < 2 ^ 64 := by have := List.mem_range.1 hb; omega
    exact putValue_inj a b ha1 hb1
      (deriveNonce_inj _ _ _ _ hcap (putValue_length 8 a) (putValue_length 8 b) hab)

/-- C3, witness: three records sealed in a row with the toy cipher. -/
theorem C3_nonce_uniqueness_witness :
    dirCtx hiState true = some (toyCtx 6) ∧
    8 ≤ toyEVP.CIPHER_CTX_get_iv_length (toyCtx 6) ∧
    toyEVP.CIPHER_CTX_get_iv_length (toyCtx 6) ≤ (dirIV hiState true).length ∧
    dirSeq hiState true = seqZero ∧
    (∀ x ∈ threeRecords, x.1.type ≠ SSL3_RT_ALERT) ∧
    (transformAll toyEVP true hiState threeRecords).1 = true ∧
    (newCalls hiState (transformAll toyEVP true hiState threeRecords).2).filterMap nonceOf =
      (List.range threeRecords.length).map
        (nonceForCounter (dirIV hiState true) (toyEVP.CIPHER_CTX_get_iv_length (toyCtx 6))) ∧
    ((newCalls hiState (transformAll toyEVP true hiState threeRecords).2).filterMap
      nonceOf).Nodup :=
  ⟨rfl, by decide, by decide, rfl, by decide, by decide,
    C3_nonce_uniqueness toyEVP hiState threeRecords true (toyCtx 6) rfl (by decide) (by decide)
      toy_ivlen rfl (by decide) (by decide)⟩

theorem map_xor_xor (l : List Nat) (k : Nat) :
    (l.map (fun b => b ^^^ k)).map (fun b => b ^^^ k) = l := by
  rw [List.map_map]
  conv_rhs => rw [← List.map_id l]
  apply List.map_congr_left
  intro a _
  simp [Function.comp, Nat.xor_assoc]

theorem map_xor_comp (l : List Nat) (k : Nat) :
    List.map ((fun b => b ^^^ k) ∘ fun b => b ^^^ k) l = l := by
  rw [← List.map_map]
  exact map_xor_xor l k

/-- The toy cipher decrypts what it encrypted, in either mode. -/
theorem toy_aeadInverse (mode taglen : Nat) :
    AeadInverse toyEVP (toyCtx mode) (toyCtx mode) mode mode taglen := by
  intro iv aad pt al ow ofw otw orr w1 w2 w3 w4 w5 w6 x1 x2 x3 ct1 ct2 tag h1 h2 h3 h4 h5 hlen h6
  simp only [toyEVP] at h1 h2 h3 h4 h5 h6 ⊢
  simp only [toyStep, toyCtx] at h1
  by_cases hiv : iv.length = 12
  swap
  · simp [hiv] at h1
  simp only [hiv, if_true, Prod.mk.injEq, Option.some.injEq] at h1
  obtain ⟨hw1, -⟩ := h1
  subst hw1
  have key : ∀ (d : Option Nat), (mode = EVP_CIPH_CCM_MODE → d = some pt.length) →
      w2 = (⟨mode, 12, iv, true, d, [], [], []⟩ : ToyCtx) →
      tag.length = taglen ∧
      ∃ (r3 r4 r5 r6 : ToyCtx) (y3 y4 pt1 pt2 : List Nat),
        (if mode = EVP_CIPH_CCM_MODE then
          toyStep (⟨mode, 12, iv, false, none, [], tag, []⟩ : ToyCtx) (EvpCall.CipherUpdate none none pt.length)
          else ((⟨mode, 12, iv, false, none, [], tag, []⟩ : ToyCtx), some [])) = (r3, some y3) ∧
        toyStep r3 (EvpCall.CipherUpdate none (some aad) al) = (r4, some y4) ∧
        toyStep r4 (EvpCall.CipherUpdate (some orr) (some (ct1 ++ ct2)) pt.length) =
          (r5, some pt1) ∧
        toyStep r5 (EvpCall.CipherFinal_ex (orr + pt1.length)) = (r6, some pt2) ∧
        pt1 ++ pt2 = pt := by
    intro d hd hw2
    subst hw2
    have hA : ¬ (mode = EVP_CIPH_CCM_MODE ∧ d = none) := by
      rintro ⟨a, b⟩
      rw [hd a] at b
      simp at b
    simp only [toyStep, hA, if_false, Prod.mk.injEq, Option.some.injEq] at h3
    obtain ⟨hw3, -⟩ := h3
    subst hw3
    have hP : ¬ (mode = EVP_CIPH_CCM_MODE ∧ d ≠ some pt.length) := by
      rintro ⟨a, b⟩
      exact b (hd a)
    simp only [toyStep, hP, if_false, if_true, Prod.mk.injEq, Option.some.injEq] at h4
    obtain ⟨hw4, hct1⟩ := h4
    subst hw4
    simp only [toyStep, if_true, Prod.mk.injEq, Option.some.injEq] at h5
    obtain ⟨hw5, hct2⟩ := h5
    subst hw5
    simp only [toyStep, Prod.mk.injEq, Option.some.injEq] at h6
    obtain ⟨-, htag⟩ := h6
    subst hct1 hct2
    have htl : tag.length = taglen := by rw [← htag]; simp [toyTag]
    refine ⟨htl, ?_⟩
    by_cases hm : mode = EVP_CIPH_CCM_MODE
    · refine ⟨(⟨mode, 12, iv, false, some pt.length, [], tag, []⟩ : ToyCtx),
        (⟨mode, 12, iv, false, some pt.length, aad, tag, []⟩ : ToyCtx),
        (⟨mode, 12, iv, false, some pt.length, aad, tag, pt⟩ : ToyCtx),
        (⟨mode, 12, iv, false, some pt.length, aad, tag, pt⟩ : ToyCtx),
        [], [], pt, [], ?_, ?_, ?_, ?_, by simp⟩
      · simp [hm, toyStep]
      · simp [hm, toyStep]
      · simp [hm, toyStep, map_xor_xor, map_xor_comp]
      · simp [toyStep, htl, ← htag, toyTag]
    · refine ⟨(⟨mode, 12, iv, false, none, [], tag, []⟩ : ToyCtx),
        (⟨mode, 12, iv, false, none, aad, tag, []⟩ : ToyCtx),
        (⟨mode, 12, iv, false, none, aad, tag, pt⟩ : ToyCtx),
        (⟨mode, 12, iv, false, none, aad, tag, pt⟩ : ToyCtx),
        [], [], pt, [], ?_, ?_, ?_, ?_, by simp⟩
      · simp [hm]
      · simp [hm, toyStep]
      · simp [hm, toyStep, map_xor_xor, map_xor_comp]
      · simp [toyStep, htl, ← htag, toyTag]
  have hdec : ∀ (d : Option Nat), (mode = EVP_CIPH_CCM_MODE → d = some pt.length) →
      w2 = (⟨mode, 12, iv, true, d, [], [], []⟩ : ToyCtx) →
      tag.length = taglen ∧
      ∃ (r1 r2 r3 r4 r5 r6 : ToyCtx) (y1 y2 y3 y4 pt1 pt2 : List Nat),
        toyStep (toyCtx mode) (EvpCall.CipherInit_ex iv false) = (r1, some y1) ∧
        toyStep r1 (EvpCall.ctrl_AEAD_SET_TAG taglen tag) = (r2, some y2) ∧
        (if mode = EVP_CIPH_CCM_MODE then toyStep r2 (EvpCall.CipherUpdate none none pt.length)
          else (r2, some [])) = (r3, some y3) ∧
        toyStep r3 (EvpCall.CipherUpdate none (some aad) al) = (r4, some y4) ∧
        toyStep r4 (EvpCall.CipherUpdate (some orr) (some (ct1 ++ ct2)) pt.length) =
          (r5, some pt1) ∧
        toyStep r5 (EvpCall.CipherFinal_ex (orr + pt1.length)) = (r6, some pt2) ∧
        pt1 ++ pt2 = pt := by
    intro d hd hw2
    obtain ⟨htl, r3, r4, r5, r6, y3, y4, pt1, pt2, e3, e4, e5, e6, e7⟩ := key d hd hw2
    exact ⟨htl, (⟨mode, 12, iv, false, none, [], [], []⟩ : ToyCtx),
      (⟨mode, 12, iv, false, none, [], tag, []⟩ : ToyCtx), r3, r4, r5, r6, [], [], y3, y4, pt1, pt2,
      by simp [toyStep, toyCtx, hiv], by simp [toyStep], e3, e4, e5, e6, e7⟩
  by_cases hm : mode = EVP_CIPH_CCM_MODE
  · simp only [hm, if_true, toyStep, Prod.mk.injEq, Option.some.injEq] at h2
    exact hdec (some pt.length) (fun _ => rfl) (by rw [← h2.1, hm])
  · simp only [hm, if_false, Prod.mk.injEq, Option.some.injEq] at h2
    exact hdec none (fun h => absurd h hm) (by rw [← h2.1])

/-- An open whose primitive calls all succeed, followed step by step. -/
theorem crypt_open_fwd (E : EVP Ctx Cipher) (st : State Ctx) (rec : SSL3_RECORD)
    (c : Ctx) (mode : Nat) (iv hdr : List Nat)
    (cI cS cL cA cP cF : Ctx) (xI xS xL xA pt1 pt2 : List Nat)
    (hI : E.step c (EvpCall.CipherInit_ex iv false) = (cI, some xI))
    (hS : E.step cI (EvpCall.ctrl_AEAD_SET_TAG st.taglen
      (readBytes st.mem (rec.data + rec.length) st.taglen)) = (cS, some xS))
    (hH : buildHeader rec st.taglen = some hdr)
    (hL : (if mode = EVP_CIPH_CCM_MODE then
          E.step cS (EvpCall.CipherUpdate none none (rec.length % 2 ^ 32))
        else (cS, some [])) = (cL, some xL))
    (hA : E.step cL (EvpCall.CipherUpdate none (some hdr) SSL3_RT_HEADER_LENGTH) = (cA, some xA))
    (hP : E.step cA (EvpCall.CipherUpdate (some rec.data)
        (some (readBytes st.mem rec.input (rec.length % 2 ^ 32))) (rec.length % 2 ^ 32)) =
        (cP, some pt1))
    (hF : E.step cP (EvpCall.CipherFinal_ex (rec.data + pt1.length)) = (cF, some pt2))
    (hlen : pt1.length + pt2.length = rec.length) :
    (tls13_cipher_crypt E st rec false c mode iv).1 = 1 ∧
    (tls13_cipher_crypt E st rec false c mode iv).2.2 = rec ∧
    (tls13_cipher_crypt E st rec false c mode iv).2.1.mem =
      writeBytes (writeBytes st.mem rec.data pt1) (rec.data + pt1.length) pt2 := by
  have e : tls13_cipher_crypt E st rec false c mode iv =
      tls13_cipher_feed E
        (logCall (logCall st false (EvpCall.CipherInit_ex iv false) (cI, some xI)) false
          (EvpCall.ctrl_AEAD_SET_TAG st.taglen
            (readBytes st.mem (rec.data + rec.length) st.taglen)) (cS, some xS))
        rec false cS mode hdr := by
    simp only [tls13_cipher_crypt, hI, logCall_mem, Bool.false_eq_true, if_false, hS, hH]
  rw [e]
  have := feed_open_fwd E
    (logCall (logCall st false (EvpCall.CipherInit_ex iv false) (cI, some xI)) false
      (EvpCall.ctrl_AEAD_SET_TAG st.taglen
        (readBytes st.mem (rec.data + rec.length) st.taglen)) (cS, some xS))
    rec cS mode hdr cL cA cP cF xL xA pt1 pt2 hL hA (by simpa using hP) hF hlen
  simpa using this

theorem buildHeader_congr (r1 r2 : SSL3_RECORD) (t1 t2 : Nat) (hty : r1.type = r2.type)
    (hv : r1.rec_version = r2.rec_version) (hl : r1.length + t1 = r2.length + t2) :
    buildHeader r1 t1 = buildHeader r2 t2 := by
  simp only [buildHeader, hty, hv, hl]

/-- C1 (round trip, amended): for every non-empty plaintext that
`tls13_cipher` seals successfully at counter `C`, opening the sealed record
(received in place, same type and version) with the receive counter at `C`,
the same static IV, tag length and IV length, succeeds and returns exactly the
plaintext, in every AEAD mode, CCM included, provided the primitive decrypts
what it encrypted under an equal nonce, associated data and tag. -/
theorem C1_round_trip (E : EVP Ctx Cipher) (stw str : State Ctx) (recw recr : SSL3_RECORD)
    (wc rc : Ctx) (ciw cir : Cipher)
    (hwc : dirCtx stw true = some wc) (hrc : dirCtx str false = some rc)
    (hciw : E.CIPHER_CTX_get0_cipher (some wc) = some ciw)
    (hcir : E.CIPHER_CTX_get0_cipher (some rc) = some cir)
    (hinv : AeadInverse E wc rc (E.CIPHER_get_mode ciw) (E.CIPHER_get_mode cir) stw.taglen)
    (hivlen : E.CIPHER_CTX_get_iv_length rc = E.CIPHER_CTX_get_iv_length wc)
    (hiv : dirIV str false = dirIV stw true)
    (hseq : dirSeq str false = dirSeq stw true)
    (htag : str.taglen = stw.taglen)
    (hne : 1 ≤ recw.length)
    (hseal : (tls13_cipher E stw [recw] 1 true).1 = 1)
    (hty : recr.type = recw.type) (hver : recr.rec_version = recw.rec_version)
    (hin : recr.input = recr.data)
    (hlen : ∀ r ∈ (tls13_cipher E stw [recw] 1 true).2.2, recr.length = r.length)
    (hwire : readBytes str.mem recr.data recr.length =
      readBytes (tls13_cipher E stw [recw] 1 true).2.1.mem recw.data recr.length) :
    (tls13_cipher E str [recr] 1 false).1 = 1 ∧
    (∀ r ∈ (tls13_cipher E str [recr] 1 false).2.2,
      r.length = recw.length ∧ r.data = recr.data) ∧
    readBytes (tls13_cipher E str [recr] 1 false).2.1.mem recr.data recw.length =
      readBytes stw.mem recw.input recw.length := by
  rw [cipher_one] at hseal hlen hwire ⊢
  simp only [List.mem_singleton, forall_eq] at hseal hlen hwire ⊢
  by_cases halert : recw.type = SSL3_RT_ALERT
  · have es : tls13_cipher_rec E stw recw true = tls13_cipher_plain stw recw := by
      simp [tls13_cipher_rec, hwc, hciw, halert]
    have eo : tls13_cipher_rec E str recr false = tls13_cipher_plain str recr := by
      simp [tls13_cipher_rec, hrc, hcir, hty, halert]
    rw [es] at hlen hwire
    simp only [tls13_cipher_plain] at hlen hwire
    rw [eo]
    simp only [tls13_cipher_plain]
    refine ⟨by simp, by simp [hlen], ?_⟩
    rw [hin, hlen, readBytes_memmove, ← readBytes_memmove stw.mem recw.data recw.input]
    rw [hlen] at hwire
    exact hwire
  · obtain ⟨ci, cI, cS, xI, xS, hdr, stS, hci, _, h8, hinc, hI, hS, hH, hm, _, ht, _, _, he⟩ :=
      rec_success E stw recw true wc hwc halert hseal
    have hcc : ci = ciw := by
      rw [hciw] at hci
      exact (Option.some.inj hci).symm
    subst hcc
    simp only [if_true, Prod.mk.injEq, Option.some.injEq] at hS hH he
    obtain ⟨hcS, -⟩ := hS
    subst hcS
    rw [he] at hseal hlen hwire
    obtain ⟨_, _, _, hbound⟩ := buildHeader_some _ _ _ hH
    have hmod : recw.length % 2 ^ 32 = recw.length := Nat.mod_eq_of_lt (by omega)
    obtain ⟨cL, cA, cP, cF, cT, xL, xA, ct1, ct2, tag, hL, hA, hP, hF, hl12, hT, hmem, hrec,
      _, _, _⟩ := feed_seal_inv E stS recw cI _ hdr hseal
    rw [hmod, hm] at hP
    rw [hmod] at hL
    rw [ht] at hT hrec
    rw [hrec] at hlen
    simp only [] at hlen
    rw [hmem, hm, hlen] at hwire
    have hplen : (readBytes stw.mem recw.input recw.length).length = recw.length :=
      readBytes_length _ _ _
    obtain ⟨htl, r1, r2, r3, r4, r5, r6, y1, y2, y3, y4, pt1, pt2, g1, g2, g3, g4, g5, g6, g7⟩ :=
      hinv (deriveNonce (dirIV stw true) (dirSeq stw true) (E.CIPHER_CTX_get_iv_length wc))
        hdr (readBytes stw.mem recw.input recw.length) SSL3_RT_HEADER_LENGTH recw.data
        (recw.data + ct1.length) (recw.data + recw.length) recr.data
        cI cL cA cP cF cT xI xL xA ct1 ct2 tag hI (by rw [hplen]; exact hL) hA
        (by rw [hplen]; exact hP) hF (by rw [hplen]; exact hl12) hT
    rw [hplen] at g3 g5
    -- the bytes received
    obtain ⟨s1, s2⟩ := readBytes_sealed stw.mem recw.data recw.length ct1 ct2 tag hl12
    rw [htl] at s2
    rw [readBytes_append, readBytes_append, s1, s2] at hwire
    have hsplit := List.append_inj hwire (by simp [readBytes_length, hl12])
    obtain ⟨w1, w2⟩ := hsplit
    -- the open call
    have hlo : false = false → str.taglen + 1 ≤ recr.length := by
      intro _; rw [hlen, htag]; omega
    have h8r : 8 ≤ E.CIPHER_CTX_get_iv_length rc := by rw [hivlen]; exact h8
    have hk : recr.length - str.taglen = recw.length := by rw [hlen, htag]; omega
    rw [rec_eq E str recr false rc cir hrc hcir (by rw [hty]; exact halert) hlo h8r]
    rw [hseq, hiv, hivlen]
    simp only [hinc, if_false, Bool.false_eq_true, hk]
    have hH2 : buildHeader { recr with length := recw.length } str.taglen = some hdr := by
      rw [← hH]
      exact buildHeader_congr _ _ _ _ hty hver (by simp [htag])
    have hmodr : recw.length % 2 ^ 32 = recw.length := hmod
    obtain ⟨q1, q2, q3⟩ := crypt_open_fwd E
      (setSeq str false (incrementLoop SEQ_NUM_SIZE (dirSeq stw true)).2)
      { recr with length := recw.length } rc (E.CIPHER_get_mode cir)
      (deriveNonce (dirIV stw true) (dirSeq stw true) (E.CIPHER_CTX_get_iv_length wc)) hdr
      r1 r2 r3 r4 r5 r6 y1 y2 y3 y4 pt1 pt2 g1
      (by simp only [setSeq_taglen, setSeq_mem, htag]; rw [w2]; exact g2)
      (by simpa using hH2)
      (by simp only [hmodr]; exact g3)
      g4
      (by simp only [hmodr, setSeq_mem, hin]; rw [w1]; exact g5)
      g6
      (by rw [← hplen, ← g7]; simp)
    rw [q1, q2, q3]
    refine ⟨rfl, ⟨rfl, rfl⟩, ?_⟩
    simp only [setSeq_mem]
    rw [readBytes_opened _ _ _ _ _ (by rw [← hplen, ← g7]; simp), g7]

/-- C1, as stated, fails at the empty plaintext: with a primitive that decrypts
what it encrypted, sealing zero bytes succeeds and gives a record of `taglen`
bytes, which the open path rejects as shorter than `taglen + 1`. -/
theorem C1_counterexample :
    AeadInverse toyEVP (toyCtx 6) (toyCtx 6) 6 6 16 ∧
    (tls13_cipher toyEVP hiState [emptyRec] 1 true).1 = 1 ∧
    (tls13_cipher toyEVP hiState [emptyRec] 1 true).2.2 = [tagOnlyRec] ∧
    (tls13_cipher toyEVP
      (openState (tls13_cipher toyEVP hiState [emptyRec] 1 true).2.1.mem)
      [tagOnlyRec] 1 false).1 = 0 :=
  ⟨toy_aeadInverse 6 16, by decide, by decide, by decide⟩

/-- C1, witness: the scenario `"hi"` sealed and opened in CCM mode, where the
length is declared before the associated data. -/
theorem C1_round_trip_witness :
    AeadInverse toyEVP (toyCtx EVP_CIPH_CCM_MODE) (toyCtx EVP_CIPH_CCM_MODE)
      EVP_CIPH_CCM_MODE EVP_CIPH_CCM_MODE 16 ∧
    1 ≤ hiRec.length ∧
    (tls13_cipher toyEVP (ccmState (memOf 100 [104, 105])) [hiRec] 1 true).1 = 1 ∧
    (EvpCall.CipherUpdate none none 2, some []) ∈
      (tls13_cipher toyEVP (ccmState (memOf 100 [104, 105])) [hiRec] 1 true).2.1.calls ∧
    (tls13_cipher toyEVP
      (ccmState (tls13_cipher toyEVP (ccmState (memOf 100 [104, 105])) [hiRec] 1 true).2.1.mem)
      [wireRec] 1 false).1 = 1 ∧
    (∀ r ∈ (tls13_cipher toyEVP
      (ccmState (tls13_cipher toyEVP (ccmState (memOf 100 [104, 105])) [hiRec] 1 true).2.1.mem)
      [wireRec] 1 false).2.2, r.length = hiRec.length ∧ r.data = wireRec.data) ∧
    readBytes (tls13_cipher toyEVP
      (ccmState (tls13_cipher toyEVP (ccmState (memOf 100 [104, 105])) [hiRec] 1 true).2.1.mem)
      [wireRec] 1 false).2.1.mem wireRec.data hiRec.length =
      readBytes (ccmState (memOf 100 [104, 105])).mem hiRec.input hiRec.length :=
  ⟨toy_aeadInverse EVP_CIPH_CCM_MODE 16, by decide, by decide, by decide,
    C1_round_trip toyEVP (ccmState (memOf 100 [104, 105]))
      (ccmState (tls13_cipher toyEVP (ccmState (memOf 100 [104, 105])) [hiRec] 1 true).2.1.mem)
      hiRec wireRec (toyCtx EVP_CIPH_CCM_MODE) (toyCtx EVP_CIPH_CCM_MODE)
      EVP_CIPH_CCM_MODE EVP_CIPH_CCM_MODE rfl rfl rfl rfl
      (toy_aeadInverse EVP_CIPH_CCM_MODE 16) rfl rfl rfl rfl (by decide) (by decide) rfl rfl rfl
      (by decide) (by decide)⟩

/-- C11 (no-key bypass), what the code does: with no cipher context bound for
the direction, `tls13_cipher` called with one record looks the cipher up on the
`NULL` context first (lines 92-96). When that lookup returns `NULL`, as the
library does for a `NULL` context, the call fails as a fatal internal error
and copies nothing: the bypass of line 105 is never reached. Only if the
lookup returned a cipher would the call be the byte-identity copy of the
claim, with length and counters unchanged. -/
theorem C11_no_key_lookup_first (E : EVP Ctx Cipher) (st : State Ctx) (rec : SSL3_RECORD)
    (sending : Bool) (hc : dirCtx st sending = none) :
    (E.CIPHER_CTX_get0_cipher none = none →
      tls13_cipher E st [rec] 1 sending =
        (0, RLAYERfatal st SSL_AD_INTERNAL_ERROR ErrReason.ERR_R_INTERNAL_ERROR, [rec])) ∧
    (∀ cipher, E.CIPHER_CTX_get0_cipher none = some cipher →
      (tls13_cipher E st [rec] 1 sending).1 = 1 ∧
      (tls13_cipher E st [rec] 1 sending).2.2 = [{ rec with input := rec.data }] ∧
      readBytes (tls13_cipher E st [rec] 1 sending).2.1.mem rec.data rec.length =
        readBytes st.mem rec.input rec.length ∧
      (∀ t, dirSeq (tls13_cipher E st [rec] 1 sending).2.1 t = dirSeq st t) ∧
      newCalls st (tls13_cipher E st [rec] 1 sending).2.1 = [] ∧
      newFatals st (tls13_cipher E st [rec] 1 sending).2.1 = []) := by
  rw [cipher_one]
  constructor
  · intro hnull
    simp [tls13_cipher_rec, hc, hnull]
  · intro cipher hciph
    have e : tls13_cipher_rec E st rec sending = tls13_cipher_plain st rec := by
      simp [tls13_cipher_rec, hc, hciph]
    rw [e]
    refine ⟨rfl, rfl, readBytes_memmove _ _ _ _, ?_, by simp [newCalls, tls13_cipher_plain], by simp [newFatals, tls13_cipher_plain]⟩
    intro t; cases t <;> rfl

/-- C11, the failing input: the scenario state without keys. The call returns
0, raises the internal-error alert and leaves the output bytes as they were. -/
theorem C11_no_key_lookup_first_witness :
    dirCtx noKeyState true = none ∧
    toyEVP.CIPHER_CTX_get0_cipher none = none ∧
    tls13_cipher toyEVP noKeyState [hiRec] 1 true =
      (0, RLAYERfatal noKeyState SSL_AD_INTERNAL_ERROR ErrReason.ERR_R_INTERNAL_ERROR,
        [hiRec]) :=
  ⟨rfl, rfl, (C11_no_key_lookup_first toyEVP noKeyState hiRec true rfl).1 rfl⟩

/-- C12 (plaintext-alert bypass): for a record of type alert with a cipher
bound, `tls13_cipher` in either direction returns success, leaves the
record's `length` input bytes in the output buffer, sets `input` to `data`,
and does no nonce, associated-data or tag processing: the record length and
both sequence counters are unchanged, no cipher operation is issued and no
fatal error is raised. -/
theorem C12_alert_bypass (E : EVP Ctx Cipher) (st : State Ctx) (rec : SSL3_RECORD)
    (sending : Bool) (c : Ctx) (cipher : Cipher)
    (hc : dirCtx st sending = some c)
    (hciph : E.CIPHER_CTX_get0_cipher (some c) = some cipher)
    (hty : rec.type = SSL3_RT_ALERT) :
    (tls13_cipher E st [rec] 1 sending).1 = 1 ∧
    (tls13_cipher E st [rec] 1 sending).2.2 = [{ rec with input := rec.data }] ∧
    readBytes (tls13_cipher E st [rec] 1 sending).2.1.mem rec.data rec.length =
      readBytes st.mem rec.input rec.length ∧
    (∀ t, dirSeq (tls13_cipher E st [rec] 1 sending).2.1 t = dirSeq st t) ∧
    (∀ t, dirCtx (tls13_cipher E st [rec] 1 sending).2.1 t = dirCtx st t) ∧
    newCalls st (tls13_cipher E st [rec] 1 sending).2.1 = [] ∧
    newFatals st (tls13_cipher E st [rec] 1 sending).2.1 = [] := by
  rw [cipher_one]
  have e : tls13_cipher_rec E st rec sending = tls13_cipher_plain st rec := by
    simp [tls13_cipher_rec, hc, hciph, hty]
  rw [e]
  refine ⟨rfl, rfl, readBytes_memmove _ _ _ _, ?_, ?_, by simp [newCalls, tls13_cipher_plain], by simp [newFatals, tls13_cipher_plain]⟩
  · intro t; cases t <;> rfl
  · intro t; cases t <;> rfl

/-- C12, witness: the alert record of the scenario, sent with a key bound. -/
theorem C12_alert_bypass_witness :
    dirCtx hiState true = some (toyCtx 6) ∧
    toyEVP.CIPHER_CTX_get0_cipher (some (toyCtx 6)) = some 6 ∧
    alertRec.type = SSL3_RT_ALERT ∧
    (tls13_cipher toyEVP hiState [alertRec] 1 true).1 = 1 ∧
    (tls13_cipher toyEVP hiState [alertRec] 1 true).2.2 =
      [{ alertRec with input := alertRec.data }] ∧
    readBytes (tls13_cipher toyEVP hiState [alertRec] 1 true).2.1.mem alertRec.data
      alertRec.length = readBytes hiState.mem alertRec.input alertRec.length ∧
    (∀ t, dirSeq (tls13_cipher toyEVP hiState [alertRec] 1 true).2.1 t = dirSeq hiState t) ∧
    (∀ t, dirCtx (tls13_cipher toyEVP hiState [alertRec] 1 true).2.1 t = dirCtx hiState t) ∧
    newCalls hiState (tls13_cipher toyEVP hiState [alertRec] 1 true).2.1 = [] ∧
    newFatals hiState (tls13_cipher toyEVP hiState [alertRec] 1 true).2.1 = [] :=
  ⟨rfl, rfl, rfl, C12_alert_bypass toyEVP hiState alertRec true (toyCtx 6) 6 rfl rfl rfl⟩

/-- C13 (batch rejection): for every `n_recs` other than 1, `tls13_cipher`
returns 0 and raises the internal-error fatal alert; nothing else changes:
the records, both sequence counters, the cipher contexts and memory are as
before, and no cipher operation is issued. -/
theorem C13_batch_rejection (E : EVP Ctx Cipher) (st : State Ctx) (recs : List SSL3_RECORD)
    (n_recs : Nat) (sending : Bool) (hn : n_recs ≠ 1) :
    tls13_cipher E st recs n_recs sending =
      (0, RLAYERfatal st SSL_AD_INTERNAL_ERROR ErrReason.ERR_R_INTERNAL_ERROR, recs) ∧
    newFatals st (tls13_cipher E st recs n_recs sending).2.1 =
      [(SSL_AD_INTERNAL_ERROR, ErrReason.ERR_R_INTERNAL_ERROR)] ∧
    (∀ t, dirSeq (tls13_cipher E st recs n_recs sending).2.1 t = dirSeq st t) ∧
    (tls13_cipher E st recs n_recs sending).2.1.mem = st.mem ∧
    newCalls st (tls13_cipher E st recs n_recs sending).2.1 = [] := by
  have e : tls13_cipher E st recs n_recs sending =
      (0, RLAYERfatal st SSL_AD_INTERNAL_ERROR ErrReason.ERR_R_INTERNAL_ERROR, recs) := by
    simp [tls13_cipher, hn]
  rw [e]
  refine ⟨rfl, by simp [newFatals], ?_, rfl, by simp [newCalls]⟩
  intro t; cases t <;> rfl

/-- C13, witness: two records in one call, and no record at all. -/
theorem C13_batch_rejection_witness :
    (tls13_cipher toyEVP hiState [alertRec, hiRec] 2 true =
      (0, RLAYERfatal hiState SSL_AD_INTERNAL_ERROR ErrReason.ERR_R_INTERNAL_ERROR,
        [alertRec, hiRec])) ∧
    (tls13_cipher toyEVP hiState [] 0 false =
      (0, RLAYERfatal hiState SSL_AD_INTERNAL_ERROR ErrReason.ERR_R_INTERNAL_ERROR, [])) :=
  ⟨(C13_batch_rejection toyEVP hiState [alertRec, hiRec] 2 true (by decide)).1,
   (C13_batch_rejection toyEVP hiState [] 0 false (by decide)).1⟩

/-- C14 (IV shorter than the counter): for a non-alert record with a bound
cipher whose IV length is below 8, a seal, and an open of a record of length
at least `taglen + 1`, fails as a fatal internal error; no nonce is derived (no
cipher operation is issued) and both sequence counters are unchanged. -/
theorem C14_iv_too_short (E : EVP Ctx Cipher) (st : State Ctx) (rec : SSL3_RECORD)
    (sending : Bool) (c : Ctx) (cipher : Cipher)
    (hc : dirCtx st sending = some c)
    (hciph : E.CIPHER_CTX_get0_cipher (some c) = some cipher)
    (hty : rec.type ≠ SSL3_RT_ALERT)
    (hiv : E.CIPHER_CTX_get_iv_length c < 8)
    (hlen : sending = false → st.taglen + 1 ≤ rec.length) :
    (tls13_cipher E st [rec] 1 sending).1 = 0 ∧
    newFatals st (tls13_cipher E st [rec] 1 sending).2.1 =
      [(SSL_AD_INTERNAL_ERROR, ErrReason.ERR_R_INTERNAL_ERROR)] ∧
    newCalls st (tls13_cipher E st [rec] 1 sending).2.1 = [] ∧
    (∀ t, dirSeq (tls13_cipher E st [rec] 1 sending).2.1 t = dirSeq st t) ∧
    (tls13_cipher E st [rec] 1 sending).2.1.mem = st.mem := by
  rw [cipher_one]
  have hu : ¬ (sending = false ∧ rec.length < st.taglen + 1) := by
    rintro ⟨h, h2⟩
    have := hlen h
    omega
  have h8 : E.CIPHER_CTX_get_iv_length c < SEQ_NUM_SIZE := hiv
  have e : tls13_cipher_rec E st rec sending =
      (0, RLAYERfatal st SSL_AD_INTERNAL_ERROR ErrReason.ERR_R_INTERNAL_ERROR,
        if sending then rec else { rec with length := rec.length - st.taglen }) := by
    simp [tls13_cipher_rec, hc, hciph, hty, hu, h8]
  rw [e]
  refine ⟨rfl, by simp [newFatals], by simp [newCalls], ?_, rfl⟩
  intro t; cases t <;> rfl

/-- C14, witness: an open on a context whose IV has 4 bytes. -/
theorem C14_iv_too_short_witness :
    dirCtx shortIvState false = some { toyCtx 6 with ivlen := 4 } ∧
    wireRec.type ≠ SSL3_RT_ALERT ∧
    toyEVP.CIPHER_CTX_get_iv_length { toyCtx 6 with ivlen := 4 } < 8 ∧
    (false = false → shortIvState.taglen + 1 ≤ wireRec.length) ∧
    (tls13_cipher toyEVP shortIvState [wireRec] 1 false).1 = 0 ∧
    newFatals shortIvState (tls13_cipher toyEVP shortIvState [wireRec] 1 false).2.1 =
      [(SSL_AD_INTERNAL_ERROR, ErrReason.ERR_R_INTERNAL_ERROR)] ∧
    newCalls shortIvState (tls13_cipher toyEVP shortIvState [wireRec] 1 false).2.1 = [] ∧
    (∀ t, dirSeq (tls13_cipher toyEVP shortIvState [wireRec] 1 false).2.1 t =
      dirSeq shortIvState t) ∧
    (tls13_cipher toyEVP shortIvState [wireRec] 1 false).2.1.mem = shortIvState.mem :=
  ⟨rfl, by decide, by decide, by decide,
    C14_iv_too_short toyEVP shortIvState wireRec false { toyCtx 6 with ivlen := 4 } 6 rfl rfl
      (by decide) (by decide) (by decide)⟩

/-- C15 (set-up rejects an oversized IV): for `ivlen` greater than the capacity
of the static IV storage, `tls13_set_crypto_state` returns 0 and raises the
internal-error fatal alert; the stored static IV, the tag length, the read
cipher context and the read sequence counter are unchanged and no set-up call
is made. -/
theorem C15_oversized_iv (E : EVP Ctx Cipher) (st : State Ctx) (key iv : List Nat)
    (ivlen : Nat) (ciph : Cipher) (taglen : Nat) (hbig : st.iv.length < ivlen) :
    tls13_set_crypto_state E st key iv ivlen ciph taglen =
      (0, RLAYERfatal st SSL_AD_INTERNAL_ERROR ErrReason.ERR_R_INTERNAL_ERROR, []) ∧
    newFatals st (tls13_set_crypto_state E st key iv ivlen ciph taglen).2.1 =
      [(SSL_AD_INTERNAL_ERROR, ErrReason.ERR_R_INTERNAL_ERROR)] ∧
    (tls13_set_crypto_state E st key iv ivlen ciph taglen).2.1.iv = st.iv ∧
    (tls13_set_crypto_state E st key iv ivlen ciph taglen).2.1.taglen = st.taglen ∧
    (tls13_set_crypto_state E st key iv ivlen ciph taglen).2.1.enc_read_ctx =
      st.enc_read_ctx ∧
    (tls13_set_crypto_state E st key iv ivlen ciph taglen).2.1.read_sequence =
      st.read_sequence := by
  have e : tls13_set_crypto_state E st key iv ivlen ciph taglen =
      (0, RLAYERfatal st SSL_AD_INTERNAL_ERROR ErrReason.ERR_R_INTERNAL_ERROR, []) := by
    simp [tls13_set_crypto_state, hbig]
  rw [e]
  exact ⟨rfl, by simp [newFatals], rfl, rfl, rfl, rfl⟩

/-- C15, witness: a 17-byte IV offered to 16 bytes of storage. -/
theorem C15_oversized_iv_witness :
    setupState.iv.length < 17 ∧
    tls13_set_crypto_state toyEVP setupState [1, 2, 3] (List.replicate 17 1) 17 7 16 =
      (0, RLAYERfatal setupState SSL_AD_INTERNAL_ERROR ErrReason.ERR_R_INTERNAL_ERROR, []) :=
  ⟨by decide,
    (C15_oversized_iv toyEVP setupState [1, 2, 3] (List.replicate 17 1) 17 7 16 (by decide)).1⟩

/-- The set-up chain, when it succeeds, made exactly the calls of lines 49-53. -/
theorem setupChain_ok (E : EVP Ctx Cipher) (c0 : Ctx) (ciph : Cipher)
    (mode ivlen taglen : Nat) (key : List Nat)
    (h : (setupChain E c0 ciph mode ivlen taglen key).1 = true) :
    (setupChain E c0 ciph mode ivlen taglen key).2.2 =
      [(SetupCall.DecryptInit_ex_cipher ciph, true), (SetupCall.ctrl_AEAD_SET_IVLEN ivlen, true)]
        ++ (if mode = EVP_CIPH_CCM_MODE then [(SetupCall.ctrl_AEAD_SET_TAG taglen, true)]
            else [])
        ++ [(SetupCall.DecryptInit_ex_key key, true)] ∧
    (setupChain E c0 ciph mode ivlen taglen key).2.1 =
      ((setupChain E c0 ciph mode ivlen taglen key).2.2.map (fun x => x.1)).foldl
        (fun c call => (E.setup c call).1) c0 := by
  rcases h1 : E.setup c0 (SetupCall.DecryptInit_ex_cipher ciph) with ⟨c1, _ | _⟩
  · simp [setupChain, h1] at h
  rcases h2 : E.setup c1 (SetupCall.ctrl_AEAD_SET_IVLEN ivlen) with ⟨c2, _ | _⟩
  · simp [setupChain, h1, h2] at h
  by_cases hm : mode = EVP_CIPH_CCM_MODE
  · rcases h3 : E.setup c2 (SetupCall.ctrl_AEAD_SET_TAG taglen) with ⟨c3, _ | _⟩
    · simp [setupChain, h1, h2, hm, h3] at h
    rcases h4 : E.setup c3 (SetupCall.DecryptInit_ex_key key) with ⟨c4, _ | _⟩
    · simp [setupChain, h1, h2, hm, h3, h4] at h
    simp [setupChain, h1, h2, hm, h3, h4]
  · rcases h4 : E.setup c2 (SetupCall.DecryptInit_ex_key key) with ⟨c4, _ | _⟩
    · simp [setupChain, h1, h2, hm, h4] at h
    simp [setupChain, h1, h2, hm, h4]

/-- C16 (set-up postcondition): a successful call of `tls13_set_crypto_state`
with `ivlen` within the capacity of the static IV storage leaves the first
`ivlen` bytes of that storage equal to the given IV, the stored tag length
equal to `taglen`, the read sequence counter at eight zero bytes, and the read
cipher context set to the fresh context on which exactly these calls
succeeded, in order: decrypt-init with the given algorithm, IV length,
expected tag length exactly when the mode is CCM, decrypt-init with the given
key; no fatal error is raised. -/
theorem C16_setup_postcondition (E : EVP Ctx Cipher) (st : State Ctx) (key iv : List Nat)
    (ivlen : Nat) (ciph : Cipher) (taglen : Nat)
    (hcap : ivlen ≤ st.iv.length) (hiv : ivlen ≤ iv.length)
    (hret : (tls13_set_crypto_state E st key iv ivlen ciph taglen).1 = 1) :
    (tls13_set_crypto_state E st key iv ivlen ciph taglen).2.1.iv.take ivlen =
      iv.take ivlen ∧
    (tls13_set_crypto_state E st key iv ivlen ciph taglen).2.1.iv.length = st.iv.length ∧
    (tls13_set_crypto_state E st key iv ivlen ciph taglen).2.1.taglen = taglen ∧
    (tls13_set_crypto_state E st key iv ivlen ciph taglen).2.1.read_sequence = seqZero ∧
    newFatals st (tls13_set_crypto_state E st key iv ivlen ciph taglen).2.1 = [] ∧
    (tls13_set_crypto_state E st key iv ivlen ciph taglen).2.2 =
      [(SetupCall.DecryptInit_ex_cipher ciph, true), (SetupCall.ctrl_AEAD_SET_IVLEN ivlen, true)]
        ++ (if E.CIPHER_get_mode ciph = EVP_CIPH_CCM_MODE then
              [(SetupCall.ctrl_AEAD_SET_TAG taglen, true)] else [])
        ++ [(SetupCall.DecryptInit_ex_key key, true)] ∧
    ((SetupCall.ctrl_AEAD_SET_TAG taglen, true) ∈
        (tls13_set_crypto_state E st key iv ivlen ciph taglen).2.2 ↔
      E.CIPHER_get_mode ciph = EVP_CIPH_CCM_MODE) ∧
    ∃ c0, E.CIPHER_CTX_new = some c0 ∧
      (tls13_set_crypto_state E st key iv ivlen ciph taglen).2.1.enc_read_ctx =
        some (((tls13_set_crypto_state E st key iv ivlen ciph taglen).2.2.map
          (fun x => x.1)).foldl (fun c call => (E.setup c call).1) c0) := by
  have hnb : ¬ st.iv.length < ivlen := by omega
  rcases hnew : E.CIPHER_CTX_new with _ | c0
  · simp [tls13_set_crypto_state, hnb, hnew] at hret
  by_cases hch : (setupChain E c0 ciph (E.CIPHER_get_mode ciph) ivlen taglen key).1 = false
  · simp [tls13_set_crypto_state, hnb, hnew, hch] at hret
  have hch1 : (setupChain E c0 ciph (E.CIPHER_get_mode ciph) ivlen taglen key).1 = true := by
    simpa using hch
  obtain ⟨hlog, hctx⟩ := setupChain_ok E c0 ciph _ ivlen taglen key hch1
  have e : tls13_set_crypto_state E st key iv ivlen ciph taglen =
      (1, { st with
              iv := iv.take ivlen ++ st.iv.drop ivlen,
              enc_read_ctx :=
                some (setupChain E c0 ciph (E.CIPHER_get_mode ciph) ivlen taglen key).2.1,
              read_sequence := List.replicate SEQ_NUM_SIZE 0,
              taglen := taglen },
        (setupChain E c0 ciph (E.CIPHER_get_mode ciph) ivlen taglen key).2.2) := by
    simp [tls13_set_crypto_state, hnb, hnew, hch, RECORD_LAYER_reset_read_sequence]
  rw [e]
  refine ⟨?_, ?_, rfl, rfl, by simp [newFatals], hlog, ?_, c0, rfl, ?_⟩
  · rw [List.take_append_of_le_length (by simp; omega)]
    simp
  · simp; omega
  · rw [hlog]
    by_cases hm : E.CIPHER_get_mode ciph = EVP_CIPH_CCM_MODE <;> simp [hm]
  · rw [← hctx]

/-- C16, witness: set-up in CCM mode, where the tag length is pre-configured. -/
theorem C16_setup_postcondition_witness :
    12 ≤ setupState.iv.length ∧
    (tls13_set_crypto_state toyEVP setupState [1, 2, 3]
      [1, 2, 3, 4, 5, 6, 7, 8, 9, 10, 11, 12] 12 EVP_CIPH_CCM_MODE 16).1 = 1 ∧
    (tls13_set_crypto_state toyEVP setupState [1, 2, 3]
      [1, 2, 3, 4, 5, 6, 7, 8, 9, 10, 11, 12] 12 EVP_CIPH_CCM_MODE 16).2.1.iv.take 12 =
      [1, 2, 3, 4, 5, 6, 7, 8, 9, 10, 11, 12] ∧
    (tls13_set_crypto_state toyEVP setupState [1, 2, 3]
      [1, 2, 3, 4, 5, 6, 7, 8, 9, 10, 11, 12] 12 EVP_CIPH_CCM_MODE 16).2.1.read_sequence =
      seqZero ∧
    (tls13_set_crypto_state toyEVP setupState [1, 2, 3]
      [1, 2, 3, 4, 5, 6, 7, 8, 9, 10, 11, 12] 12 EVP_CIPH_CCM_MODE 16).2.2 =
      [(SetupCall.DecryptInit_ex_cipher EVP_CIPH_CCM_MODE, true),
        (SetupCall.ctrl_AEAD_SET_IVLEN 12, true), (SetupCall.ctrl_AEAD_SET_TAG 16, true),
        (SetupCall.DecryptInit_ex_key [1, 2, 3], true)] :=
  ⟨by decide, by decide,
    (C16_setup_postcondition toyEVP setupState [1, 2, 3]
      [1, 2, 3, 4, 5, 6, 7, 8, 9, 10, 11, 12] 12 EVP_CIPH_CCM_MODE 16 (by decide) (by decide)
      (by decide)).1,
    (C16_setup_postcondition toyEVP setupState [1, 2, 3]
      [1, 2, 3, 4, 5, 6, 7, 8, 9, 10, 11, 12] 12 EVP_CIPH_CCM_MODE 16 (by decide) (by decide)
      (by decide)).2.2.2.1,
    (C16_setup_postcondition toyEVP setupState [1, 2, 3]
      [1, 2, 3, 4, 5, 6, 7, 8, 9, 10, 11, 12] 12 EVP_CIPH_CCM_MODE 16 (by decide) (by decide)
      (by decide)).2.2.2.2.2.1⟩

/-- The operations of the feeding stage, by kind: always an initial segment of
the stage's full sequence, and the whole of it on success. -/
theorem feed_kinds (E : EVP Ctx Cipher) (st : State Ctx) (rec : SSL3_RECORD)
    (s : Bool) (c : Ctx) (mode : Nat) (hdr : List Nat) :
    kindsOf (newCalls st (tls13_cipher_feed E st rec s c mode hdr).2.1) <+:
      ((if mode = EVP_CIPH_CCM_MODE then [CallKind.primeLength] else []) ++
        [CallKind.feedAad, CallKind.payload, CallKind.finalise] ++
        (if s then [CallKind.getTag] else [])) ∧
    ((tls13_cipher_feed E st rec s c mode hdr).1 = 1 →
      kindsOf (newCalls st (tls13_cipher_feed E st rec s c mode hdr).2.1) =
        ((if mode = EVP_CIPH_CCM_MODE then [CallKind.primeLength] else []) ++
          [CallKind.feedAad, CallKind.payload, CallKind.finalise] ++
          (if s then [CallKind.getTag] else []))) := by
  unfold tls13_cipher_feed newCalls kindsOf
  by_cases hm : mode = EVP_CIPH_CCM_MODE <;> cases s <;>
    simp only [hm, if_true, if_false, Bool.false_eq_true] <;>
    (repeat' split) <;> simp [kindOf]

theorem feed_primed (E : EVP Ctx Cipher) (st : State Ctx) (rec : SSL3_RECORD)
    (s : Bool) (c : Ctx) (mode : Nat) (hdr : List Nat) :
    ∀ x ∈ newCalls st (tls13_cipher_feed E st rec s c mode hdr).2.1,
      tagOf x = none ∧
      ∀ n, primedLength x = some n → n = rec.length % 2 ^ 32 ∧ mode = EVP_CIPH_CCM_MODE := by
  unfold tls13_cipher_feed newCalls
  by_cases hm : mode = EVP_CIPH_CCM_MODE <;> cases s <;>
    simp only [hm, if_true, if_false, Bool.false_eq_true] <;>
    (repeat' split) <;> simp [tagOf, primedLength]

/-- The log of `tls13_cipher_crypt`: the nonce binding, on open the expected
tag read at `rec->data + rec->length`, then the log of the feeding stage when
it is reached. -/
theorem crypt_log (E : EVP Ctx Cipher) (st : State Ctx) (rec : SSL3_RECORD)
    (s : Bool) (c : Ctx) (mode : Nat) (iv : List Nat) :
    ∃ (pre rest : List (EvpCall × Option (List Nat))),
      newCalls st (tls13_cipher_crypt E st rec s c mode iv).2.1 = pre ++ rest ∧
      kindsOf pre <+: [CallKind.bindNonce] ++ (if s then [] else [CallKind.setTag]) ∧
      (∀ x ∈ pre, (∀ t, tagOf x = some t →
          t = readBytes st.mem (rec.data + rec.length) st.taglen) ∧ primedLength x = none) ∧
      (rest = [] ∧ (tls13_cipher_crypt E st rec s c mode iv).1 = 0 ∨
        kindsOf pre = [CallKind.bindNonce] ++ (if s then [] else [CallKind.setTag]) ∧
        ∃ (stS : State Ctx) (cS : Ctx) (hdr : List Nat),
          buildHeader rec st.taglen = some hdr ∧
          tls13_cipher_crypt E st rec s c mode iv = tls13_cipher_feed E stS rec s cS mode hdr ∧
          rest = newCalls stS (tls13_cipher_feed E stS rec s cS mode hdr).2.1) := by
  rcases hI : E.step c (EvpCall.CipherInit_ex iv s) with ⟨cI, _ | xI⟩
  · refine ⟨[(EvpCall.CipherInit_ex iv s, none)], [], ?_, ?_, ?_, Or.inl ⟨rfl, ?_⟩⟩
    · simp [tls13_cipher_crypt, hI, newCalls]
    · cases s <;> simp [kindsOf, kindOf]
    · simp [tagOf, primedLength]
    · simp [tls13_cipher_crypt, hI]
  rcases hS : (if s then (cI, some []) else
        E.step cI (EvpCall.ctrl_AEAD_SET_TAG st.taglen
          (readBytes st.mem (rec.data + rec.length) st.taglen))) with ⟨cS, _ | xS⟩
  · cases s
    · refine ⟨[(EvpCall.CipherInit_ex iv false, some xI),
          (EvpCall.ctrl_AEAD_SET_TAG st.taglen
            (readBytes st.mem (rec.data + rec.length) st.taglen), none)], [], ?_, ?_, ?_,
          Or.inl ⟨rfl, ?_⟩⟩
      · simp only [tls13_cipher_crypt, hI, logCall_mem, hS]
        simp [newCalls]
      · simp [kindsOf, kindOf]
      · simp [tagOf, primedLength]
      · simp only [tls13_cipher_crypt, hI, logCall_mem, hS]
    · simp at hS
  have hpre : kindsOf (if s then [(EvpCall.CipherInit_ex iv s, some xI)]
      else [(EvpCall.CipherInit_ex iv s, some xI),
        (EvpCall.ctrl_AEAD_SET_TAG st.taglen
          (readBytes st.mem (rec.data + rec.length) st.taglen), some xS)]) =
      [CallKind.bindNonce] ++ (if s then [] else [CallKind.setTag]) := by
    cases s <;> simp [kindsOf, kindOf]
  have htag : ∀ x ∈ (if s then [(EvpCall.CipherInit_ex iv s, some xI)]
      else [(EvpCall.CipherInit_ex iv s, some xI),
        (EvpCall.ctrl_AEAD_SET_TAG st.taglen
          (readBytes st.mem (rec.data + rec.length) st.taglen), some xS)]),
      (∀ t, tagOf x = some t → t = readBytes st.mem (rec.data + rec.length) st.taglen) ∧
        primedLength x = none := by
    cases s <;> simp [tagOf, primedLength]
  rcases hH : buildHeader rec st.taglen with _ | hdr
  · refine ⟨_, [], ?_, by rw [hpre], htag, Or.inl ⟨rfl, ?_⟩⟩
    · simp only [tls13_cipher_crypt, hI, logCall_mem, hS, hH]
      cases s <;> simp_all [newCalls]
    · simp only [tls13_cipher_crypt, hI, logCall_mem, hS, hH]
  · refine ⟨_, _, ?_, by rw [hpre], htag, Or.inr ⟨hpre,
      (if s then logCall st s (EvpCall.CipherInit_ex iv s) (cI, some xI)
        else logCall (logCall st s (EvpCall.CipherInit_ex iv s) (cI, some xI)) s
          (EvpCall.ctrl_AEAD_SET_TAG st.taglen
            (readBytes st.mem (rec.data + rec.length) st.taglen)) (cS, some xS)),
      cS, hdr, rfl, ?_, rfl⟩⟩
    · have e : tls13_cipher_crypt E st rec s c mode iv = tls13_cipher_feed E
          (if s then logCall st s (EvpCall.CipherInit_ex iv s) (cI, some xI)
            else logCall (logCall st s (EvpCall.CipherInit_ex iv s) (cI, some xI)) s
              (EvpCall.ctrl_AEAD_SET_TAG st.taglen
                (readBytes st.mem (rec.data + rec.length) st.taglen)) (cS, some xS))
          rec s cS mode hdr := by
        simp only [tls13_cipher_crypt, hI, logCall_mem, hS, hH]
      rw [e]
      rw [newCalls_trans (b := (if s then logCall st s (EvpCall.CipherInit_ex iv s) (cI, some xI)
            else logCall (logCall st s (EvpCall.CipherInit_ex iv s) (cI, some xI)) s
              (EvpCall.ctrl_AEAD_SET_TAG st.taglen
                (readBytes st.mem (rec.data + rec.length) st.taglen)) (cS, some xS)))
          (by cases s <;> simp) (feed_calls_grow _ _ _ _ _ _ _)]
      congr 1
      cases s <;> simp_all [newCalls]
    · simp only [tls13_cipher_crypt, hI, logCall_mem, hS, hH]

theorem feed_aad_prime (E : EVP Ctx Cipher) (st : State Ctx) (rec : SSL3_RECORD)
    (s : Bool) (c : Ctx) (mode : Nat) (hdr : List Nat) :
    CallKind.feedAad ∈ kindsOf (newCalls st (tls13_cipher_feed E st rec s c mode hdr).2.1) →
      (CallKind.primeLength ∈ kindsOf (newCalls st (tls13_cipher_feed E st rec s c mode hdr).2.1)
        ↔ mode = EVP_CIPH_CCM_MODE) := by
  unfold tls13_cipher_feed newCalls kindsOf
  by_cases hm : mode = EVP_CIPH_CCM_MODE <;> cases s <;>
    simp only [hm, if_true, if_false, Bool.false_eq_true] <;>
    (repeat' split) <;> simp [kindOf]

theorem crypt_open_rec (E : EVP Ctx Cipher) (st : State Ctx) (rec : SSL3_RECORD)
    (c : Ctx) (mode : Nat) (iv : List Nat) :
    (tls13_cipher_crypt E st rec false c mode iv).2.2 = rec := by
  rcases crypt_cases E st rec false c mode iv with
    ⟨_, _, _, h, _⟩ | ⟨cI, cS, xI, xS, hdr, stS, _, _, _, _, _, _, _, _, hfeed⟩
  · exact h
  · rw [hfeed]
    exact (feed_fatals_open E stS rec cS mode hdr).2

/-- The log of a call of `tls13_cipher_rec`: empty, or that of
`tls13_cipher_crypt` entered after the counter step. -/
theorem rec_log (E : EVP Ctx Cipher) (st : State Ctx) (rec : SSL3_RECORD) (s : Bool) :
    (newCalls st (tls13_cipher_rec E st rec s).2.1 = [] ∧
      ((tls13_cipher_rec E st rec s).1 = 1 → dirCtx st s = none ∨ rec.type = SSL3_RT_ALERT)) ∨
    ∃ c cipher, dirCtx st s = some c ∧ E.CIPHER_CTX_get0_cipher (some c) = some cipher ∧
      rec.type ≠ SSL3_RT_ALERT ∧ (s = false → st.taglen + 1 ≤ rec.length) ∧
      tls13_cipher_rec E st rec s =
        tls13_cipher_crypt E (setSeq st s (incrementLoop SEQ_NUM_SIZE (dirSeq st s)).2)
          (if s then rec else { rec with length := rec.length - st.taglen }) s c
          (E.CIPHER_get_mode cipher)
          (deriveNonce (dirIV st s) (dirSeq st s) (E.CIPHER_CTX_get_iv_length c)) ∧
      newCalls st (tls13_cipher_rec E st rec s).2.1 =
        newCalls (setSeq st s (incrementLoop SEQ_NUM_SIZE (dirSeq st s)).2)
          (tls13_cipher_crypt E (setSeq st s (incrementLoop SEQ_NUM_SIZE (dirSeq st s)).2)
            (if s then rec else { rec with length := rec.length - st.taglen }) s c
            (E.CIPHER_get_mode cipher)
            (deriveNonce (dirIV st s) (dirSeq st s) (E.CIPHER_CTX_get_iv_length c))).2.1 := by
  rcases rec_cases E st rec s with ⟨h0, h⟩ | ⟨h0, h, _⟩ | ⟨c, ci, hc, hci, hty, hlen, _, _, he⟩
  · left
    rw [h]
    exact ⟨by simp [newCalls, tls13_cipher_plain], fun _ => h0⟩
  · left
    refine ⟨by simp [newCalls, h], ?_⟩
    intro h1
    rw [h0] at h1
    simp at h1
  · right
    refine ⟨c, ci, hc, hci, hty, hlen, he, ?_⟩
    rw [he, newCalls_setSeq]

/-- C17 (counter increment step): the increment loop of `tls13_cipher` maps the
8-byte big-endian encoding of every `k < 2^64 - 1` to that of `k + 1` and
leaves the loop variable non-zero; it maps the all-ones counter (the encoding
of `2^64 - 1`) to eight zero bytes with loop variable zero; the loop variable
is zero exactly when the counter was all-ones. In a call on a non-bypassed
record that reaches the step, the call fails there (returns 0 with no cipher
operation and no fatal error) if the counter was all-ones, and otherwise goes
on to bind the nonce. -/
theorem C17_increment_step (E : EVP Ctx Cipher) (st : State Ctx) (rec : SSL3_RECORD)
    (sending : Bool) (c : Ctx) (cipher : Cipher)
    (hc : dirCtx st sending = some c)
    (hciph : E.CIPHER_CTX_get0_cipher (some c) = some cipher)
    (hty : rec.type ≠ SSL3_RT_ALERT)
    (hlen : sending = false → st.taglen + 1 ≤ rec.length)
    (h8 : 8 ≤ E.CIPHER_CTX_get_iv_length c)
    (hsl : (dirSeq st sending).length = 8) (hsb : IsBytes (dirSeq st sending)) :
    (∀ k, k < 2 ^ 64 - 1 →
      (incrementLoop SEQ_NUM_SIZE (putValue 8 k)).1 ≠ 0 ∧
      (incrementLoop SEQ_NUM_SIZE (putValue 8 k)).2 = putValue 8 (k + 1)) ∧
    (putValue 8 (2 ^ 64 - 1) = seqOnes ∧ incrementLoop SEQ_NUM_SIZE seqOnes = (0, seqZero)) ∧
    (∀ seq : List Nat, seq.length = 8 → IsBytes seq →
      ((incrementLoop SEQ_NUM_SIZE seq).1 = 0 ↔ seq = seqOnes) ∧
      ((incrementLoop SEQ_NUM_SIZE seq).1 ≠ 0 →
        beVal (incrementLoop SEQ_NUM_SIZE seq).2 = beVal seq + 1)) ∧
    (dirSeq st sending = seqOnes →
      (tls13_cipher E st [rec] 1 sending).1 = 0 ∧
      newCalls st (tls13_cipher E st [rec] 1 sending).2.1 = [] ∧
      newFatals st (tls13_cipher E st [rec] 1 sending).2.1 = [] ∧
      dirSeq (tls13_cipher E st [rec] 1 sending).2.1 sending = seqZero) ∧
    (dirSeq st sending ≠ seqOnes →
      (∃ iv r, (EvpCall.CipherInit_ex iv sending, r) ∈
        newCalls st (tls13_cipher E st [rec] 1 sending).2.1) ∧
      beVal (dirSeq (tls13_cipher E st [rec] 1 sending).2.1 sending) =
        beVal (dirSeq st sending) + 1) := by
  refine ⟨fun k hk => incrementLoop_putValue k hk, ⟨putValue_ones, incrementLoop_ones⟩, ?_, ?_, ?_⟩
  · intro seq h1 h2
    obtain ⟨_, _, a, b, _⟩ := incrementLoop_seq seq h1 h2
    exact ⟨b, a⟩
  · intro hones
    rw [cipher_one, rec_exhausted E st rec sending c cipher hc hciph hty hlen h8 hones]
    simp [newCalls, newFatals]
  · intro hne
    obtain ⟨_, _, a, b, _⟩ := incrementLoop_seq _ hsl hsb
    have hinc : (incrementLoop SEQ_NUM_SIZE (dirSeq st sending)).1 ≠ 0 :=
      fun h0 => hne (b.1 h0)
    rw [cipher_one, rec_eq E st rec sending c cipher hc hciph hty hlen h8]
    simp only [hinc, if_false]
    obtain ⟨l, hl, _⟩ := crypt_newCalls E
      (setSeq st sending (incrementLoop SEQ_NUM_SIZE (dirSeq st sending)).2)
      (if sending then rec else { rec with length := rec.length - st.taglen }) sending c
      (E.CIPHER_get_mode cipher)
      (deriveNonce (dirIV st sending) (dirSeq st sending) (E.CIPHER_CTX_get_iv_length c))
    obtain ⟨hw, hr, _⟩ := crypt_frame E
      (setSeq st sending (incrementLoop SEQ_NUM_SIZE (dirSeq st sending)).2)
      (if sending then rec else { rec with length := rec.length - st.taglen }) sending c
      (E.CIPHER_get_mode cipher)
      (deriveNonce (dirIV st sending) (dirSeq st sending) (E.CIPHER_CTX_get_iv_length c))
    constructor
    · rw [← newCalls_setSeq st _ sending (incrementLoop SEQ_NUM_SIZE (dirSeq st sending)).2, hl]
      exact ⟨_, _, List.mem_cons_self _ _⟩
    · rw [dirSeq_of_fields _ _ hw hr, setSeq_dirSeq]
      exact a hinc

/-- C17, witness: the step at counter zero and at the all-ones counter. -/
theorem C17_increment_step_witness :
    ((∃ iv r, (EvpCall.CipherInit_ex iv true, r) ∈
        newCalls hiState (tls13_cipher toyEVP hiState [hiRec] 1 true).2.1) ∧
      beVal (dirSeq (tls13_cipher toyEVP hiState [hiRec] 1 true).2.1 true) =
        beVal (dirSeq hiState true) + 1) ∧
    ((tls13_cipher toyEVP exhaustedState [hiRec] 1 true).1 = 0 ∧
      newCalls exhaustedState (tls13_cipher toyEVP exhaustedState [hiRec] 1 true).2.1 = [] ∧
      newFatals exhaustedState (tls13_cipher toyEVP exhaustedState [hiRec] 1 true).2.1 = [] ∧
      dirSeq (tls13_cipher toyEVP exhaustedState [hiRec] 1 true).2.1 true = seqZero) :=
  ⟨(C17_increment_step toyEVP hiState hiRec true (toyCtx 6) 6 rfl rfl (by decide) (by decide)
      (by decide) rfl (by decide)).2.2.2.2 (by decide),
   (C17_increment_step toyEVP exhaustedState hiRec true (toyCtx 6) 6 rfl rfl (by decide)
      (by decide) (by decide) rfl (by decide)).2.2.2.1 rfl⟩

/-- C18 (expected tag on open), what the code does: every expected tag that an
open sets on the cipher context is the `taglen` bytes found at
`rec->data + (m - taglen)`, in the output buffer; it is the tail of the
record's input, bytes `m - taglen .. m - 1`, when the record is opened in
place (`input = data`), and not otherwise. -/
theorem C18_expected_tag_source (E : EVP Ctx Cipher) (st : State Ctx) (rec : SSL3_RECORD) :
    (∀ x ∈ newCalls st (tls13_cipher E st [rec] 1 false).2.1, ∀ t, tagOf x = some t →
      t = readBytes st.mem (rec.data + (rec.length - st.taglen)) st.taglen) ∧
    (rec.input = rec.data →
      ∀ x ∈ newCalls st (tls13_cipher E st [rec] 1 false).2.1, ∀ t, tagOf x = some t →
        t = readBytes st.mem (rec.input + (rec.length - st.taglen)) st.taglen) := by
  have main : ∀ x ∈ newCalls st (tls13_cipher E st [rec] 1 false).2.1, ∀ t,
      tagOf x = some t →
      t = readBytes st.mem (rec.data + (rec.length - st.taglen)) st.taglen := by
    intro x hx t ht
    rw [cipher_one] at hx
    simp only [] at hx
    rcases rec_log E st rec false with ⟨h, _⟩ | ⟨c, ci, _, _, _, _, _, hn⟩
    · rw [h] at hx; simp at hx
    · rw [hn] at hx
      obtain ⟨pre, rest, hsplit, _, hpre, hrest⟩ := crypt_log E
        (setSeq st false (incrementLoop SEQ_NUM_SIZE (dirSeq st false)).2)
        (if false then rec else { rec with length := rec.length - st.taglen }) false c
        (E.CIPHER_get_mode ci)
        (deriveNonce (dirIV st false) (dirSeq st false) (E.CIPHER_CTX_get_iv_length c))
      rw [hsplit] at hx
      rcases List.mem_append.1 hx with h1 | h1
      · have := (hpre x h1).1 t ht
        simpa using this
      · rcases hrest with ⟨h0, _⟩ | ⟨_, stS, cS, hdr, _, _, hr⟩
        · rw [h0] at h1; simp at h1
        · rw [hr] at h1
          have := (feed_primed E stS _ false cS _ hdr x h1).1
          rw [this] at ht
          simp at ht
  refine ⟨main, ?_⟩
  intro hin x hx t ht
  rw [hin]
  exact main x hx t ht

/-- C18, the failing input: the sealed scenario record received with its 18
bytes at the input address 100 and a separate output buffer at address 200.
The expected tag set on the context is the 16 zero bytes found in the output
buffer, not the last 16 input bytes, and the open of the authentic record
fails at finalisation. -/
theorem C18_expected_tag_source_witness :
    splitRec.input ≠ splitRec.data ∧
    (newCalls (openState sealedMem)
      (tls13_cipher toyEVP (openState sealedMem) [splitRec] 1 false).2.1).filterMap tagOf =
      [readBytes sealedMem (200 + 2) 16] ∧
    readBytes sealedMem (200 + 2) 16 = List.replicate 16 0 ∧
    readBytes sealedMem (splitRec.input + 2) 16 = List.replicate 16 79 ∧
    (tls13_cipher toyEVP (openState sealedMem) [splitRec] 1 false).1 = 0 ∧
    (tls13_cipher toyEVP (openState sealedMem) [wireRec] 1 false).1 = 1 ∧
    (∀ x ∈ newCalls (openState sealedMem)
        (tls13_cipher toyEVP (openState sealedMem) [splitRec] 1 false).2.1,
      ∀ t, tagOf x = some t →
        t = readBytes (openState sealedMem).mem
          (splitRec.data + (splitRec.length - (openState sealedMem).taglen))
          (openState sealedMem).taglen) :=
  ⟨by decide, by decide, by decide, by decide, by decide, by decide,
    (C18_expected_tag_source toyEVP (openState sealedMem) splitRec).1⟩

theorem kindsOf_append (a b : List (EvpCall × Option (List Nat))) :
    kindsOf (a ++ b) = kindsOf a ++ kindsOf b := by
  simp [kindsOf]

theorem kindsOf_nil : kindsOf ([] : List (EvpCall × Option (List Nat))) = [] := rfl

theorem canonicalKinds_eq (s : Bool) (mode : Nat) :
    canonicalKinds s mode =
      ([CallKind.bindNonce] ++ (if s then [] else [CallKind.setTag])) ++
        ((if mode = EVP_CIPH_CCM_MODE then [CallKind.primeLength] else []) ++
          [CallKind.feedAad, CallKind.payload, CallKind.finalise] ++
          (if s then [CallKind.getTag] else [])) := by
  simp [canonicalKinds]

theorem mem_kindsOf_primed (l : List (EvpCall × Option (List Nat))) :
    CallKind.primeLength ∈ kindsOf l ↔ ∃ x ∈ l, ∃ n, primedLength x = some n := by
  simp only [kindsOf, List.mem_map]
  constructor
  · rintro ⟨x, hx, hk⟩
    refine ⟨x, hx, ?_⟩
    rcases x with ⟨call, r⟩
    cases call with
    | CipherUpdate o i l =>
      cases o <;> cases i <;> simp [kindOf, primedLength] at hk ⊢
    | _ => simp [kindOf] at hk
  · rintro ⟨x, hx, n, hn⟩
    refine ⟨x, hx, ?_⟩
    rcases x with ⟨call, r⟩
    cases call with
    | CipherUpdate o i l =>
      cases o <;> cases i <;> simp [kindOf, primedLength] at hn ⊢
    | _ => simp [primedLength] at hn

/-- The operations issued by one call of `tls13_cipher` with a cipher bound, by
kind: initial segment of the canonical sequence, the whole of it on success,
and the place and argument of the length declaration. -/
theorem cipher_kinds (E : EVP Ctx Cipher) (st : State Ctx) (rec : SSL3_RECORD)
    (sending : Bool) (c : Ctx) (cipher : Cipher)
    (hc : dirCtx st sending = some c)
    (hciph : E.CIPHER_CTX_get0_cipher (some c) = some cipher) :
    kindsOf (newCalls st (tls13_cipher E st [rec] 1 sending).2.1) <+:
      canonicalKinds sending (E.CIPHER_get_mode cipher) ∧
    ((tls13_cipher E st [rec] 1 sending).1 = 1 → rec.type ≠ SSL3_RT_ALERT →
      kindsOf (newCalls st (tls13_cipher E st [rec] 1 sending).2.1) =
        canonicalKinds sending (E.CIPHER_get_mode cipher)) ∧
    (∀ x ∈ newCalls st (tls13_cipher E st [rec] 1 sending).2.1, ∀ n,
      primedLength x = some n →
      E.CIPHER_get_mode cipher = EVP_CIPH_CCM_MODE ∧
      n = (if sending then rec.length else rec.length - st.taglen)) ∧
    (CallKind.feedAad ∈ kindsOf (newCalls st (tls13_cipher E st [rec] 1 sending).2.1) →
      (CallKind.primeLength ∈ kindsOf (newCalls st (tls13_cipher E st [rec] 1 sending).2.1) ↔
        E.CIPHER_get_mode cipher = EVP_CIPH_CCM_MODE)) ∧
    (CallKind.primeLength ∈ canonicalKinds sending (E.CIPHER_get_mode cipher) ↔
      E.CIPHER_get_mode cipher = EVP_CIPH_CCM_MODE) := by
  rw [cipher_one]
  simp only []
  have hlast : CallKind.primeLength ∈ canonicalKinds sending (E.CIPHER_get_mode cipher) ↔
      E.CIPHER_get_mode cipher = EVP_CIPH_CCM_MODE := by
    by_cases hm : E.CIPHER_get_mode cipher = EVP_CIPH_CCM_MODE <;> cases sending <;>
      simp [canonicalKinds, hm]
  rcases rec_log E st rec sending with ⟨h, hs⟩ | ⟨c1, ci, hc1, hci, hty, hlen, he, hn⟩
  · rw [h]
    refine ⟨by simp [kindsOf], ?_, by simp, by simp [kindsOf], hlast⟩
    intro h1 hty
    rcases hs h1 with h2 | h2
    · rw [hc] at h2; simp at h2
    · exact absurd h2 hty
  · have hcc : c1 = c := by
      rw [hc] at hc1
      exact (Option.some.inj hc1).symm
    subst hcc
    have hcc2 : ci = cipher := by
      rw [hciph] at hci
      exact (Option.some.inj hci).symm
    subst hcc2
    rw [hn, he]
    obtain ⟨pre, rest, hsplit, hprek, hpre, hrest⟩ := crypt_log E
      (setSeq st sending (incrementLoop SEQ_NUM_SIZE (dirSeq st sending)).2)
      (if sending then rec else { rec with length := rec.length - st.taglen }) sending c1
      (E.CIPHER_get_mode ci)
      (deriveNonce (dirIV st sending) (dirSeq st sending) (E.CIPHER_CTX_get_iv_length c1))
    rw [hsplit, kindsOf_append, canonicalKinds_eq]
    rw [canonicalKinds_eq] at hlast
    have hprenoprime : CallKind.primeLength ∉ kindsOf pre := by
      intro hmem
      obtain ⟨x, hx, n, hxn⟩ := (mem_kindsOf_primed pre).1 hmem
      rw [(hpre x hx).2] at hxn
      simp at hxn
    have hprenoaad : CallKind.feedAad ∉ kindsOf pre := by
      intro hmem
      have := List.IsPrefix.subset hprek hmem
      cases sending <;> simp at this
    rcases hrest with ⟨h0, hret0⟩ | ⟨hpk, stS, cS, hdr, hH, hfeed, hr⟩
    · subst h0
      refine ⟨?_, ?_, ?_, ?_, hlast⟩
      · rw [kindsOf_nil, List.append_nil]
        exact hprek.trans (List.prefix_append _ _)
      · intro h1
        rw [hret0] at h1
        simp at h1
      · intro x hx n hxn
        rw [List.append_nil] at hx
        rw [(hpre x hx).2] at hxn
        simp at hxn
      · intro hmem
        rw [kindsOf_nil, List.append_nil] at hmem
        exact absurd hmem hprenoaad
    · obtain ⟨fk1, fk2⟩ := feed_kinds E stS
        (if sending then rec else { rec with length := rec.length - st.taglen }) sending cS
        (E.CIPHER_get_mode ci) hdr
      rw [hr, hpk]
      refine ⟨?_, ?_, ?_, ?_, hlast⟩
      · exact (List.prefix_append_right_inj _).2 fk1
      · intro h1 _
        rw [hfeed] at h1
        rw [fk2 h1]
      · intro x hx n hxn
        rcases List.mem_append.1 hx with h1 | h1
        · rw [(hpre x h1).2] at hxn
          simp at hxn
        · obtain ⟨e1, e2⟩ := (feed_primed E stS _ sending cS _ hdr x h1).2 n hxn
          refine ⟨e2, ?_⟩
          rw [e1]
          obtain ⟨_, _, _, hb⟩ := buildHeader_some _ _ _ hH
          cases sending
          · simp only [Bool.false_eq_true, if_false] at hb ⊢
            exact Nat.mod_eq_of_lt (by omega)
          · simp only [if_true] at hb ⊢
            exact Nat.mod_eq_of_lt (by omega)
      · intro hmem
        have hpk2 : kindsOf pre = [CallKind.bindNonce] ++
            (if sending then [] else [CallKind.setTag]) := hpk
        rw [← hpk2] at hmem ⊢
        rw [List.mem_append] at hmem ⊢
        have hA : CallKind.feedAad ∈ kindsOf (newCalls stS (tls13_cipher_feed E stS
            (if sending then rec else { rec with length := rec.length - st.taglen })
            sending cS (E.CIPHER_get_mode ci) hdr).2.1) := by
          rcases hmem with h | h
          · exact absurd h hprenoaad
          · exact h
        have := feed_aad_prime E stS _ sending cS _ hdr hA
        constructor
        · rintro (h | h)
          · exact absurd h hprenoprime
          · exact this.1 h
        · intro h
          exact Or.inr (this.2 h)

/-- C19 (CCM length priming): with a cipher bound, the operations issued by a
call of `tls13_cipher`, by kind, are always an initial segment of the sequence
nonce binding, expected tag (open only), length declaration (CCM only),
associated data, payload, finalisation, tag (seal only), and the whole of it
when the call succeeds on a non-alert record; leaving the two tag controls
aside, a successful call issues nonce binding, associated data, payload,
finalisation, with the length declaration between nonce binding and associated
data exactly in CCM mode. A length declaration is issued only in CCM mode and
carries the tag-exclusive plaintext length (the plaintext length on seal, the
tag-stripped length on open); whenever the associated data is fed, a length
declaration has been issued if and only if the mode is CCM. -/
theorem C19_ccm_priming (E : EVP Ctx Cipher) (st : State Ctx) (rec : SSL3_RECORD)
    (sending : Bool) (c : Ctx) (cipher : Cipher)
    (hc : dirCtx st sending = some c)
    (hciph : E.CIPHER_CTX_get0_cipher (some c) = some cipher) :
    kindsOf (newCalls st (tls13_cipher E st [rec] 1 sending).2.1) <+:
      canonicalKinds sending (E.CIPHER_get_mode cipher) ∧
    ((tls13_cipher E st [rec] 1 sending).1 = 1 → rec.type ≠ SSL3_RT_ALERT →
      kindsOf (newCalls st (tls13_cipher E st [rec] 1 sending).2.1) =
        canonicalKinds sending (E.CIPHER_get_mode cipher) ∧
      (kindsOf (newCalls st (tls13_cipher E st [rec] 1 sending).2.1)).filter
          (fun k => decide (k ≠ CallKind.setTag ∧ k ≠ CallKind.getTag)) =
        [CallKind.bindNonce] ++
          (if E.CIPHER_get_mode cipher = EVP_CIPH_CCM_MODE then [CallKind.primeLength]
            else []) ++
          [CallKind.feedAad, CallKind.payload, CallKind.finalise]) ∧
    (∀ x ∈ newCalls st (tls13_cipher E st [rec] 1 sending).2.1, ∀ n,
      primedLength x = some n →
      E.CIPHER_get_mode cipher = EVP_CIPH_CCM_MODE ∧
      n = (if sending then rec.length else rec.length - st.taglen)) ∧
    (CallKind.feedAad ∈ kindsOf (newCalls st (tls13_cipher E st [rec] 1 sending).2.1) →
      (CallKind.primeLength ∈ kindsOf (newCalls st (tls13_cipher E st [rec] 1 sending).2.1) ↔
        E.CIPHER_get_mode cipher = EVP_CIPH_CCM_MODE)) ∧
    (CallKind.primeLength ∈ canonicalKinds sending (E.CIPHER_get_mode cipher) ↔
      E.CIPHER_get_mode cipher = EVP_CIPH_CCM_MODE) := by
  obtain ⟨h1, h2, h3, h4, h5⟩ := cipher_kinds E st rec sending c cipher hc hciph
  refine ⟨h1, ?_, h3, h4, h5⟩
  intro hr hty
  have h := h2 hr hty
  refine ⟨h, ?_⟩
  rw [h]
  by_cases hm : E.CIPHER_get_mode cipher = EVP_CIPH_CCM_MODE <;> cases sending <;>
    simp [canonicalKinds, hm]

/-- C19, witness: sealing the scenario record in CCM mode and in the scenario's
own mode. -/
theorem C19_ccm_priming_witness :
    (dirCtx (ccmState (memOf 100 [104, 105])) true = some (toyCtx EVP_CIPH_CCM_MODE) ∧
      toyEVP.CIPHER_CTX_get0_cipher (some (toyCtx EVP_CIPH_CCM_MODE)) =
        some EVP_CIPH_CCM_MODE ∧
      kindsOf (newCalls (ccmState (memOf 100 [104, 105]))
        (tls13_cipher toyEVP (ccmState (memOf 100 [104, 105])) [hiRec] 1 true).2.1) =
        [CallKind.bindNonce, CallKind.primeLength, CallKind.feedAad, CallKind.payload,
          CallKind.finalise, CallKind.getTag] ∧
      (newCalls (ccmState (memOf 100 [104, 105]))
        (tls13_cipher toyEVP (ccmState (memOf 100 [104, 105])) [hiRec] 1 true).2.1).filterMap
          primedLength = [2]) ∧
    (kindsOf (newCalls hiState (tls13_cipher toyEVP hiState [hiRec] 1 true).2.1) =
        [CallKind.bindNonce, CallKind.feedAad, CallKind.payload, CallKind.finalise,
          CallKind.getTag]) ∧
    (kindsOf (newCalls (ccmState (memOf 100 [104, 105]))
        (tls13_cipher toyEVP (ccmState (memOf 100 [104, 105])) [hiRec] 1 true).2.1) <+:
      canonicalKinds true (toyEVP.CIPHER_get_mode EVP_CIPH_CCM_MODE)) :=
  ⟨⟨by decide, by decide, by decide, by decide⟩, by decide,
    (C19_ccm_priming toyEVP (ccmState (memOf 100 [104, 105])) hiRec true
      (toyCtx EVP_CIPH_CCM_MODE) EVP_CIPH_CCM_MODE (by decide) (by decide)).1⟩

/-- C20 (a failed transform consumes a counter value): for a non-alert record
with a cipher bound, an IV length of at least 8 and, on open, a length of at
least the tag length plus one, when the counter of the direction encodes
`k < 2^64 - 1` the counter after `tls13_cipher` encodes `k + 1`, whatever the
call returns; on open the record is returned with its length reduced by the tag
length and nothing else changed, also when the call fails. -/
theorem C20_counter_consumed (E : EVP Ctx Cipher) (st : State Ctx) (rec : SSL3_RECORD)
    (sending : Bool) (c : Ctx) (cipher : Cipher) (k : Nat)
    (hc : dirCtx st sending = some c)
    (hciph : E.CIPHER_CTX_get0_cipher (some c) = some cipher)
    (hty : rec.type ≠ SSL3_RT_ALERT)
    (h8 : 8 ≤ E.CIPHER_CTX_get_iv_length c)
    (hlen : sending = false → st.taglen + 1 ≤ rec.length)
    (hseq : dirSeq st sending = putValue 8 k) (hk : k < 2 ^ 64 - 1) :
    dirSeq (tls13_cipher E st [rec] 1 sending).2.1 sending = putValue 8 (k + 1) ∧
    (sending = false →
      (tls13_cipher E st [rec] 1 sending).2.2 =
        [{ rec with length := rec.length - st.taglen }]) := by
  rw [cipher_one]
  simp only []
  obtain ⟨hne, hinc⟩ := incrementLoop_putValue k hk
  rw [rec_eq E st rec sending c cipher hc hciph hty hlen h8, hseq, if_neg hne, hinc]
  obtain ⟨hw, hr, _, _, _⟩ := crypt_frame E (setSeq st sending (putValue 8 (k + 1)))
    (if sending then rec else { rec with length := rec.length - st.taglen }) sending c
    (E.CIPHER_get_mode cipher)
    (deriveNonce (dirIV st sending) (putValue 8 k) (E.CIPHER_CTX_get_iv_length c))
  refine ⟨?_, ?_⟩
  · rw [dirSeq_of_fields _ _ hw hr, setSeq_dirSeq]
  · intro hs
    subst hs
    rw [crypt_open_rec]
    simp

/-- C20, witness: opening the scenario record with a corrupted tag fails, the
read counter has moved from zero to one and the record is left 16 bytes
shorter. -/
theorem C20_counter_consumed_witness :
    (tls13_cipher toyEVP (openState tamperedMem) [wireRec] 1 false).1 = 0 ∧
    dirSeq (openState tamperedMem) false = putValue 8 0 ∧
    dirSeq (tls13_cipher toyEVP (openState tamperedMem) [wireRec] 1 false).2.1 false =
      putValue 8 (0 + 1) ∧
    (false = false →
      (tls13_cipher toyEVP (openState tamperedMem) [wireRec] 1 false).2.2 =
        [{ wireRec with length := wireRec.length - (openState tamperedMem).taglen }]) :=
  ⟨by decide, by decide,
    C20_counter_consumed toyEVP (openState tamperedMem) wireRec false (toyCtx 6) 6 0
      (by decide) (by decide) (by decide) (by decide) (by decide) (by decide) (by decide)⟩

/-- The feeding stage on open: it returns 0 or 1, it always issues an update,
and when it returns 1 every call it issued succeeded and the bytes produced by
the payload update and the finalisation add up to the record length. -/
theorem feed_open_outcome (E : EVP Ctx Cipher) (st : State Ctx) (rec : SSL3_RECORD)
    (c : Ctx) (mode : Nat) (hdr : List Nat) :
    ((tls13_cipher_feed E st rec false c mode hdr).1 = 0 ∨
      (tls13_cipher_feed E st rec false c mode hdr).1 = 1) ∧
    (∃ x ∈ newCalls st (tls13_cipher_feed E st rec false c mode hdr).2.1, ∃ o i l,
      x.1 = EvpCall.CipherUpdate o i l) ∧
    ((tls13_cipher_feed E st rec false c mode hdr).1 = 1 →
      (∀ x ∈ newCalls st (tls13_cipher_feed E st rec false c mode hdr).2.1, x.2 ≠ none) ∧
      ∀ x ∈ newCalls st (tls13_cipher_feed E st rec false c mode hdr).2.1,
        ∀ y ∈ newCalls st (tls13_cipher_feed E st rec false c mode hdr).2.1,
        ∀ outu outf, kindOf x.1 = CallKind.payload → x.2 = some outu →
          kindOf y.1 = CallKind.finalise → y.2 = some outf →
          outu.length + outf.length = rec.length) := by
  unfold tls13_cipher_feed newCalls
  by_cases hm : mode = EVP_CIPH_CCM_MODE <;>
    simp only [hm, if_true, if_false, Bool.false_eq_true] <;>
    (repeat' split) <;> simp_all [kindOf]

/-- An open whose log holds an operation other than the nonce binding and the
expected tag has reached the feeding stage: the call is that stage run on the
record with the tag taken off, and the operations of the stage are the
operations of the call other than those two. -/
theorem rec_open_reaches_feed (E : EVP Ctx Cipher) (st : State Ctx) (rec : SSL3_RECORD)
    (h : ∃ x ∈ newCalls st (tls13_cipher_rec E st rec false).2.1,
      kindOf x.1 ≠ CallKind.bindNonce ∧ kindOf x.1 ≠ CallKind.setTag) :
    ∃ (stS : State Ctx) (cS : Ctx) (mode : Nat) (hdr : List Nat),
      tls13_cipher_rec E st rec false =
        tls13_cipher_feed E stS { rec with length := rec.length - st.taglen } false cS mode
          hdr ∧
      (∀ y ∈ newCalls st (tls13_cipher_rec E st rec false).2.1,
        kindOf y.1 ≠ CallKind.bindNonce → kindOf y.1 ≠ CallKind.setTag →
        y ∈ newCalls stS (tls13_cipher_feed E stS
          { rec with length := rec.length - st.taglen } false cS mode hdr).2.1) ∧
      (∀ y ∈ newCalls stS (tls13_cipher_feed E stS
          { rec with length := rec.length - st.taglen } false cS mode hdr).2.1,
        y ∈ newCalls st (tls13_cipher_rec E st rec false).2.1) := by
  obtain ⟨x, hx, hk1, hk2⟩ := h
  rcases rec_log E st rec false with ⟨h0, _⟩ | ⟨c, ci, _, _, _, _, he, hn⟩
  · rw [h0] at hx
    simp at hx
  · simp only [Bool.false_eq_true, if_false] at he hn
    obtain ⟨pre, rest, hsplit, hprek, _, hrest⟩ := crypt_log E
      (setSeq st false (incrementLoop SEQ_NUM_SIZE (dirSeq st false)).2)
      { rec with length := rec.length - st.taglen } false c (E.CIPHER_get_mode ci)
      (deriveNonce (dirIV st false) (dirSeq st false) (E.CIPHER_CTX_get_iv_length c))
    have hprekind : ∀ y ∈ pre, kindOf y.1 = CallKind.bindNonce ∨ kindOf y.1 = CallKind.setTag := by
      intro y hy
      have hm : kindOf y.1 ∈ kindsOf pre := List.mem_map_of_mem (fun x => kindOf x.1) hy
      have := List.IsPrefix.subset hprek hm
      simpa using this
    rw [hn, hsplit] at hx
    have hxr : x ∈ rest := by
      rcases List.mem_append.1 hx with h1 | h1
      · rcases hprekind x h1 with h2 | h2
        · exact absurd h2 hk1
        · exact absurd h2 hk2
      · exact h1
    rcases hrest with ⟨h0, _⟩ | ⟨_, stS, cS, hdr, _, hfeed, hr⟩
    · rw [h0] at hxr
      simp at hxr
    · refine ⟨stS, cS, E.CIPHER_get_mode ci, hdr, ?_, ?_, ?_⟩
      · rw [he, hfeed]
      · intro y hy hy1 hy2
        rw [hn, hsplit] at hy
        rcases List.mem_append.1 hy with h1 | h1
        · rcases hprekind y h1 with h2 | h2
          · exact absurd h2 hy1
          · exact absurd h2 hy2
        · rw [← hr]
          exact h1
      · intro y hy
        rw [hn, hsplit, hr]
        exact List.mem_append_right _ hy

/-- C9 (uniform operational failure): on open, when a call to the AEAD
primitive that feeds the length, the associated data or the ciphertext, or
that finalises (tag mismatch or any other decrypt error), has returned
failure, or when the bytes produced by the payload update and the
finalisation do not add up to the tag-stripped record length, `tls13_cipher`
returns 0 and raises no fatal error. That is the result of the
undersized-input failure, which also returns 0 and raises no fatal error: the
two cannot be told apart by return value or fatal status. -/
theorem C9_uniform_failure (E : EVP Ctx Cipher) (stA stB : State Ctx)
    (recA recB : SSL3_RECORD) (cA : Ctx) (ciA : Cipher)
    (hcA : dirCtx stA false = some cA)
    (hciA : E.CIPHER_CTX_get0_cipher (some cA) = some ciA)
    (htyA : recA.type ≠ SSL3_RT_ALERT) (hshort : recA.length < stA.taglen + 1)
    (hB : (∃ x ∈ newCalls stB (tls13_cipher E stB [recB] 1 false).2.1, x.2 = none ∧
          (kindOf x.1 = CallKind.primeLength ∨ kindOf x.1 = CallKind.feedAad ∨
            kindOf x.1 = CallKind.payload ∨ kindOf x.1 = CallKind.finalise)) ∨
        (∃ x ∈ newCalls stB (tls13_cipher E stB [recB] 1 false).2.1,
          ∃ y ∈ newCalls stB (tls13_cipher E stB [recB] 1 false).2.1,
          ∃ outu outf, kindOf x.1 = CallKind.payload ∧ x.2 = some outu ∧
            kindOf y.1 = CallKind.finalise ∧ y.2 = some outf ∧
            outu.length + outf.length ≠ recB.length - stB.taglen)) :
    (tls13_cipher E stB [recB] 1 false).1 = 0 ∧
    newFatals stB (tls13_cipher E stB [recB] 1 false).2.1 = [] ∧
    (tls13_cipher E stA [recA] 1 false).1 = 0 ∧
    newFatals stA (tls13_cipher E stA [recA] 1 false).2.1 = [] ∧
    ((tls13_cipher E stA [recA] 1 false).1,
        newFatals stA (tls13_cipher E stA [recA] 1 false).2.1) =
      ((tls13_cipher E stB [recB] 1 false).1,
        newFatals stB (tls13_cipher E stB [recB] 1 false).2.1) := by
  have eA : tls13_cipher E stA [recA] 1 false = (0, stA, [recA]) := by
    rw [cipher_one]
    simp [tls13_cipher_rec, hcA, hciA, htyA, hshort]
  rw [cipher_one] at hB
  simp only [] at hB
  have hreach : ∃ x ∈ newCalls stB (tls13_cipher_rec E stB recB false).2.1,
      kindOf x.1 ≠ CallKind.bindNonce ∧ kindOf x.1 ≠ CallKind.setTag := by
    rcases hB with ⟨x, hx, _, hk⟩ | ⟨x, hx, _, _, _, _, hk, _⟩
    · refine ⟨x, hx, ?_⟩
      rcases hk with hk | hk | hk | hk <;> rw [hk] <;> exact ⟨by decide, by decide⟩
    · refine ⟨x, hx, ?_⟩
      rw [hk]
      exact ⟨by decide, by decide⟩
  obtain ⟨stS, cS, mode, hdr, hfeed, hin, hout⟩ := rec_open_reaches_feed E stB recB hreach
  obtain ⟨h01, ⟨u, hu, o, i, l, hue⟩, hok⟩ := feed_open_outcome E stS
    { recB with length := recB.length - stB.taglen } cS mode hdr
  have hret : (tls13_cipher_rec E stB recB false).1 = 0 := by
    rw [hfeed]
    rcases h01 with h0 | h1
    · exact h0
    · exfalso
      obtain ⟨hall, hsum⟩ := hok h1
      rcases hB with ⟨x, hx, hnone, hk⟩ | ⟨x, hx, y, hy, outu, outf, hkx, hxo, hky, hyo, hne⟩
      · have hxin := hin x hx
          (by rcases hk with hk | hk | hk | hk <;> rw [hk] <;> decide)
          (by rcases hk with hk | hk | hk | hk <;> rw [hk] <;> decide)
        exact hall x hxin hnone
      · have hxin := hin x hx (by rw [hkx]; decide) (by rw [hkx]; decide)
        have hyin := hin y hy (by rw [hky]; decide) (by rw [hky]; decide)
        exact hne (hsum x hxin y hyin outu outf hkx hxo hky hyo)
  have hfat : newFatals stB (tls13_cipher_rec E stB recB false).2.1 = [] := by
    have := rec_open_fed_fatals E stB recB ⟨u, hout u hu, o, i, l, hue⟩
    simp [newFatals, this]
  rw [cipher_one, eA]
  simp only []
  rw [hret, hfat]
  simp [newFatals]

/-- C9, witness: an open of the scenario record with a corrupted tag, where
finalisation fails, and an open with a library that produces no bytes, where
the produced length is 0 instead of 2: both return 0 without a fatal error, as
the open of the 16-byte record does. -/
theorem C9_uniform_failure_witness :
    (dirCtx (openState sealedMem) false = some (toyCtx 6) ∧
      toyEVP.CIPHER_CTX_get0_cipher (some (toyCtx 6)) = some 6 ∧
      shortRec.type ≠ SSL3_RT_ALERT ∧ shortRec.length < (openState sealedMem).taglen + 1) ∧
    ((EvpCall.CipherFinal_ex 102, (none : Option (List Nat))) ∈
        newCalls (openState tamperedMem)
          (tls13_cipher toyEVP (openState tamperedMem) [wireRec] 1 false).2.1 ∧
      (tls13_cipher toyEVP (openState tamperedMem) [wireRec] 1 false).1 = 0 ∧
      newFatals (openState tamperedMem)
        (tls13_cipher toyEVP (openState tamperedMem) [wireRec] 1 false).2.1 = []) ∧
    ((EvpCall.CipherUpdate (some 100) (some [38, 39]) 2, some []) ∈
        newCalls (openState sealedMem)
          (tls13_cipher lossyEVP (openState sealedMem) [wireRec] 1 false).2.1 ∧
      (EvpCall.CipherFinal_ex 100, some []) ∈
        newCalls (openState sealedMem)
          (tls13_cipher lossyEVP (openState sealedMem) [wireRec] 1 false).2.1 ∧
      (tls13_cipher lossyEVP (openState sealedMem) [wireRec] 1 false).1 = 0 ∧
      newFatals (openState sealedMem)
        (tls13_cipher lossyEVP (openState sealedMem) [wireRec] 1 false).2.1 = []) ∧
    (tls13_cipher toyEVP (openState sealedMem) [shortRec] 1 false).1 = 0 ∧
    newFatals (openState sealedMem)
      (tls13_cipher toyEVP (openState sealedMem) [shortRec] 1 false).2.1 = [] :=
  ⟨⟨rfl, rfl, by decide, by decide⟩,
    ⟨by decide,
      (C9_uniform_failure toyEVP (openState sealedMem) (openState tamperedMem) shortRec
        wireRec (toyCtx 6) 6 rfl rfl (by decide) (by decide)
        (Or.inl ⟨(EvpCall.CipherFinal_ex 102, none), by decide, rfl,
          Or.inr (Or.inr (Or.inr rfl))⟩)).1,
      (C9_uniform_failure toyEVP (openState sealedMem) (openState tamperedMem) shortRec
        wireRec (toyCtx 6) 6 rfl rfl (by decide) (by decide)
        (Or.inl ⟨(EvpCall.CipherFinal_ex 102, none), by decide, rfl,
          Or.inr (Or.inr (Or.inr rfl))⟩)).2.1⟩,
    ⟨by decide, by decide,
      (C9_uniform_failure lossyEVP (openState sealedMem) (openState sealedMem) shortRec
        wireRec (toyCtx 6) 6 rfl rfl (by decide) (by decide)
        (Or.inr ⟨(EvpCall.CipherUpdate (some 100) (some [38, 39]) 2, some []), by decide,
          (EvpCall.CipherFinal_ex 100, some []), by decide, [], [], rfl, rfl, rfl, rfl,
          by decide⟩)).1,
      (C9_uniform_failure lossyEVP (openState sealedMem) (openState sealedMem) shortRec
        wireRec (toyCtx 6) 6 rfl rfl (by decide) (by decide)
        (Or.inr ⟨(EvpCall.CipherUpdate (some 100) (some [38, 39]) 2, some []), by decide,
          (EvpCall.CipherFinal_ex 100, some []), by decide, [], [], rfl, rfl, rfl, rfl,
          by decide⟩)).2.1⟩,
    (C9_uniform_failure toyEVP (openState sealedMem) (openState tamperedMem) shortRec
      wireRec (toyCtx 6) 6 rfl rfl (by decide) (by decide)
      (Or.inl ⟨(EvpCall.CipherFinal_ex 102, none), by decide, rfl,
        Or.inr (Or.inr (Or.inr rfl))⟩)).2.2.1,
    (C9_uniform_failure toyEVP (openState sealedMem) (openState tamperedMem) shortRec
      wireRec (toyCtx 6) 6 rfl rfl (by decide) (by decide)
      (Or.inl ⟨(EvpCall.CipherFinal_ex 102, none), by decide, rfl,
        Or.inr (Or.inr (Or.inr rfl))⟩)).2.2.2.1⟩

end Tls13
